import Mathlib

/-!
# SpeedyStepper: motion planner and ramp scheduler

A shallow embedding of `src/testStepper/SpeedyStepper.cpp` (class declared in
`src/Slave/SpeedyStepper.h`).

Modelling conventions

* `long` and `int` members are `Int`.  Signed overflow is undefined behaviour in
  C++, so positions and distances are covered where every signed result is
  representable.  The two places where the planner leaves that range on ordinary
  inputs are modelled on the 32-bit `long` of the targets: the conversion of the
  braking distance to `long` (`toLong`) and the product
  `decelerationDistance_InSteps * 2L` (`wrapLong`).
* `unsigned long` clock values are `Nat`; the one unsigned subtraction of the
  program is computed modulo `2 ^ 32` (`subULong`).
* `float` members are `ℚ`.  The braking distance of the planner, which is
  converted to an integer, is computed as the program computes it: every
  operation rounds to the nearest 32-bit float (`toFloat`; `double` is the same
  32-bit type on the AVR targets).  The step periods, which stay floats, are
  computed with exact arithmetic.  `sqrt` is a library routine; it is a
  parameter of every function that reaches it.
* `micros()` is an input: `processMovement` receives the values returned by its
  two calls of `micros()` (the first one is only made on the first poll of a
  move).
* Writes to the step pin are reported in the result of `processMovement`
  (`pulse`); the write to the direction pin is kept in `directionPinLevel`.
  `Serial` output and the debug pin 10 have no effect on the axis state and are
  left out, as are the pin numbers and the millimetre / revolution scale
  factors, which none of the functions below reads.
* The two long functions, `setupMoveInSteps` and `processMovement`, are written
  as the composition of their consecutive blocks of statements; each block is a
  definition of its own, named after what the source comment above it says.
* `moveToHomeInSteps` reads the switch and the clock from a `World`: the sequence
  of values `digitalRead` returns and the sequence of values `micros()` returns,
  with the number of reads made so far.  Its three `while` loops take a bound on
  the number of iterations and return `none` when it is used up; `delay` has no
  effect on the state.
* Runs of `processMovement` are lists of polls (`pollTrace`); the step periods a
  run records are those of the recurrence `rampStep` (`rampList`).
-/

namespace SpeedyStepper

/-- Number of values of an `unsigned long` (32 bits on the Arduino targets). -/
def ULONG_MOD : Nat := 2 ^ 32

/-- Unsigned subtraction `a - b` on `unsigned long`: wraps modulo `2 ^ 32`. -/
def subULong (a b : Nat) : Nat :=
  (a % ULONG_MOD + (ULONG_MOD - b % ULONG_MOD)) % ULONG_MOD

/-- The conversion `(unsigned long) x` of a float: the fractional part is
discarded.  Values outside the range of `unsigned long` are undefined in C++;
here a negative value gives `0` and a large one is reduced modulo `2 ^ 32`. -/
def toULong (x : ℚ) : Nat :=
  (Int.toNat (Int.floor x)) % ULONG_MOD

/-- The C library function `round`: nearest integer, halfway cases away from zero. -/
def roundHalfAway (x : ℚ) : Int :=
  if 0 ≤ x then Int.floor (x + 1 / 2) else -Int.floor (-x + 1 / 2)

/-- Nearest integer, halfway cases to the even one. -/
def roundHalfEven (x : ℚ) : Int :=
  if x - Int.floor x < 1 / 2 then Int.floor x
  else if 1 / 2 < x - Int.floor x then Int.floor x + 1
  else if Int.floor x % 2 = 0 then Int.floor x
  else Int.floor x + 1

/-- The result of a `float` operation whose exact value is `x`: the nearest number
with a 24-bit significand and an exponent of at least -126 (IEEE 754 binary32,
round to nearest, halfway cases to the even significand).  A result beyond the
largest float is an infinity in the program; here it stays the rounded number. -/
def toFloat (x : ℚ) : ℚ :=
  if x = 0 then 0
  else
    (roundHalfEven (x / 2 ^ (max (Int.log 2 |x|) (-126) - 23)) : ℚ)
      * 2 ^ (max (Int.log 2 |x|) (-126) - 23)

/-- The conversion `(long) x` of a float whose value is the integer `n`, on a 32-bit
`long`.  Out of range the conversion is undefined in C++; here it gives `-2 ^ 31`,
the value that 32-bit builds of the program produce. -/
def toLong (n : Int) : Int :=
  if -2147483648 ≤ n ∧ n < 2147483648 then n else -2147483648

/-- The result of a `long` operation whose mathematical value is `n`, on a 32-bit
`long`: `n` reduced modulo `2 ^ 32` into `-2 ^ 31 .. 2 ^ 31 - 1` (signed overflow is
undefined in C++; 32-bit builds of the program wrap). -/
def wrapLong (n : Int) : Int :=
  (n + 2147483648) % 4294967296 - 2147483648

/-- The right-hand side of the assignment to `decelerationDistance_InSteps` in
`setupMoveInSteps`: `(long) round((v * v) / (2.0 * a))`, every operation in 32-bit
floats (`double` is the 32-bit float on the AVR targets; where the quotient is a
float, a wider `double` gives the same value). -/
def brakingSteps (v a : ℚ) : Int :=
  toLong (roundHalfAway (toFloat (toFloat (v * v) / toFloat (2 * a))))

end SpeedyStepper

/-- The private member variables of `class SpeedyStepper` that the step
functions use, and the level last written to the direction pin. -/
structure SpeedyStepper where
  desiredSpeed_InStepsPerSecond : ℚ
  acceleration_InStepsPerSecondPerSecond : ℚ
  targetPosition_InSteps : Int
  startNewMove : Bool
  desiredStepPeriod_InUS : ℚ
  decelerationDistance_InSteps : Int
  direction_Scaler : Int
  ramp_InitialStepPeriod_InUS : ℚ
  ramp_NextStepPeriod_InUS : ℚ
  ramp_LastStepTime_InUS : Nat
  acceleration_InStepsPerUSPerUS : ℚ
  currentStepPeriod_InUS : ℚ
  currentPosition_InSteps : Int
  directionPinLevel : Bool
  deriving DecidableEq

namespace SpeedyStepper

/-- What one call of `processMovement` produces: the axis state afterwards,
the returned `bool`, and whether the step pin was pulsed. -/
structure PollResult where
  stepper : SpeedyStepper
  result : Bool
  pulse : Bool
  deriving DecidableEq

/-- Source function `SpeedyStepper::setCurrentPositionInSteps`. -/
def setCurrentPositionInSteps (s : SpeedyStepper) (currentPositionInSteps : Int) :
    SpeedyStepper :=
  { s with currentPosition_InSteps := currentPositionInSteps }

/-- Source function `SpeedyStepper::getCurrentPositionInSteps`. -/
def getCurrentPositionInSteps (s : SpeedyStepper) : Int :=
  s.currentPosition_InSteps

/-- Source function `SpeedyStepper::setupStop`. -/
def setupStop (s : SpeedyStepper) : SpeedyStepper :=
  if s.direction_Scaler > 0 then
    { s with
      targetPosition_InSteps := s.currentPosition_InSteps + s.decelerationDistance_InSteps }
  else
    { s with
      targetPosition_InSteps := s.currentPosition_InSteps - s.decelerationDistance_InSteps }

/-- Source function `SpeedyStepper::setSpeedInStepsPerSecond`. -/
def setSpeedInStepsPerSecond (s : SpeedyStepper) (speedInStepsPerSecond : ℚ) :
    SpeedyStepper :=
  { s with desiredSpeed_InStepsPerSecond := speedInStepsPerSecond }

/-- Source function `SpeedyStepper::setAccelerationInStepsPerSecondPerSecond`. -/
def setAccelerationInStepsPerSecondPerSecond (s : SpeedyStepper)
    (accelerationInStepsPerSecondPerSecond : ℚ) : SpeedyStepper :=
  { s with
    acceleration_InStepsPerSecondPerSecond := accelerationInStepsPerSecondPerSecond }

/-- First statements of `setupMoveInSteps`: save the target location, then
compute the period of the first step, the period at the desired velocity and the
number of steps needed to go from the desired velocity down to 0
(`Steps = Velocity^2 / (2 * Acceleration)`, rounded). -/
def planMove (sqrtf : ℚ → ℚ) (s : SpeedyStepper)
    (absolutePositionToMoveToInSteps : Int) : SpeedyStepper :=
  { s with
    targetPosition_InSteps := absolutePositionToMoveToInSteps
    ramp_InitialStepPeriod_InUS :=
      1000000 / sqrtf (2 * s.acceleration_InStepsPerSecondPerSecond)
    desiredStepPeriod_InUS := 1000000 / s.desiredSpeed_InStepsPerSecond
    decelerationDistance_InSteps :=
      brakingSteps s.desiredSpeed_InStepsPerSecond s.acceleration_InStepsPerSecondPerSecond }

/-- The local `distanceToTravel_InSteps` of `setupMoveInSteps`, after the sign
test: `target - current`, negated when negative. -/
def distanceToTravel (s : SpeedyStepper) : Int :=
  if s.targetPosition_InSteps - s.currentPosition_InSteps < 0 then
    -(s.targetPosition_InSteps - s.currentPosition_InSteps)
  else s.targetPosition_InSteps - s.currentPosition_InSteps

/-- The block of `setupMoveInSteps` that determines the direction to travel and
writes the direction pin (`true` is `HIGH`). -/
def planDirection (s : SpeedyStepper) : SpeedyStepper :=
  if s.targetPosition_InSteps - s.currentPosition_InSteps < 0 then
    { s with direction_Scaler := -1, directionPinLevel := true }
  else
    { s with direction_Scaler := 1, directionPinLevel := false }

/-- The block of `setupMoveInSteps` that checks if the travel distance is too short
to accelerate up to the desired velocity. -/
def clipDeceleration (s : SpeedyStepper) : SpeedyStepper :=
  if distanceToTravel s ≤ wrapLong (s.decelerationDistance_InSteps * 2) then
    { s with decelerationDistance_InSteps := Int.tdiv (distanceToTravel s) 2 }
  else s

/-- Last statements of `setupMoveInSteps`: start the acceleration ramp at the
beginning. -/
def startRamp (s : SpeedyStepper) : SpeedyStepper :=
  { s with
    ramp_NextStepPeriod_InUS := s.ramp_InitialStepPeriod_InUS
    acceleration_InStepsPerUSPerUS :=
      s.acceleration_InStepsPerSecondPerSecond / 1000000000000
    startNewMove := true }

/-- Source function `SpeedyStepper::setupMoveInSteps`: its statements in order, as
the composition of the blocks above. -/
def setupMoveInSteps (sqrtf : ℚ → ℚ) (s : SpeedyStepper)
    (absolutePositionToMoveToInSteps : Int) : SpeedyStepper :=
  startRamp (clipDeceleration (planDirection
    (planMove sqrtf s absolutePositionToMoveToInSteps)))

/-- Source function `SpeedyStepper::setupRelativeMoveInSteps`. -/
def setupRelativeMoveInSteps (sqrtf : ℚ → ℚ) (s : SpeedyStepper)
    (distanceToMoveInSteps : Int) : SpeedyStepper :=
  setupMoveInSteps sqrtf s (s.currentPosition_InSteps + distanceToMoveInSteps)

/-- The block of `processMovement` run on the first call of a new move: record the
clock and clear `startNewMove`. -/
def startOfMove (s : SpeedyStepper) (microsFirst : Nat) : SpeedyStepper :=
  if s.startNewMove then
    { s with ramp_LastStepTime_InUS := microsFirst, startNewMove := false }
  else s

/-- The local `distanceToTarget_InSteps` of `processMovement`. -/
def distanceToTarget (s : SpeedyStepper) : Int :=
  if s.targetPosition_InSteps - s.currentPosition_InSteps < 0 then
    -(s.targetPosition_InSteps - s.currentPosition_InSteps)
  else s.targetPosition_InSteps - s.currentPosition_InSteps

/-- The block of `processMovement` that changes from accelerating to
decelerating when the remaining distance equals the deceleration distance. -/
def beginDeceleration (s : SpeedyStepper) : SpeedyStepper :=
  if distanceToTarget s = s.decelerationDistance_InSteps then
    { s with acceleration_InStepsPerUSPerUS := -s.acceleration_InStepsPerUSPerUS }
  else s

/-- The block of `processMovement` that updates the current position and speed
(the step pin is pulsed around it). -/
def takeStep (s : SpeedyStepper) : SpeedyStepper :=
  { s with
    currentPosition_InSteps := s.currentPosition_InSteps + s.direction_Scaler
    currentStepPeriod_InUS := s.ramp_NextStepPeriod_InUS }

/-- The block of `processMovement` that computes the period for the next step:
`StepPeriodInUS = LastStepPeriodInUS * (1 - AccelerationInStepsPerUSPerUS * LastStepPeriodInUS^2)`. -/
def nextPeriod (s : SpeedyStepper) : SpeedyStepper :=
  { s with
    ramp_NextStepPeriod_InUS :=
      s.ramp_NextStepPeriod_InUS *
        (1 - s.acceleration_InStepsPerUSPerUS * s.ramp_NextStepPeriod_InUS
              * s.ramp_NextStepPeriod_InUS) }

/-- The block of `processMovement` that clips the speed so that it does not
accelerate beyond the desired velocity. -/
def clipPeriod (s : SpeedyStepper) : SpeedyStepper :=
  if s.ramp_NextStepPeriod_InUS < s.desiredStepPeriod_InUS then
    { s with ramp_NextStepPeriod_InUS := s.desiredStepPeriod_InUS }
  else s

/-- The statements of `processMovement` from the deceleration test to the update
of `ramp_LastStepTime_InUS`, in order; `now` is `currentTime_InUS`. -/
def emitStep (s : SpeedyStepper) (now : Nat) : SpeedyStepper :=
  { clipPeriod (nextPeriod (takeStep (beginDeceleration s))) with
    ramp_LastStepTime_InUS := now }

/-- Source function `SpeedyStepper::processMovement`.  `microsFirst` is the value of
the call of `micros()` made when `startNewMove` is set, `microsSecond` the value
of the call that reads `currentTime_InUS`.  In order: the test for being at the
target; the start-of-move block; the test `periodSinceLastStep_InUS <
(unsigned long) ramp_NextStepPeriod_InUS`; the step (`emitStep`); the final test
for the target, which resets `currentStepPeriod_InUS`. -/
def processMovement (s : SpeedyStepper) (microsFirst microsSecond : Nat) : PollResult :=
  if s.currentPosition_InSteps = s.targetPosition_InSteps then
    { stepper := s, result := true, pulse := false }
  else if subULong microsSecond (startOfMove s microsFirst).ramp_LastStepTime_InUS
      < toULong (startOfMove s microsFirst).ramp_NextStepPeriod_InUS then
    { stepper := startOfMove s microsFirst, result := false, pulse := false }
  else if (emitStep (startOfMove s microsFirst) microsSecond).currentPosition_InSteps
      = (emitStep (startOfMove s microsFirst) microsSecond).targetPosition_InSteps then
    { stepper :=
        { emitStep (startOfMove s microsFirst) microsSecond with currentStepPeriod_InUS := 0 },
      result := true, pulse := true }
  else
    { stepper := emitStep (startOfMove s microsFirst) microsSecond,
      result := false, pulse := true }

/-- Source function `SpeedyStepper::getCurrentVelocityInStepsPerSecond`. -/
def getCurrentVelocityInStepsPerSecond (s : SpeedyStepper) : ℚ :=
  if s.currentStepPeriod_InUS = 0 then 0
  else if s.direction_Scaler > 0 then 1000000 / s.currentStepPeriod_InUS
  else -1000000 / s.currentStepPeriod_InUS

/-- Source function `SpeedyStepper::motionComplete`. -/
def motionComplete (s : SpeedyStepper) : Bool :=
  if s.currentPosition_InSteps = s.targetPosition_InSteps then true else false

/-- One poll as seen from outside: the state before it and what it produced. -/
structure PollRecord where
  before : SpeedyStepper
  after : PollResult
  deriving DecidableEq

/-- A run of successive calls of `processMovement`, one per pair of clock
readings, with no other call in between. -/
def pollTrace (s : SpeedyStepper) : List (Nat × Nat) → List PollRecord
  | [] => []
  | t :: ts =>
    let r := processMovement s t.1 t.2
    { before := s, after := r } :: pollTrace r.stepper ts

/-- Number of step pulses emitted in a run. -/
def pulseCount (tr : List PollRecord) : Nat :=
  (tr.filter (fun x => x.after.pulse)).length

/-- The two configuration calls a caller makes before planning a move:
`setSpeedInStepsPerSecond(v)` then `setAccelerationInStepsPerSecondPerSecond(a)`. -/
def configure (s : SpeedyStepper) (v a : ℚ) : SpeedyStepper :=
  setAccelerationInStepsPerSecondPerSecond (setSpeedInStepsPerSecond s v) a

/-- The state a `SpeedyStepper` object has after its constructor ran on a
zero-initialised (global) object. -/
def constructed : SpeedyStepper :=
  { desiredSpeed_InStepsPerSecond := 200
    acceleration_InStepsPerSecondPerSecond := 200
    targetPosition_InSteps := 0
    startNewMove := false
    desiredStepPeriod_InUS := 0
    decelerationDistance_InSteps := 0
    direction_Scaler := 0
    ramp_InitialStepPeriod_InUS := 0
    ramp_NextStepPeriod_InUS := 0
    ramp_LastStepTime_InUS := 0
    acceleration_InStepsPerUSPerUS := 0
    currentStepPeriod_InUS := 0
    currentPosition_InSteps := 0
    directionPinLevel := false }

/-- A square root routine with six decimals, exact on the squares of such
numbers; used where a concrete `sqrt` is needed to run the model. -/
def sqrtMicro (x : ℚ) : ℚ :=
  (Nat.sqrt (Int.toNat (Int.floor (x * 1000000000000)))) / 1000000

/-- Whether a poll changed the sign of `acceleration_InStepsPerUSPerUS`. -/
def signFlipped (x : PollRecord) : Bool :=
  decide (SignType.sign x.after.stepper.acceleration_InStepsPerUSPerUS
    ≠ SignType.sign x.before.acceleration_InStepsPerUSPerUS)

/-- Number of polls of a run that changed the sign of the acceleration term. -/
def signFlipCount (tr : List PollRecord) : Nat :=
  (tr.filter signFlipped).length

/-- Example state: what `setupRelativeMoveInSteps(1)` leaves on the constructed axis
configured with speed 3 and acceleration 2 (`plannedOne_eq`). -/
def plannedOne : SpeedyStepper :=
  { desiredSpeed_InStepsPerSecond := 3
    acceleration_InStepsPerSecondPerSecond := 2
    targetPosition_InSteps := 1
    startNewMove := true
    desiredStepPeriod_InUS := 1000000 / 3
    decelerationDistance_InSteps := 0
    direction_Scaler := 1
    ramp_InitialStepPeriod_InUS := 500000
    ramp_NextStepPeriod_InUS := 500000
    ramp_LastStepTime_InUS := 0
    acceleration_InStepsPerUSPerUS := 2 / 1000000000000
    currentStepPeriod_InUS := 0
    currentPosition_InSteps := 0
    directionPinLevel := false }

/-- Example state: the same axis with a move of 2 steps planned (`plannedTwo_eq`). -/
def plannedTwo : SpeedyStepper :=
  { plannedOne with targetPosition_InSteps := 2, decelerationDistance_InSteps := 1 }

/-- Example state: the same axis with a move of 10 steps planned (`plannedTen_eq`). -/
def plannedTen : SpeedyStepper :=
  { plannedOne with targetPosition_InSteps := 10, decelerationDistance_InSteps := 2 }

/-- Example state: `plannedTen` after a first poll at time 0 and a second poll at
time 500000, which emitted the first step (`cruisingTen_eq`). -/
def cruisingTen : SpeedyStepper :=
  { plannedTen with
    startNewMove := false
    currentPosition_InSteps := 1
    currentStepPeriod_InUS := 500000
    ramp_NextStepPeriod_InUS := 1000000 / 3
    ramp_LastStepTime_InUS := 500000 }

/-- Example poll: the first poll of the 1-step move, at time 0. -/
def oneStepWait : PollRecord :=
  { before := plannedOne
    after := { stepper := { plannedOne with startNewMove := false },
               result := false, pulse := false } }

/-- Example poll: the second poll of the 1-step move, at time 500000. -/
def oneStepDone : PollRecord :=
  { before := { plannedOne with startNewMove := false }
    after := { stepper := { plannedOne with
                 startNewMove := false
                 currentPosition_InSteps := 1
                 ramp_NextStepPeriod_InUS := 1000000 / 3
                 ramp_LastStepTime_InUS := 500000 },
               result := true, pulse := true } }

/-- Example run: the two polls of the 1-step move (`plannedOne_trace`). -/
def oneStepRun : List PollRecord :=
  [oneStepWait, oneStepDone]

/-- Example state: `plannedTwo` after its first step, emitted at time 500000. -/
def steppedTwo : SpeedyStepper :=
  { plannedTwo with
    startNewMove := false
    currentPosition_InSteps := 1
    currentStepPeriod_InUS := 500000
    ramp_NextStepPeriod_InUS := 1000000 / 3
    ramp_LastStepTime_InUS := 500000 }

/-- Example poll: the first poll of the 2-step move, at time 0. -/
def twoStepWait : PollRecord :=
  { before := plannedTwo
    after := { stepper := { plannedTwo with startNewMove := false },
               result := false, pulse := false } }

/-- Example poll: the second poll of the 2-step move, at time 500000. -/
def twoStepFirst : PollRecord :=
  { before := { plannedTwo with startNewMove := false }
    after := { stepper := steppedTwo, result := false, pulse := true } }

/-- Example poll: the third poll of the 2-step move, at time 1000000. -/
def twoStepDone : PollRecord :=
  { before := steppedTwo
    after := { stepper := { steppedTwo with
                 currentPosition_InSteps := 2
                 currentStepPeriod_InUS := 0
                 acceleration_InStepsPerUSPerUS := -(2 / 1000000000000)
                 ramp_NextStepPeriod_InUS := 11000000 / 27
                 ramp_LastStepTime_InUS := 1000000 },
               result := true, pulse := true } }

/-- Example run: the three polls of the 2-step move (`plannedTwo_trace`). -/
def twoStepRun : List PollRecord :=
  [twoStepWait, twoStepFirst, twoStepDone]

/-- Example state: `cruisingTen` with its last step stamped 296 microseconds before
the 32-bit clock wraps. -/
def wrappingTen : SpeedyStepper :=
  { cruisingTen with ramp_LastStepTime_InUS := 4294967000 }

/-- Example state: the example axis with a move of 4 steps planned (`plannedFour_eq`). -/
def plannedFour : SpeedyStepper :=
  { plannedOne with targetPosition_InSteps := 4, decelerationDistance_InSteps := 2 }

/-- Example state: `plannedFour` after its first step, emitted at time 500000. -/
def steppedFour : SpeedyStepper :=
  { plannedFour with
    startNewMove := false
    currentPosition_InSteps := 1
    currentStepPeriod_InUS := 500000
    ramp_NextStepPeriod_InUS := 1000000 / 3
    ramp_LastStepTime_InUS := 500000 }

/-- Example state: `plannedFour` after its second step, emitted at time 900000. -/
def halfwayFour : SpeedyStepper :=
  { steppedFour with
    currentPosition_InSteps := 2
    currentStepPeriod_InUS := 1000000 / 3
    ramp_LastStepTime_InUS := 900000 }

/-- Example state: `plannedFour` after its third step, emitted at time 1300000, on
which deceleration began. -/
def brakingFour : SpeedyStepper :=
  { halfwayFour with
    currentPosition_InSteps := 3
    acceleration_InStepsPerUSPerUS := -(2 / 1000000000000)
    ramp_NextStepPeriod_InUS := 11000000 / 27
    ramp_LastStepTime_InUS := 1300000 }

/-- Example state: `brakingFour` after `setupStop` and one more step, emitted at time
1800000. -/
def restartedFour : SpeedyStepper :=
  { brakingFour with
    targetPosition_InSteps := 5
    currentPosition_InSteps := 4
    currentStepPeriod_InUS := 11000000 / 27
    acceleration_InStepsPerUSPerUS := 2 / 1000000000000
    ramp_NextStepPeriod_InUS := 1000000 / 3
    ramp_LastStepTime_InUS := 1800000 }

/-- Example poll: the first poll after `setupStop` in `brakingFour`, at time 1800000. -/
def stopFourFirst : PollRecord :=
  { before := setupStop brakingFour
    after := { stepper := restartedFour, result := false, pulse := true } }

/-- Example poll: the second poll after `setupStop` in `brakingFour`, at time 2200000. -/
def stopFourDone : PollRecord :=
  { before := restartedFour
    after := { stepper := { restartedFour with
                 currentPosition_InSteps := 5
                 currentStepPeriod_InUS := 0
                 ramp_LastStepTime_InUS := 2200000 },
               result := true, pulse := true } }

/-- The step period a stepping poll records: the value of `ramp_NextStepPeriod_InUS`
before the poll, which `processMovement` copies into `currentStepPeriod_InUS` when it
emits the step (`recordedPeriod_written`). -/
def recordedPeriod (x : PollRecord) : ℚ :=
  x.before.ramp_NextStepPeriod_InUS

/-- The step periods recorded at the emitted steps of a run, in order. -/
def recordedPeriods (tr : List PollRecord) : List ℚ :=
  (tr.filter (fun x => x.after.pulse)).map recordedPeriod

/-- The remaining distances at which the steps of a run were emitted, in order. -/
def remainingAtSteps (tr : List PollRecord) : List Int :=
  (tr.filter (fun x => x.after.pulse)).map (fun x => distanceToTarget x.before)

/-- Example state: the constructed axis configured with speed 1 and acceleration 2, with
a move of 3 steps planned (`plannedSlow_eq`). -/
def plannedSlow : SpeedyStepper :=
  { plannedOne with
    desiredSpeed_InStepsPerSecond := 1
    desiredStepPeriod_InUS := 1000000
    targetPosition_InSteps := 3 }

/-- Example state: `plannedSlow` after its first step, emitted at time 500000. -/
def steppedSlow : SpeedyStepper :=
  { plannedSlow with
    startNewMove := false
    currentPosition_InSteps := 1
    currentStepPeriod_InUS := 500000
    ramp_NextStepPeriod_InUS := 1000000
    ramp_LastStepTime_InUS := 500000 }

/-- The inputs `moveToHomeInSteps` consumes: `switch n` is the value of the `n`-th call of
`digitalRead(homeLimitSwitchPin)` (`true` is `HIGH`, the switch is inactive; `false`
is `LOW`), `clock n` the value of the `n`-th call of `micros()`; `reads` and `ticks`
count the calls made so far.  The calls of `delay` let time pass and are left to
`clock`. -/
structure World where
  switch : Nat → Bool
  clock : Nat → Nat
  reads : Nat
  ticks : Nat

/-- One call of `digitalRead(homeLimitSwitchPin)`. -/
def digitalRead (w : World) : Bool × World :=
  (w.switch w.reads, { w with reads := w.reads + 1 })

/-- One call of `micros()`. -/
def micros (w : World) : Nat × World :=
  (w.clock w.ticks, { w with ticks := w.ticks + 1 })

/-- One call of `processMovement()` with its calls of `micros()`: none when the axis is
at its target, two on the first poll of a move, one otherwise. -/
def pollOnce (s : SpeedyStepper) (w : World) : PollResult × World :=
  if s.currentPosition_InSteps = s.targetPosition_InSteps then
    (processMovement s 0 0, w)
  else if s.startNewMove = true then
    (processMovement s (micros w).1 (micros (micros w).2).1, (micros (micros w).2).2)
  else
    (processMovement s 0 (micros w).1, (micros w).2)

/-- The body of the three `while(!processMovement())` loops of `moveToHomeInSteps`:
`if (digitalRead == level) { digitalRead; delay(1); if (digitalRead == level)
{ digitalRead; delay(80); limitSwitchFlag = true; break; } }`.  The result is whether
the flag was set. -/
def debounce (level : Bool) (w : World) : Bool × World :=
  if (digitalRead w).1 = level then
    if (digitalRead (digitalRead (digitalRead w).2).2).1 = level then
      (true, (digitalRead (digitalRead (digitalRead (digitalRead w).2).2).2).2)
    else
      (false, (digitalRead (digitalRead (digitalRead w).2).2).2)
  else
    (false, (digitalRead w).2)

/-- One of the three loops `while(!processMovement()) { ... }` of `moveToHomeInSteps`,
waiting for the switch to read `level` (`LOW` when seeking and approaching, `HIGH`
when backing off).  The result is the axis, the inputs consumed and
`limitSwitchFlag`; `none` when the loop is still running after `fuel` iterations. -/
def homingLoop (level : Bool) : Nat → SpeedyStepper → World → Option (SpeedyStepper × World × Bool)
  | 0, _, _ => none
  | fuel + 1, s, w =>
    if (pollOnce s w).1.result = true then
      some ((pollOnce s w).1.stepper, (pollOnce s w).2, false)
    else if (debounce level (pollOnce s w).2).1 = true then
      some ((pollOnce s w).1.stepper, (debounce level (pollOnce s w).2).2, true)
    else
      homingLoop level fuel (pollOnce s w).1.stepper (debounce level (pollOnce s w).2).2

/-- The move planned for the third phase of `moveToHomeInSteps`:
`setSpeedInStepsPerSecond(speedInStepsPerSecond/8)`, then
`setupRelativeMoveInSteps(maxDistanceToMoveInSteps * directionTowardHome)`. -/
def approachPlan (sqrtf : ℚ → ℚ) (s : SpeedyStepper) (directionTowardHome : Int)
    (speedInStepsPerSecond : ℚ) (maxDistanceToMoveInSteps : Int) : SpeedyStepper :=
  setupRelativeMoveInSteps sqrtf (setSpeedInStepsPerSecond s (speedInStepsPerSecond / 8))
    (maxDistanceToMoveInSteps * directionTowardHome)

/-- Third phase of `moveToHomeInSteps` and its end: move toward the switch again but
slower; on success set the current position to 0 and restore the original
velocity. -/
def homeApproach (sqrtf : ℚ → ℚ) (fuel : Nat) (originalDesiredSpeed_InStepsPerSecond : ℚ)
    (directionTowardHome : Int) (speedInStepsPerSecond : ℚ) (maxDistanceToMoveInSteps : Int)
    (s : SpeedyStepper) (w : World) : Option (SpeedyStepper × World × Bool) :=
  match homingLoop false fuel
      (approachPlan sqrtf s directionTowardHome speedInStepsPerSecond maxDistanceToMoveInSteps)
      w with
  | none => none
  | some (s', w', limitSwitchFlag) =>
    if limitSwitchFlag = false then some (s', w', false)
    else
      some (setSpeedInStepsPerSecond (setCurrentPositionInSteps s' 0)
        originalDesiredSpeed_InStepsPerSecond, w', true)

/-- The move planned for the second phase of `moveToHomeInSteps`:
`setupRelativeMoveInSteps(maxDistanceToMoveInSteps * directionTowardHome * -1)`. -/
def backOffPlan (sqrtf : ℚ → ℚ) (s : SpeedyStepper) (directionTowardHome : Int)
    (maxDistanceToMoveInSteps : Int) : SpeedyStepper :=
  setupRelativeMoveInSteps sqrtf s (maxDistanceToMoveInSteps * directionTowardHome * -1)

/-- Second phase of `moveToHomeInSteps`: move away from the switch, then go on with the
third phase. -/
def homeBackOff (sqrtf : ℚ → ℚ) (fuel : Nat) (originalDesiredSpeed_InStepsPerSecond : ℚ)
    (directionTowardHome : Int) (speedInStepsPerSecond : ℚ) (maxDistanceToMoveInSteps : Int)
    (s : SpeedyStepper) (w : World) : Option (SpeedyStepper × World × Bool) :=
  match homingLoop true fuel
      (backOffPlan sqrtf s directionTowardHome maxDistanceToMoveInSteps) w with
  | none => none
  | some (s', w', limitSwitchFlag) =>
    if limitSwitchFlag = false then some (s', w', false)
    else
      homeApproach sqrtf fuel originalDesiredSpeed_InStepsPerSecond directionTowardHome
        speedInStepsPerSecond maxDistanceToMoveInSteps s' w'

/-- The move planned for the first phase of `moveToHomeInSteps`:
`setSpeedInStepsPerSecond(speedInStepsPerSecond)`, then
`setupRelativeMoveInSteps(maxDistanceToMoveInSteps * directionTowardHome)`. -/
def seekPlan (sqrtf : ℚ → ℚ) (s : SpeedyStepper) (directionTowardHome : Int)
    (speedInStepsPerSecond : ℚ) (maxDistanceToMoveInSteps : Int) : SpeedyStepper :=
  setupRelativeMoveInSteps sqrtf (setSpeedInStepsPerSecond s speedInStepsPerSecond)
    (maxDistanceToMoveInSteps * directionTowardHome)

/-- Source function `SpeedyStepper::moveToHomeInSteps`.  The result is the axis, the
inputs consumed and the returned `bool`; `none` when one of its loops is still
running after `fuel` iterations.  In order: the read into `SwitchProperty`; the
current speed setting is remembered; if the switch reads `HIGH`, the first phase
(move toward the switch), which returns `false` when the switch was never detected;
then the second and third phase. -/
def moveToHomeInSteps (sqrtf : ℚ → ℚ) (fuel : Nat) (s : SpeedyStepper) (w : World)
    (directionTowardHome : Int) (speedInStepsPerSecond : ℚ) (maxDistanceToMoveInSteps : Int) :
    Option (SpeedyStepper × World × Bool) :=
  if (digitalRead (digitalRead w).2).1 = true then
    match homingLoop false fuel
        (seekPlan sqrtf s directionTowardHome speedInStepsPerSecond maxDistanceToMoveInSteps)
        (digitalRead (digitalRead w).2).2 with
    | none => none
    | some (s', w', limitSwitchFlag) =>
      if limitSwitchFlag = false then some (s', w', false)
      else
        homeBackOff sqrtf fuel s.desiredSpeed_InStepsPerSecond directionTowardHome
          speedInStepsPerSecond maxDistanceToMoveInSteps s' w'
  else
    homeBackOff sqrtf fuel s.desiredSpeed_InStepsPerSecond directionTowardHome
      speedInStepsPerSecond maxDistanceToMoveInSteps s (digitalRead (digitalRead w).2).2

/-- Example inputs: the switch reads `HIGH` (inactive) at every read; the first two clock
readings are 0, all later ones 50000. -/
def switchNeverActive : World :=
  { switch := fun _ => true
    clock := fun n => if n < 2 then 0 else 50000
    reads := 0
    ticks := 0 }

/-- Example inputs: the switch reads `LOW` (active) at every read; the clock stands
at 0. -/
def switchActiveAtEntry : World :=
  { switch := fun _ => false
    clock := fun _ => 0
    reads := 0
    ticks := 0 }

/-- Example inputs: the switch reads `HIGH` on entry, `LOW` at the four reads of the first
loop, `HIGH` at the four reads of the second and `LOW` from then on; the clock
stands at 0. -/
def switchFoundAtOnce : World :=
  { switch := fun n => decide (n < 2 ∨ (6 ≤ n ∧ n < 10))
    clock := fun _ => 0
    reads := 0
    ticks := 0 }

/-- The value `processMovement` leaves in `ramp_NextStepPeriod_InUS` when it emits a step
with acceleration term `acc` (after the deceleration test), cruise period `desired`
and next period `p`: the recurrence, then the clip. -/
def rampStep (acc desired p : ℚ) : ℚ :=
  if p * (1 - acc * p * p) < desired then desired else p * (1 - acc * p * p)

/-- The step periods recorded over the `n` steps that are left of a move with
deceleration distance `D` and cruise period `desired`, starting from acceleration
term `acc` and next period `p` (`recordedPeriods_eq_rampList`): the sign of the
acceleration term flips on the step emitted at remaining distance `D`. -/
def rampList (D : Int) (desired : ℚ) : Nat → ℚ → ℚ → List ℚ
  | 0, _, _ => []
  | n + 1, acc, p =>
    p :: rampList D desired n (if ((n + 1 : Nat) : Int) = D then -acc else acc)
      (rampStep (if ((n + 1 : Nat) : Int) = D then -acc else acc) desired p)

/-- The clock value at which a poll of the axis is made "exactly when the step is due":
0 for the first poll of a move, and otherwise the time of the last step plus the
truncated step period, on the 32-bit clock. -/
def dueTime (s : SpeedyStepper) : Nat :=
  if s.startNewMove = true then 0
  else (s.ramp_LastStepTime_InUS + toULong s.ramp_NextStepPeriod_InUS) % ULONG_MOD

/-- The clock readings of `n` polls, each made exactly when the step is due. -/
def dueRun : Nat → SpeedyStepper → List (Nat × Nat)
  | 0, _ => []
  | n + 1, s =>
    (dueTime s, dueTime s) :: dueRun n (processMovement s (dueTime s) (dueTime s)).stepper

/-- A lower bound, in thousandths of a microsecond, for the period that follows a
period of at least `l` thousandths while accelerating at 100 steps/s^2
(`rampStep_interval`). -/
def lowerStep (l : Nat) : Nat :=
  l - (l * l * l + 10000000000000000 - 1) / 10000000000000000

/-- An upper bound, in thousandths of a microsecond, for the period that follows a
period of at most `u` thousandths while accelerating at 100 steps/s^2 towards the
cruise period 10000 us (`rampStep_interval`). -/
def upperStep (u : Nat) : Nat :=
  max (u - u * u * u / 10000000000000000) 10000000

/-- The remaining distances `n, n - 1, ..., 1`. -/
def countdown : Nat → List Int
  | 0 => []
  | n + 1 => ((n + 1 : Nat) : Int) :: countdown n

/-- Example inputs: the switch reads `HIGH` (inactive) at every read; the clock advances
by one microsecond per reading. -/
def tickingNeverActive : World :=
  { switch := fun _ => true
    clock := fun n => n % ULONG_MOD
    reads := 0
    ticks := 0 }

/-! ## Lemmas on the blocks of `processMovement` -/

/-- The four exits of `processMovement`, unfolded. -/
theorem processMovement_eq (s : SpeedyStepper) (t0 t1 : Nat) :
    processMovement s t0 t1 =
      if s.currentPosition_InSteps = s.targetPosition_InSteps then
        { stepper := s, result := true, pulse := false }
      else if subULong t1 (startOfMove s t0).ramp_LastStepTime_InUS
          < toULong (startOfMove s t0).ramp_NextStepPeriod_InUS then
        { stepper := startOfMove s t0, result := false, pulse := false }
      else if (emitStep (startOfMove s t0) t1).currentPosition_InSteps
          = (emitStep (startOfMove s t0) t1).targetPosition_InSteps then
        { stepper := { emitStep (startOfMove s t0) t1 with currentStepPeriod_InUS := 0 },
          result := true, pulse := true }
      else
        { stepper := emitStep (startOfMove s t0) t1, result := false, pulse := true } := by
  rfl

theorem startOfMove_fields (s : SpeedyStepper) (t : Nat) :
    (startOfMove s t).targetPosition_InSteps = s.targetPosition_InSteps ∧
    (startOfMove s t).currentPosition_InSteps = s.currentPosition_InSteps ∧
    (startOfMove s t).direction_Scaler = s.direction_Scaler ∧
    (startOfMove s t).decelerationDistance_InSteps = s.decelerationDistance_InSteps ∧
    (startOfMove s t).acceleration_InStepsPerUSPerUS = s.acceleration_InStepsPerUSPerUS ∧
    (startOfMove s t).ramp_NextStepPeriod_InUS = s.ramp_NextStepPeriod_InUS ∧
    (startOfMove s t).currentStepPeriod_InUS = s.currentStepPeriod_InUS ∧
    (startOfMove s t).desiredStepPeriod_InUS = s.desiredStepPeriod_InUS ∧
    (startOfMove s t).startNewMove = false ∧
    (startOfMove s t).ramp_LastStepTime_InUS
      = (if s.startNewMove then t else s.ramp_LastStepTime_InUS) := by
  unfold startOfMove
  split_ifs <;> simp_all

theorem distanceToTarget_startOfMove (s : SpeedyStepper) (t : Nat) :
    distanceToTarget (startOfMove s t) = distanceToTarget s := by
  unfold distanceToTarget
  simp only [(startOfMove_fields s t).1, (startOfMove_fields s t).2.1]

theorem emitStep_fields (s : SpeedyStepper) (now : Nat) :
    (emitStep s now).targetPosition_InSteps = s.targetPosition_InSteps ∧
    (emitStep s now).currentPosition_InSteps
      = s.currentPosition_InSteps + s.direction_Scaler ∧
    (emitStep s now).direction_Scaler = s.direction_Scaler ∧
    (emitStep s now).decelerationDistance_InSteps = s.decelerationDistance_InSteps ∧
    (emitStep s now).acceleration_InStepsPerUSPerUS
      = (if distanceToTarget s = s.decelerationDistance_InSteps then
          -s.acceleration_InStepsPerUSPerUS else s.acceleration_InStepsPerUSPerUS) ∧
    (emitStep s now).currentStepPeriod_InUS = s.ramp_NextStepPeriod_InUS ∧
    (emitStep s now).desiredStepPeriod_InUS = s.desiredStepPeriod_InUS ∧
    (emitStep s now).startNewMove = s.startNewMove ∧
    (emitStep s now).ramp_LastStepTime_InUS = now := by
  unfold emitStep clipPeriod nextPeriod takeStep beginDeceleration
  split_ifs <;> simp_all

theorem processMovement_of_done (s : SpeedyStepper) (t0 t1 : Nat)
    (ha : s.currentPosition_InSteps = s.targetPosition_InSteps) :
    processMovement s t0 t1 = { stepper := s, result := true, pulse := false } := by
  rw [processMovement_eq, if_pos ha]

theorem processMovement_of_wait (s : SpeedyStepper) (t0 t1 : Nat)
    (ha : s.currentPosition_InSteps ≠ s.targetPosition_InSteps)
    (hb : subULong t1 (startOfMove s t0).ramp_LastStepTime_InUS
          < toULong (startOfMove s t0).ramp_NextStepPeriod_InUS) :
    processMovement s t0 t1
      = { stepper := startOfMove s t0, result := false, pulse := false } := by
  rw [processMovement_eq, if_neg ha, if_pos hb]

theorem processMovement_of_step (s : SpeedyStepper) (t0 t1 : Nat)
    (ha : s.currentPosition_InSteps ≠ s.targetPosition_InSteps)
    (hb : ¬ subULong t1 (startOfMove s t0).ramp_LastStepTime_InUS
          < toULong (startOfMove s t0).ramp_NextStepPeriod_InUS) :
    processMovement s t0 t1 =
      if (emitStep (startOfMove s t0) t1).currentPosition_InSteps
          = (emitStep (startOfMove s t0) t1).targetPosition_InSteps then
        { stepper := { emitStep (startOfMove s t0) t1 with currentStepPeriod_InUS := 0 },
          result := true, pulse := true }
      else
        { stepper := emitStep (startOfMove s t0) t1, result := false, pulse := true } := by
  rw [processMovement_eq, if_neg ha, if_neg hb]

/-- What one poll does to the fields the position argument needs. -/
theorem processMovement_summary (s : SpeedyStepper) (t0 t1 : Nat) :
    (processMovement s t0 t1).stepper.targetPosition_InSteps = s.targetPosition_InSteps ∧
    (processMovement s t0 t1).stepper.direction_Scaler = s.direction_Scaler ∧
    (processMovement s t0 t1).stepper.decelerationDistance_InSteps
      = s.decelerationDistance_InSteps ∧
    (processMovement s t0 t1).stepper.currentPosition_InSteps
      = (if (processMovement s t0 t1).pulse = true then
          s.currentPosition_InSteps + s.direction_Scaler
        else s.currentPosition_InSteps) ∧
    ((processMovement s t0 t1).result = true ↔
      (processMovement s t0 t1).stepper.currentPosition_InSteps
        = (processMovement s t0 t1).stepper.targetPosition_InSteps) ∧
    ((processMovement s t0 t1).pulse = true →
      s.currentPosition_InSteps ≠ s.targetPosition_InSteps) ∧
    (processMovement s t0 t1).stepper.acceleration_InStepsPerUSPerUS
      = (if (processMovement s t0 t1).pulse = true
            ∧ distanceToTarget s = s.decelerationDistance_InSteps then
          -s.acceleration_InStepsPerUSPerUS else s.acceleration_InStepsPerUSPerUS) := by
  obtain ⟨a1, a2, a3, a4, a5, -⟩ := startOfMove_fields s t0
  obtain ⟨b1, b2, b3, b4, b5, -⟩ := emitStep_fields (startOfMove s t0) t1
  have h3 := distanceToTarget_startOfMove s t0
  by_cases ha : s.currentPosition_InSteps = s.targetPosition_InSteps
  · rw [processMovement_of_done s t0 t1 ha]
    simp [ha]
  · by_cases hb : subULong t1 (startOfMove s t0).ramp_LastStepTime_InUS
          < toULong (startOfMove s t0).ramp_NextStepPeriod_InUS
    · rw [processMovement_of_wait s t0 t1 ha hb]
      simp [a1, a2, a3, a4, a5, ha]
    · rw [processMovement_of_step s t0 t1 ha hb]
      by_cases hc : (emitStep (startOfMove s t0) t1).currentPosition_InSteps
          = (emitStep (startOfMove s t0) t1).targetPosition_InSteps
      · rw [if_pos hc]
        rw [b1, b2, a1, a2, a3] at hc
        simp [a1, a2, a3, a4, a5, b1, b2, b3, b4, b5, h3, ha, hc]
      · rw [if_neg hc]
        rw [b1, b2, a1, a2, a3] at hc
        simp [a1, a2, a3, a4, a5, b1, b2, b3, b4, b5, h3, ha, hc]


/-- The members as `setupMoveInSteps` leaves them. -/
theorem setupMoveInSteps_fields (sqrtf : ℚ → ℚ) (s : SpeedyStepper) (target : Int) :
    (setupMoveInSteps sqrtf s target).targetPosition_InSteps = target ∧
    (setupMoveInSteps sqrtf s target).currentPosition_InSteps = s.currentPosition_InSteps ∧
    (setupMoveInSteps sqrtf s target).direction_Scaler
      = (if target - s.currentPosition_InSteps < 0 then -1 else 1) ∧
    (setupMoveInSteps sqrtf s target).decelerationDistance_InSteps
      = (if |target - s.currentPosition_InSteps|
            ≤ wrapLong (brakingSteps s.desiredSpeed_InStepsPerSecond
                s.acceleration_InStepsPerSecondPerSecond * 2) then
          Int.tdiv |target - s.currentPosition_InSteps| 2
        else brakingSteps s.desiredSpeed_InStepsPerSecond
                s.acceleration_InStepsPerSecondPerSecond) ∧
    (setupMoveInSteps sqrtf s target).acceleration_InStepsPerUSPerUS
      = s.acceleration_InStepsPerSecondPerSecond / 1000000000000 ∧
    (setupMoveInSteps sqrtf s target).ramp_NextStepPeriod_InUS
      = 1000000 / sqrtf (2 * s.acceleration_InStepsPerSecondPerSecond) ∧
    (setupMoveInSteps sqrtf s target).desiredStepPeriod_InUS
      = 1000000 / s.desiredSpeed_InStepsPerSecond ∧
    (setupMoveInSteps sqrtf s target).startNewMove = true ∧
    (setupMoveInSteps sqrtf s target).currentStepPeriod_InUS = s.currentStepPeriod_InUS ∧
    (setupMoveInSteps sqrtf s target).desiredSpeed_InStepsPerSecond
      = s.desiredSpeed_InStepsPerSecond ∧
    (setupMoveInSteps sqrtf s target).acceleration_InStepsPerSecondPerSecond
      = s.acceleration_InStepsPerSecondPerSecond := by
  have habs : |target - s.currentPosition_InSteps|
      = if target - s.currentPosition_InSteps < 0 then -(target - s.currentPosition_InSteps)
        else target - s.currentPosition_InSteps := by
    split_ifs with h
    · exact abs_of_neg h
    · exact abs_of_nonneg (not_lt.mp h)
  rw [habs]
  unfold setupMoveInSteps startRamp clipDeceleration distanceToTravel planDirection planMove
  by_cases h : target - s.currentPosition_InSteps < 0
  · simp only [if_pos h]
    split_ifs <;> simp
  · simp only [if_neg h]
    split_ifs <;> simp

theorem configure_fields (s : SpeedyStepper) (v a : ℚ) :
    (configure s v a).desiredSpeed_InStepsPerSecond = v ∧
    (configure s v a).acceleration_InStepsPerSecondPerSecond = a ∧
    (configure s v a).currentPosition_InSteps = s.currentPosition_InSteps := by
  simp [configure, setSpeedInStepsPerSecond, setAccelerationInStepsPerSecondPerSecond]

theorem roundHalfAway_nonneg (x : ℚ) (hx : 0 ≤ x) : 0 ≤ roundHalfAway x := by
  unfold roundHalfAway
  rw [if_pos hx]
  exact Int.floor_nonneg.mpr (by linarith)

theorem tdiv_two_of_nonneg (n : Int) (hn : 0 ≤ n) : Int.tdiv n 2 = n / 2 :=
  Int.tdiv_eq_ediv hn (by decide)

/-! ## The braking distance in 32-bit arithmetic -/

theorem log_two_eq (x : ℚ) (e : Int) (hlo : (2 : ℚ) ^ e ≤ x) (hhi : x < 2 ^ (e + 1)) :
    Int.log 2 |x| = e := by
  have hpos : 0 < x := lt_of_lt_of_le (by positivity) hlo
  rw [abs_of_pos hpos]
  apply le_antisymm
  · have := (Int.lt_zpow_iff_log_lt (b := 2) (by norm_num) hpos (x := e + 1)).mp
      (by exact_mod_cast hhi)
    omega
  · exact (Int.zpow_le_iff_le_log (b := 2) (by norm_num) hpos).mp (by exact_mod_cast hlo)

/-- Evaluation of `toFloat` at a positive value with known exponent `e ≥ -126`: the value
is rounded to a multiple of `2 ^ (e - 23)`. -/
theorem toFloat_eval (x : ℚ) (e : Int) (n : Int) (hlo : (2 : ℚ) ^ e ≤ x)
    (hhi : x < 2 ^ (e + 1)) (he : -126 ≤ e)
    (hn : roundHalfEven (x / 2 ^ (e - 23)) = n) :
    toFloat x = (n : ℚ) * 2 ^ (e - 23) := by
  have hpos : 0 < x := lt_of_lt_of_le (by positivity) hlo
  unfold toFloat
  rw [if_neg (ne_of_gt hpos), log_two_eq x e hlo hhi, max_eq_left he, hn]

theorem roundHalfEven_intCast (n : Int) : roundHalfEven (n : ℚ) = n := by
  unfold roundHalfEven
  rw [Int.floor_intCast]
  simp

theorem roundHalfEven_nonneg (x : ℚ) (hx : 0 ≤ x) : 0 ≤ roundHalfEven x := by
  have hf : 0 ≤ Int.floor x := Int.floor_nonneg.mpr hx
  unfold roundHalfEven
  split_ifs <;> omega

/-- A positive value with a 24-bit significand is a float: the operation that produces
it does not round. -/
theorem toFloat_exact (x : ℚ) (e : Int) (n : Int) (hlo : (2 : ℚ) ^ e ≤ x)
    (hhi : x < 2 ^ (e + 1)) (he : -126 ≤ e) (hn : x = (n : ℚ) * 2 ^ (e - 23)) :
    toFloat x = x := by
  have h2 : (2 : ℚ) ^ (e - 23) ≠ 0 := by positivity
  have hr : roundHalfEven (x / 2 ^ (e - 23)) = n := by
    rw [hn, mul_div_assoc, div_self h2, mul_one, roundHalfEven_intCast]
  rw [toFloat_eval x e n hlo hhi he hr, ← hn]

theorem toFloat_nonneg (x : ℚ) (hx : 0 ≤ x) : 0 ≤ toFloat x := by
  unfold toFloat
  split_ifs
  · exact le_refl _
  · have h2 : (0 : ℚ) < 2 ^ (max (Int.log 2 |x|) (-126) - 23) := by positivity
    have h3 : 0 ≤ roundHalfEven (x / 2 ^ (max (Int.log 2 |x|) (-126) - 23)) :=
      roundHalfEven_nonneg _ (div_nonneg hx (le_of_lt h2))
    have h4 : (0 : ℚ) ≤ (roundHalfEven (x / 2 ^ (max (Int.log 2 |x|) (-126) - 23)) : ℚ) := by
      exact_mod_cast h3
    exact mul_nonneg h4 (le_of_lt h2)

theorem toLong_of_range (n : Int) (h1 : -2147483648 ≤ n) (h2 : n < 2147483648) :
    toLong n = n := by
  unfold toLong
  rw [if_pos ⟨h1, h2⟩]

theorem wrapLong_of_range (n : Int) (h1 : -2147483648 ≤ n) (h2 : n < 2147483648) :
    wrapLong n = n := by
  unfold wrapLong
  omega

/-- For positive speed and acceleration the braking distance computed in floats is not
negative; if it is below `2 ^ 30`, the conversion to `long` keeps it and its double
fits a `long`. -/
theorem brakingSteps_of_fit (v a : ℚ) (hv : 0 < v) (ha : 0 < a)
    (hfit : roundHalfAway (toFloat (toFloat (v * v) / toFloat (2 * a))) < 1073741824) :
    brakingSteps v a = roundHalfAway (toFloat (toFloat (v * v) / toFloat (2 * a))) ∧
    0 ≤ brakingSteps v a ∧ brakingSteps v a < 1073741824 ∧
    wrapLong (brakingSteps v a * 2) = brakingSteps v a * 2 := by
  have h1 : 0 ≤ toFloat (v * v) := toFloat_nonneg _ (by positivity)
  have h2 : 0 ≤ toFloat (2 * a) := toFloat_nonneg _ (by positivity)
  have h3 : 0 ≤ toFloat (toFloat (v * v) / toFloat (2 * a)) :=
    toFloat_nonneg _ (div_nonneg h1 h2)
  have h4 := roundHalfAway_nonneg _ h3
  have h5 : brakingSteps v a = roundHalfAway (toFloat (toFloat (v * v) / toFloat (2 * a))) := by
    unfold brakingSteps
    exact toLong_of_range _ (by omega) (by omega)
  rw [h5]
  exact ⟨rfl, h4, hfit, wrapLong_of_range _ (by omega) (by omega)⟩

/-- The deceleration distance stored by `setupMoveInSteps`, when the braking distance
lies between 0 and `2 ^ 30`, lies between 0 and half the travel distance. -/
theorem decelerationDistance_range (sqrtf : ℚ → ℚ) (s : SpeedyStepper) (target : Int)
    (hr0 : 0 ≤ brakingSteps s.desiredSpeed_InStepsPerSecond
      s.acceleration_InStepsPerSecondPerSecond)
    (hr1 : brakingSteps s.desiredSpeed_InStepsPerSecond
      s.acceleration_InStepsPerSecondPerSecond < 1073741824) :
    0 ≤ (setupMoveInSteps sqrtf s target).decelerationDistance_InSteps ∧
    (setupMoveInSteps sqrtf s target).decelerationDistance_InSteps
      ≤ |target - s.currentPosition_InSteps| / 2 := by
  obtain ⟨-, -, -, h4, -⟩ := setupMoveInSteps_fields sqrtf s target
  rw [h4]
  have hd : 0 ≤ |target - s.currentPosition_InSteps| := abs_nonneg _
  rw [tdiv_two_of_nonneg _ hd, wrapLong_of_range _ (by omega) (by omega)]
  generalize brakingSteps s.desiredSpeed_InStepsPerSecond
    s.acceleration_InStepsPerSecondPerSecond = r at hr0 hr1
  generalize |target - s.currentPosition_InSteps| = d at hd
  split_ifs with h
  · exact ⟨by omega, le_refl _⟩
  · exact ⟨hr0, by omega⟩

theorem toFloat_two_hundred : toFloat (2 * 100) = 200 := by
  have h : (2 : ℚ) * 100 = 200 := by norm_num
  rw [h]
  exact toFloat_exact 200 7 13107200 (by norm_num) (by norm_num) (by norm_num) (by norm_num)

theorem toFloat_hundred_squared : toFloat (100 * 100) = 10000 := by
  have h : (100 : ℚ) * 100 = 10000 := by norm_num
  rw [h]
  exact toFloat_exact 10000 13 10240000 (by norm_num) (by norm_num) (by norm_num)
    (by norm_num)

theorem toFloat_fifty : toFloat (10000 / 200) = 10000 / 200 := by
  have h : (10000 : ℚ) / 200 = 50 := by norm_num
  rw [h]
  exact toFloat_exact 50 5 13107200 (by norm_num) (by norm_num) (by norm_num) (by norm_num)

/-- Speed 100, acceleration 100: every operation is exact, the braking distance is 50. -/
theorem braking_hundred :
    roundHalfAway (toFloat (toFloat (100 * 100) / toFloat (2 * 100))) = 50 := by
  rw [toFloat_hundred_squared, toFloat_two_hundred, toFloat_fifty]
  unfold roundHalfAway
  norm_num

theorem brakingSteps_hundred : brakingSteps 100 100 = 50 := by
  unfold brakingSteps
  rw [braking_hundred]
  rfl

/-- Speed 3, acceleration 2: every operation is exact, the braking distance is
`round(9/4) = 2`. -/
theorem braking_three_two :
    roundHalfAway (toFloat (toFloat (3 * 3) / toFloat (2 * 2))) = 2 := by
  have h1 : toFloat (3 * 3) = 9 := by
    have h : (3 : ℚ) * 3 = 9 := by norm_num
    rw [h]
    exact toFloat_exact 9 3 9437184 (by norm_num) (by norm_num) (by norm_num) (by norm_num)
  have h2 : toFloat (2 * 2) = 4 := by
    have h : (2 : ℚ) * 2 = 4 := by norm_num
    rw [h]
    exact toFloat_exact 4 2 8388608 (by norm_num) (by norm_num) (by norm_num) (by norm_num)
  have h3 : toFloat (9 / 4) = 9 / 4 :=
    toFloat_exact (9 / 4) 1 9437184 (by norm_num) (by norm_num) (by norm_num) (by norm_num)
  rw [h1, h2, h3]
  unfold roundHalfAway
  norm_num

theorem brakingSteps_three_two : brakingSteps 3 2 = 2 := by
  unfold brakingSteps
  rw [braking_three_two]
  rfl

/-- Speed 1, acceleration 2: every operation is exact, the braking distance is
`round(1/4) = 0`. -/
theorem brakingSteps_one_two : brakingSteps 1 2 = 0 := by
  have h1 : toFloat (1 * 1) = 1 := by
    have h : (1 : ℚ) * 1 = 1 := by norm_num
    rw [h]
    exact toFloat_exact 1 0 8388608 (by norm_num) (by norm_num) (by norm_num) (by norm_num)
  have h2 : toFloat (2 * 2) = 4 := by
    have h : (2 : ℚ) * 2 = 4 := by norm_num
    rw [h]
    exact toFloat_exact 4 2 8388608 (by norm_num) (by norm_num) (by norm_num) (by norm_num)
  have h3 : toFloat (1 / 4) = 1 / 4 :=
    toFloat_exact (1 / 4) (-2) 8388608 (by norm_num) (by norm_num) (by norm_num)
      (by norm_num)
  have h4 : roundHalfAway ((1 : ℚ) / 4) = 0 := by
    unfold roundHalfAway
    norm_num
  unfold brakingSteps
  rw [h1, h2, h3, h4]
  rfl

/-- Speed 100000, acceleration 1: the braking distance is `5e9`, every operation is exact,
and the conversion to a 32-bit `long` is out of range. -/
theorem brakingSteps_overflow : brakingSteps 100000 1 = -2147483648 := by
  have h1 : toFloat (100000 * 100000) = 10000000000 := by
    have h : (100000 : ℚ) * 100000 = 10000000000 := by norm_num
    rw [h]
    exact toFloat_exact 10000000000 33 9765625 (by norm_num) (by norm_num) (by norm_num)
      (by norm_num)
  have h2 : toFloat (2 * 1) = 2 := by
    have h : (2 : ℚ) * 1 = 2 := by norm_num
    rw [h]
    exact toFloat_exact 2 1 8388608 (by norm_num) (by norm_num) (by norm_num) (by norm_num)
  have h3 : toFloat (10000000000 / 2) = 5000000000 := by
    have h : (10000000000 : ℚ) / 2 = 5000000000 := by norm_num
    rw [h]
    exact toFloat_exact 5000000000 32 9765625 (by norm_num) (by norm_num) (by norm_num)
      (by norm_num)
  have h4 : roundHalfAway (5000000000 : ℚ) = 5000000000 := by
    unfold roundHalfAway
    norm_num
  unfold brakingSteps
  rw [h1, h2, h3, h4]
  rfl

/-- C2 (amended): for positive cruise speed and acceleration whose square and double are
in the normal range of a float, a travel distance `|target - current|` that fits a
`long`, and a braking distance `round((v * v) / (2 * a))`, computed in floats, below
`2 ^ 30` (so that it and its double fit a 32-bit `long`), the deceleration distance
that `setupMoveInSteps` stores is non-negative and at most half the travel distance
(integer division). -/
theorem setupMoveInSteps_decelerationDistance_bounds (sqrtf : ℚ → ℚ) (s : SpeedyStepper)
    (v a : ℚ) (target : Int) (hv : 0 < v) (ha : 0 < a)
    (_hfloat : (2 : ℚ) ^ (-126 : Int) ≤ v * v ∧ v * v < 2 ^ 127 ∧
      (2 : ℚ) ^ (-126 : Int) ≤ 2 * a ∧ 2 * a < 2 ^ 127)
    (_hrep : |target - s.currentPosition_InSteps| < 2147483648)
    (hfit : roundHalfAway (toFloat (toFloat (v * v) / toFloat (2 * a))) < 1073741824) :
    0 ≤ (setupMoveInSteps sqrtf (configure s v a) target).decelerationDistance_InSteps ∧
    (setupMoveInSteps sqrtf (configure s v a) target).decelerationDistance_InSteps
      ≤ |target - s.currentPosition_InSteps| / 2 := by
  obtain ⟨c1, c2, c3⟩ := configure_fields s v a
  obtain ⟨-, b2, b3, -⟩ := brakingSteps_of_fit v a hv ha hfit
  have h := decelerationDistance_range sqrtf (configure s v a) target
    (by rw [c1, c2]; exact b2) (by rw [c1, c2]; exact b3)
  rw [c3] at h
  exact h

/-- Counterexample to C2 as stated: cruise speed 100000, acceleration 1, a move of the
constructed axis to position 10.  The braking distance `5e9` does not fit a 32-bit
`long`: the conversion gives `-2 ^ 31`, its double wraps to 0, the clip is skipped
and the stored deceleration distance is negative. -/
theorem setupMoveInSteps_decelerationDistance_bounds_counterexample :
    (0 : ℚ) < 100000 ∧ (0 : ℚ) < 1 ∧
    (setupMoveInSteps sqrtMicro (configure constructed 100000 1) 10).decelerationDistance_InSteps
      = -2147483648 ∧
    ¬ 0 ≤ (setupMoveInSteps sqrtMicro (configure constructed 100000 1)
      10).decelerationDistance_InSteps := by
  obtain ⟨c1, c2, c3⟩ := configure_fields constructed 100000 1
  obtain ⟨-, -, -, h4, -⟩ :=
    setupMoveInSteps_fields sqrtMicro (configure constructed 100000 1) 10
  rw [c1, c2, c3, brakingSteps_overflow] at h4
  have hpos : constructed.currentPosition_InSteps = 0 := rfl
  rw [hpos] at h4
  have hD : (setupMoveInSteps sqrtMicro (configure constructed 100000 1)
      10).decelerationDistance_InSteps = -2147483648 := by
    rw [h4]
    decide
  refine ⟨by norm_num, by norm_num, hD, ?_⟩
  rw [hD]
  decide

/-- Witness for C2 (amended): speed 100, acceleration 100, a move from 0 to 60. -/
theorem setupMoveInSteps_decelerationDistance_bounds_witness :
    0 ≤ (setupMoveInSteps sqrtMicro (configure constructed 100 100) 60).decelerationDistance_InSteps ∧
    (setupMoveInSteps sqrtMicro (configure constructed 100 100) 60).decelerationDistance_InSteps
      ≤ |60 - constructed.currentPosition_InSteps| / 2 :=
  setupMoveInSteps_decelerationDistance_bounds sqrtMicro constructed 100 100 60
    (by norm_num) (by norm_num) (by norm_num) (by decide)
    (by rw [braking_hundred]; decide)

/-- C5: one call of `processMovement` either emits no pulse and leaves the position
unchanged, or emits one pulse and changes the position by exactly
`direction_Scaler`; it returns `true` exactly when the position equals the target
on return, so its result is that of `motionComplete` called right afterwards. -/
theorem processMovement_one_step (s : SpeedyStepper) (t0 t1 : Nat) :
    (((processMovement s t0 t1).pulse = false ∧
        (processMovement s t0 t1).stepper.currentPosition_InSteps
          = s.currentPosition_InSteps) ∨
      ((processMovement s t0 t1).pulse = true ∧
        (processMovement s t0 t1).stepper.currentPosition_InSteps
          = s.currentPosition_InSteps + s.direction_Scaler)) ∧
    ((processMovement s t0 t1).result = true ↔
      (processMovement s t0 t1).stepper.currentPosition_InSteps
        = (processMovement s t0 t1).stepper.targetPosition_InSteps) ∧
    (processMovement s t0 t1).result = motionComplete (processMovement s t0 t1).stepper := by
  obtain ⟨-, -, -, h4, h5, -⟩ := processMovement_summary s t0 t1
  refine ⟨?_, h5, ?_⟩
  · cases hp : (processMovement s t0 t1).pulse
    · left
      rw [hp] at h4
      exact ⟨rfl, by simpa using h4⟩
    · right
      rw [hp] at h4
      exact ⟨rfl, by simpa using h4⟩
  · unfold motionComplete
    by_cases hc : (processMovement s t0 t1).stepper.currentPosition_InSteps
        = (processMovement s t0 t1).stepper.targetPosition_InSteps
    · rw [if_pos hc]
      exact h5.mpr hc
    · rw [if_neg hc]
      cases hr : (processMovement s t0 t1).result
      · rfl
      · exact absurd (h5.mp hr) hc

theorem pollTrace_of_done (s : SpeedyStepper)
    (h : s.currentPosition_InSteps = s.targetPosition_InSteps) :
    ∀ polls : List (Nat × Nat), ∀ x ∈ pollTrace s polls,
      x = { before := s, after := { stepper := s, result := true, pulse := false } } := by
  intro polls
  induction polls with
  | nil => intro x hx; simp [pollTrace] at hx
  | cons t ts ih =>
    intro x hx
    simp only [pollTrace, processMovement_of_done s t.1 t.2 h, List.mem_cons] at hx
    rcases hx with hx | hx
    · exact hx
    · exact ih x hx

/-- C6: when the position equals the target, `processMovement` returns `true`,
emits no step and leaves the whole axis state unchanged; so every poll of any
later run returns `true` from the same state, and a move planned to the current
position completes on its first poll. -/
theorem processMovement_idle (s : SpeedyStepper) (t0 t1 : Nat) (polls : List (Nat × Nat))
    (sqrtf : ℚ → ℚ) (s0 : SpeedyStepper)
    (h : s.currentPosition_InSteps = s.targetPosition_InSteps) :
    processMovement s t0 t1 = { stepper := s, result := true, pulse := false } ∧
    (∀ x ∈ pollTrace s polls, x.before = s ∧ x.after.stepper = s ∧
      x.after.result = true ∧ x.after.pulse = false) ∧
    (processMovement (setupMoveInSteps sqrtf s0 s0.currentPosition_InSteps) t0 t1).result
      = true ∧
    (processMovement (setupMoveInSteps sqrtf s0 s0.currentPosition_InSteps) t0 t1).pulse
      = false := by
  obtain ⟨f1, f2, -⟩ := setupMoveInSteps_fields sqrtf s0 s0.currentPosition_InSteps
  refine ⟨processMovement_of_done s t0 t1 h, ?_, ?_, ?_⟩
  · intro x hx
    rw [pollTrace_of_done s h polls x hx]
    exact ⟨rfl, rfl, rfl, rfl⟩
  · rw [processMovement_of_done _ t0 t1 (by rw [f1, f2])]
  · rw [processMovement_of_done _ t0 t1 (by rw [f1, f2])]

/-- Witness for C6: the freshly constructed axis (position 0, target 0). -/
theorem processMovement_idle_witness :
    processMovement constructed 5 7 = { stepper := constructed, result := true, pulse := false } ∧
    (∀ x ∈ pollTrace constructed [(10, 10), (20, 21)], x.before = constructed ∧
      x.after.stepper = constructed ∧ x.after.result = true ∧ x.after.pulse = false) ∧
    (processMovement (setupMoveInSteps sqrtMicro constructed
      constructed.currentPosition_InSteps) 5 7).result = true ∧
    (processMovement (setupMoveInSteps sqrtMicro constructed
      constructed.currentPosition_InSteps) 5 7).pulse = false :=
  processMovement_idle constructed 5 7 [(10, 10), (20, 21)] sqrtMicro constructed rfl

theorem subULong_wrap (t d : Nat) (hd : d < ULONG_MOD) :
    subULong ((t + d) % ULONG_MOD) t = d := by
  unfold subULong
  unfold ULONG_MOD at *
  omega

/-- C8: if `d < 2 ^ 32` microseconds passed since the last step was stamped and the
32-bit clock reads `(t + d) mod 2 ^ 32`, the elapsed time `processMovement` computes is
`d`, wrapped or not; so the poll emits a step exactly when `d` has reached the
truncated step period. -/
theorem processMovement_elapsed_wraparound (s : SpeedyStepper) (t0 d : Nat)
    (hd : d < 2 ^ 32)
    (hmove : s.currentPosition_InSteps ≠ s.targetPosition_InSteps)
    (hstart : s.startNewMove = false) :
    subULong ((s.ramp_LastStepTime_InUS + d) % 2 ^ 32) s.ramp_LastStepTime_InUS = d ∧
    ((processMovement s t0 ((s.ramp_LastStepTime_InUS + d) % 2 ^ 32)).pulse = true ↔
      toULong s.ramp_NextStepPeriod_InUS ≤ d) := by
  have hw := subULong_wrap s.ramp_LastStepTime_InUS d hd
  have h2 : (2 : Nat) ^ 32 = ULONG_MOD := rfl
  rw [h2]
  refine ⟨hw, ?_⟩
  obtain ⟨-, -, -, -, -, a6, -, -, -, a10⟩ := startOfMove_fields s t0
  rw [hstart] at a10
  simp only [Bool.false_eq_true, if_false] at a10
  by_cases hb : d < toULong s.ramp_NextStepPeriod_InUS
  · rw [processMovement_of_wait s t0 _ hmove (by rw [a10, a6, hw]; exact hb)]
    simp [hb]
  · rw [processMovement_of_step s t0 _ hmove (by rw [a10, a6, hw]; exact hb)]
    have hb2 : toULong s.ramp_NextStepPeriod_InUS ≤ d := not_lt.mp hb
    split_ifs <;> simp [hb2]

theorem pulseCount_cons (x : PollRecord) (xs : List PollRecord) :
    pulseCount (x :: xs) = (if x.after.pulse = true then 1 else 0) + pulseCount xs := by
  unfold pulseCount
  by_cases h : x.after.pulse = true
  · simp [List.filter_cons, h]; omega
  · simp [List.filter_cons, h]

theorem pulseCount_nil : pulseCount [] = 0 := rfl

/-- A run towards a target `T` in direction `δ`, followed up to the first poll that
returns `true`: the pulses emitted so far are the distance that was left, every pulse
moved the position by `δ`, and no position lies outside the stretch still to go. -/
theorem pollTrace_first_done (T δ : Int) (hδ : δ = 1 ∨ δ = -1) :
    ∀ (polls : List (Nat × Nat)) (s : SpeedyStepper) (pre : List PollRecord)
      (r : PollRecord) (post : List PollRecord),
      s.targetPosition_InSteps = T → s.direction_Scaler = δ →
      0 ≤ δ * (T - s.currentPosition_InSteps) →
      pollTrace s polls = pre ++ r :: post →
      (∀ x ∈ pre, x.after.result = false) → r.after.result = true →
      (pulseCount (pre ++ [r]) : Int) = δ * (T - s.currentPosition_InSteps) ∧
      r.after.stepper.currentPosition_InSteps = T ∧
      ∀ x ∈ pre ++ [r],
        (x.after.pulse = true →
          x.after.stepper.currentPosition_InSteps = x.before.currentPosition_InSteps + δ) ∧
        0 ≤ δ * (x.before.currentPosition_InSteps - s.currentPosition_InSteps) ∧
        0 ≤ δ * (T - x.before.currentPosition_InSteps) ∧
        0 ≤ δ * (x.after.stepper.currentPosition_InSteps - s.currentPosition_InSteps) ∧
        0 ≤ δ * (T - x.after.stepper.currentPosition_InSteps) := by
  intro polls
  induction polls with
  | nil =>
    intro s pre r post _ _ _ htr
    simp [pollTrace] at htr
  | cons t ts ih =>
    intro s pre r post hT hdir hrem htr hpre hr
    obtain ⟨m1, m2, -, m4, m5, m6, -⟩ := processMovement_summary s t.1 t.2
    simp only [pollTrace] at htr
    rw [hT] at m1
    rw [hdir] at m2 m4
    rw [m1] at m5
    rw [hT] at m6
    cases pre with
    | nil =>
      simp only [List.nil_append, List.cons.injEq] at htr
      obtain ⟨hrec, -⟩ := htr
      subst hrec
      simp only at hr
      have hfin := m5.mp hr
      simp only [List.nil_append, pulseCount_cons, pulseCount_nil, List.mem_singleton,
        forall_eq]
      by_cases hp : (processMovement s t.1 t.2).pulse = true
      · rw [if_pos hp] at m4 ⊢
        rcases hδ with h | h <;> subst h <;> refine ⟨?_, hfin, ?_, ?_⟩ <;>
          first | (intro; omega) | (push_cast; omega)
      · rw [if_neg hp] at m4 ⊢
        rcases hδ with h | h <;> subst h <;> refine ⟨?_, hfin, ?_, ?_⟩ <;>
          first | (intro hq; exact absurd hq hp) | (push_cast; omega)
    | cons x pre' =>
      simp only [List.cons_append, List.cons.injEq] at htr
      obtain ⟨hrec, htl⟩ := htr
      subst hrec
      have hx : (processMovement s t.1 t.2).result = false := hpre _ (List.mem_cons_self _ _)
      have hnot : (processMovement s t.1 t.2).stepper.currentPosition_InSteps ≠ T := by
        intro hc
        rw [m5.mpr hc] at hx
        exact Bool.noConfusion hx
      have hrem' : 0 ≤ δ * (T - (processMovement s t.1 t.2).stepper.currentPosition_InSteps) := by
        by_cases hp : (processMovement s t.1 t.2).pulse = true
        · rw [if_pos hp] at m4
          have := m6 hp
          rcases hδ with h | h <;> subst h <;> omega
        · rw [if_neg hp] at m4
          rw [m4]; exact hrem
      obtain ⟨i1, i2, i3⟩ := ih (processMovement s t.1 t.2).stepper pre' r post m1 m2 hrem' htl
        (fun y hy => hpre y (List.mem_cons_of_mem _ hy)) hr
      refine ⟨?_, i2, ?_⟩
      · simp only [List.cons_append, pulseCount_cons]
        push_cast
        rw [i1]
        by_cases hp : (processMovement s t.1 t.2).pulse = true
        · rw [if_pos hp] at m4 ⊢
          rcases hδ with h | h <;> subst h <;> omega
        · rw [if_neg hp] at m4 ⊢
          rcases hδ with h | h <;> subst h <;> omega
      · intro y hy
        simp only [List.cons_append, List.mem_cons] at hy
        rcases hy with hy | hy
        · subst hy
          simp only
          by_cases hp : (processMovement s t.1 t.2).pulse = true
          · rw [if_pos hp] at m4
            have := m6 hp
            rcases hδ with h | h <;> subst h <;> refine ⟨?_, ?_, ?_, ?_, ?_⟩ <;>
              first | (intro; omega) | omega
          · rw [if_neg hp] at m4
            rcases hδ with h | h <;> subst h <;> refine ⟨?_, ?_, ?_, ?_, ?_⟩ <;>
              first | (intro hq; exact absurd hq hp) | omega
        · obtain ⟨j1, j2, j3, j4, j5⟩ := i3 y hy
          refine ⟨j1, ?_, j3, ?_, j5⟩
          · by_cases hp : (processMovement s t.1 t.2).pulse = true
            · rw [if_pos hp] at m4
              rcases hδ with h | h <;> subst h <;> omega
            · rw [if_neg hp] at m4
              rcases hδ with h | h <;> subst h <;> omega
          · by_cases hp : (processMovement s t.1 t.2).pulse = true
            · rw [if_pos hp] at m4
              rcases hδ with h | h <;> subst h <;> omega
            · rw [if_neg hp] at m4
              rcases hδ with h | h <;> subst h <;> omega

/-- C1: after `setupRelativeMoveInSteps(d)` from position `p` with `d ≠ 0` and positive
cruise speed and acceleration, in every run of polls, at the first poll that returns
`true` exactly `|d|` steps have been emitted, each of them moved the position by
`sign d`, the position stayed between `p` and `p + d` throughout, and the position
is `p + d`. -/
theorem relativeMove_reaches_target (sqrtf : ℚ → ℚ) (s0 : SpeedyStepper) (v a : ℚ)
    (d : Int) (polls : List (Nat × Nat)) (pre : List PollRecord) (r : PollRecord)
    (post : List PollRecord)
    (_hd : d ≠ 0) (_hv : 0 < v) (_ha : 0 < a)
    (htrace : pollTrace (setupRelativeMoveInSteps sqrtf (configure s0 v a) d) polls
      = pre ++ r :: post)
    (hpre : ∀ x ∈ pre, x.after.result = false)
    (hr : r.after.result = true) :
    pulseCount (pre ++ [r]) = d.natAbs ∧
    (∀ x ∈ pre ++ [r], x.after.pulse = true →
      x.after.stepper.currentPosition_InSteps
        = x.before.currentPosition_InSteps + Int.sign d) ∧
    (∀ x ∈ pre ++ [r],
      min s0.currentPosition_InSteps (s0.currentPosition_InSteps + d)
          ≤ x.before.currentPosition_InSteps ∧
      x.before.currentPosition_InSteps
          ≤ max s0.currentPosition_InSteps (s0.currentPosition_InSteps + d) ∧
      min s0.currentPosition_InSteps (s0.currentPosition_InSteps + d)
          ≤ x.after.stepper.currentPosition_InSteps ∧
      x.after.stepper.currentPosition_InSteps
          ≤ max s0.currentPosition_InSteps (s0.currentPosition_InSteps + d)) ∧
    r.after.stepper.currentPosition_InSteps = s0.currentPosition_InSteps + d := by
  obtain ⟨-, -, c3⟩ := configure_fields s0 v a
  obtain ⟨f1, f2, f3, -⟩ := setupMoveInSteps_fields sqrtf (configure s0 v a)
    ((configure s0 v a).currentPosition_InSteps + d)
  rw [c3] at f1 f2 f3
  have hsub : s0.currentPosition_InSteps + d - s0.currentPosition_InSteps = d := by omega
  rw [hsub] at f3
  unfold setupRelativeMoveInSteps at htrace
  by_cases hneg : d < 0
  · rw [if_pos hneg] at f3
    obtain ⟨k1, k2, k3⟩ := pollTrace_first_done (s0.currentPosition_InSteps + d) (-1)
      (Or.inr rfl) polls _ pre r post f1 f3 (by rw [f2]; omega) htrace hpre hr
    rw [f2] at k1 k3
    have hs : Int.sign d = -1 := Int.sign_eq_neg_one_of_neg hneg
    refine ⟨by omega, ?_, ?_, k2⟩
    · intro x hx hp
      rw [hs]
      exact (k3 x hx).1 hp
    · intro x hx
      obtain ⟨-, j2, j3, j4, j5⟩ := k3 x hx
      rw [min_eq_right (by omega), max_eq_left (by omega)]
      omega
  · rw [if_neg hneg] at f3
    obtain ⟨k1, k2, k3⟩ := pollTrace_first_done (s0.currentPosition_InSteps + d) 1
      (Or.inl rfl) polls _ pre r post f1 f3 (by rw [f2]; omega) htrace hpre hr
    rw [f2] at k1 k3
    have hs : Int.sign d = 1 := Int.sign_eq_one_of_pos (by omega)
    refine ⟨by omega, ?_, ?_, k2⟩
    · intro x hx hp
      rw [hs]
      exact (k3 x hx).1 hp
    · intro x hx
      obtain ⟨-, j2, j3, j4, j5⟩ := k3 x hx
      rw [min_eq_left (by omega), max_eq_right (by omega)]
      omega

theorem signFlipCount_cons (x : PollRecord) (xs : List PollRecord) :
    signFlipCount (x :: xs) = (if signFlipped x = true then 1 else 0) + signFlipCount xs := by
  unfold signFlipCount
  by_cases h : signFlipped x = true
  · simp [List.filter_cons, h]; omega
  · simp [List.filter_cons, h]

theorem sign_neg_ne (q : ℚ) (hq : q ≠ 0) : SignType.sign (-q) ≠ SignType.sign q := by
  rw [Left.sign_neg]
  rcases lt_or_gt_of_ne hq with h | h
  · rw [sign_neg h]; decide
  · rw [sign_pos h]; decide

/-- A poll changes the sign of a non-zero acceleration term exactly when it emits a
step with the remaining distance equal to the deceleration distance. -/
theorem signFlipped_processMovement (s : SpeedyStepper) (t0 t1 : Nat)
    (hne : s.acceleration_InStepsPerUSPerUS ≠ 0) :
    (signFlipped { before := s, after := processMovement s t0 t1 } = true ↔
      (processMovement s t0 t1).pulse = true ∧
        distanceToTarget s = s.decelerationDistance_InSteps) ∧
    (processMovement s t0 t1).stepper.acceleration_InStepsPerUSPerUS ≠ 0 := by
  obtain ⟨-, -, -, -, -, -, m7⟩ := processMovement_summary s t0 t1
  unfold signFlipped
  simp only [decide_eq_true_eq]
  rw [m7]
  by_cases hc : (processMovement s t0 t1).pulse = true
      ∧ distanceToTarget s = s.decelerationDistance_InSteps
  · rw [if_pos hc]
    exact ⟨⟨fun _ => hc, fun _ => sign_neg_ne _ hne⟩, neg_ne_zero.mpr hne⟩
  · rw [if_neg hc]
    exact ⟨⟨fun h => absurd rfl h, fun h => absurd h hc⟩, hne⟩

theorem distanceToTarget_eq (s : SpeedyStepper) (δ : Int) (hδ : δ = 1 ∨ δ = -1)
    (h : 0 ≤ δ * (s.targetPosition_InSteps - s.currentPosition_InSteps)) :
    distanceToTarget s = δ * (s.targetPosition_InSteps - s.currentPosition_InSteps) := by
  unfold distanceToTarget
  rcases hδ with h1 | h1 <;> subst h1 <;> split_ifs <;> omega

/-- Sign changes of the acceleration term along a run towards `T` in direction `δ` with
deceleration distance `D`, up to the first poll that returns `true`: one if `D` is
among the remaining distances `n, n - 1, ..., 1` at which steps are emitted, none
otherwise; and each poll changes the sign exactly when it emits the step at
remaining distance `D`. -/
theorem pollTrace_signFlips (T δ D : Int) (hδ : δ = 1 ∨ δ = -1) :
    ∀ (polls : List (Nat × Nat)) (s : SpeedyStepper) (pre : List PollRecord)
      (r : PollRecord) (post : List PollRecord),
      s.targetPosition_InSteps = T → s.direction_Scaler = δ →
      s.decelerationDistance_InSteps = D →
      s.acceleration_InStepsPerUSPerUS ≠ 0 →
      0 ≤ δ * (T - s.currentPosition_InSteps) →
      pollTrace s polls = pre ++ r :: post →
      (∀ x ∈ pre, x.after.result = false) → r.after.result = true →
      signFlipCount (pre ++ [r])
        = (if 1 ≤ D ∧ D ≤ δ * (T - s.currentPosition_InSteps) then 1 else 0) ∧
      ∀ x ∈ pre ++ [r],
        (signFlipped x = true ↔
          x.after.pulse = true ∧ distanceToTarget x.before = D) := by
  intro polls
  induction polls with
  | nil =>
    intro s pre r post _ _ _ _ _ htr
    simp [pollTrace] at htr
  | cons t ts ih =>
    intro s pre r post hT hdir hD hacc hrem htr hpre hr
    obtain ⟨m1, m2, m3, m4, m5, m6, -⟩ := processMovement_summary s t.1 t.2
    obtain ⟨g1, g2⟩ := signFlipped_processMovement s t.1 t.2 hacc
    have hdist := distanceToTarget_eq s δ hδ (by rw [hT]; exact hrem)
    simp only [pollTrace] at htr
    rw [hT] at m1 hdist
    rw [hdir] at m2 m4
    rw [m1] at m5
    rw [hT] at m6
    rw [hD] at m3 g1
    rw [hdist] at g1
    cases pre with
    | nil =>
      simp only [List.nil_append, List.cons.injEq] at htr
      obtain ⟨hrec, -⟩ := htr
      subst hrec
      simp only at hr
      have hfin := m5.mp hr
      simp only [List.nil_append, signFlipCount_cons, List.mem_singleton, forall_eq]
      have hz : signFlipCount [] = 0 := rfl
      rw [hz, hdist]
      refine ⟨?_, g1⟩
      by_cases hp : (processMovement s t.1 t.2).pulse = true
      · rw [if_pos hp] at m4
        have h1 : δ * (T - s.currentPosition_InSteps) = 1 := by
          rcases hδ with h | h <;> subst h <;> omega
        rw [h1] at g1 ⊢
        by_cases hD1 : (1 : Int) = D
        · rw [if_pos (g1.mpr ⟨hp, hD1⟩), if_pos (by omega)]
        · rw [if_neg (fun hf => hD1 (g1.mp hf).2), if_neg (by omega)]
      · rw [if_neg hp] at m4
        have h0 : δ * (T - s.currentPosition_InSteps) = 0 := by
          rcases hδ with h | h <;> subst h <;> omega
        rw [if_neg (fun hf => hp (g1.mp hf).1), if_neg (by omega)]
    | cons x pre' =>
      simp only [List.cons_append, List.cons.injEq] at htr
      obtain ⟨hrec, htl⟩ := htr
      subst hrec
      have hx : (processMovement s t.1 t.2).result = false := hpre _ (List.mem_cons_self _ _)
      have hnot : (processMovement s t.1 t.2).stepper.currentPosition_InSteps ≠ T := by
        intro hc
        rw [m5.mpr hc] at hx
        exact Bool.noConfusion hx
      have hrem' : 0 ≤ δ * (T - (processMovement s t.1 t.2).stepper.currentPosition_InSteps) := by
        by_cases hp : (processMovement s t.1 t.2).pulse = true
        · rw [if_pos hp] at m4
          have := m6 hp
          rcases hδ with h | h <;> subst h <;> omega
        · rw [if_neg hp] at m4
          rw [m4]; exact hrem
      obtain ⟨i1, i2⟩ := ih (processMovement s t.1 t.2).stepper pre' r post m1 m2 m3 g2 hrem'
        htl (fun y hy => hpre y (List.mem_cons_of_mem _ hy)) hr
      refine ⟨?_, ?_⟩
      · simp only [List.cons_append, signFlipCount_cons]
        rw [i1]
        by_cases hp : (processMovement s t.1 t.2).pulse = true
        · rw [if_pos hp] at m4
          have hn := m6 hp
          have h1 : δ * (T - (processMovement s t.1 t.2).stepper.currentPosition_InSteps)
              = δ * (T - s.currentPosition_InSteps) - 1 := by
            rcases hδ with h | h <;> subst h <;> omega
          have h2 : 1 ≤ δ * (T - s.currentPosition_InSteps) := by
            rcases hδ with h | h <;> subst h <;> omega
          rw [h1]
          by_cases hD1 : δ * (T - s.currentPosition_InSteps) = D
          · rw [if_pos (g1.mpr ⟨hp, hD1⟩), if_neg (by omega), if_pos (by omega)]
          · rw [if_neg (fun hf => hD1 (g1.mp hf).2)]
            by_cases hD2 : 1 ≤ D ∧ D ≤ δ * (T - s.currentPosition_InSteps)
            · rw [if_pos hD2, if_pos (by omega)]
            · rw [if_neg hD2, if_neg (by omega)]
        · rw [if_neg hp] at m4
          rw [if_neg (fun hf => hp (g1.mp hf).1), m4]
          omega
      · intro y hy
        simp only [List.cons_append, List.mem_cons] at hy
        rcases hy with hy | hy
        · subst hy
          simp only
          rw [hdist]
          exact g1
        · exact i2 y hy

/-- C4 (amended): for a move planned by `setupMoveInSteps` with positive distance, cruise
speed and acceleration (square and double in the normal range of a float, braking
distance computed in floats below `2 ^ 30`, so that the planner's 32-bit arithmetic
does not overflow) and polled up to the first poll that returns `true`, the
acceleration term changes sign exactly once if the stored deceleration distance is at
least 1 and never if it is 0; a poll changes the sign exactly when it emits the step
at which the remaining distance equals the deceleration distance. -/
theorem plannedMove_sign_flips (sqrtf : ℚ → ℚ) (s0 : SpeedyStepper) (v a : ℚ)
    (target : Int) (polls : List (Nat × Nat)) (pre : List PollRecord) (r : PollRecord)
    (post : List PollRecord)
    (_hdist : target ≠ s0.currentPosition_InSteps) (hv : 0 < v) (ha : 0 < a)
    (_hfloat : (2 : ℚ) ^ (-126 : Int) ≤ v * v ∧ v * v < 2 ^ 127 ∧
      (2 : ℚ) ^ (-126 : Int) ≤ 2 * a ∧ 2 * a < 2 ^ 127)
    (hfit : roundHalfAway (toFloat (toFloat (v * v) / toFloat (2 * a))) < 1073741824)
    (htrace : pollTrace (setupMoveInSteps sqrtf (configure s0 v a) target) polls
      = pre ++ r :: post)
    (hpre : ∀ x ∈ pre, x.after.result = false)
    (hr : r.after.result = true) :
    signFlipCount (pre ++ [r])
      = (if 1 ≤ (setupMoveInSteps sqrtf (configure s0 v a) target).decelerationDistance_InSteps
          then 1 else 0) ∧
    ∀ x ∈ pre ++ [r],
      (signFlipped x = true ↔
        x.after.pulse = true ∧
          distanceToTarget x.before
            = (setupMoveInSteps sqrtf (configure s0 v a) target).decelerationDistance_InSteps) := by
  obtain ⟨c1, c2, c3⟩ := configure_fields s0 v a
  obtain ⟨f1, f2, f3, -, f5, -⟩ := setupMoveInSteps_fields sqrtf (configure s0 v a) target
  obtain ⟨-, g2, g3, -⟩ := brakingSteps_of_fit v a hv ha hfit
  obtain ⟨b1, b2⟩ := decelerationDistance_range sqrtf (configure s0 v a) target
    (by rw [c1, c2]; exact g2) (by rw [c1, c2]; exact g3)
  rw [c3] at f2 f3 b2
  rw [c2] at f5
  have hacc : (setupMoveInSteps sqrtf (configure s0 v a) target).acceleration_InStepsPerUSPerUS
      ≠ 0 := by
    rw [f5]; positivity
  generalize hD :
    (setupMoveInSteps sqrtf (configure s0 v a) target).decelerationDistance_InSteps
      = D at b1 b2 ⊢
  have hsplit : ∀ δ : Int, δ = 1 ∨ δ = -1 →
      (setupMoveInSteps sqrtf (configure s0 v a) target).direction_Scaler = δ →
      δ * (target - s0.currentPosition_InSteps) = |target - s0.currentPosition_InSteps| →
      signFlipCount (pre ++ [r]) = (if 1 ≤ D then 1 else 0) ∧
      ∀ x ∈ pre ++ [r],
        (signFlipped x = true ↔ x.after.pulse = true ∧ distanceToTarget x.before = D) := by
    intro δ hδ hdir habs
    obtain ⟨k1, k2⟩ := pollTrace_signFlips target δ D hδ polls _ pre r post f1 hdir hD hacc
      (by rw [f2, habs]; exact abs_nonneg _) htrace hpre hr
    rw [f2, habs] at k1
    refine ⟨?_, k2⟩
    rw [k1]
    have hle : D ≤ |target - s0.currentPosition_InSteps| := by
      have := abs_nonneg (target - s0.currentPosition_InSteps)
      omega
    by_cases h1 : 1 ≤ D
    · rw [if_pos ⟨h1, hle⟩, if_pos h1]
    · rw [if_neg (fun h => h1 h.1), if_neg h1]
  by_cases hneg : target - s0.currentPosition_InSteps < 0
  · rw [if_pos hneg] at f3
    exact hsplit (-1) (Or.inr rfl) f3 (by rw [abs_of_neg hneg]; ring)
  · rw [if_neg hneg] at f3
    exact hsplit 1 (Or.inl rfl) f3 (by rw [abs_of_nonneg (not_lt.mp hneg)]; ring)

/-- C7 (amended): with the position off the target, a poll whose elapsed time, counted
from `ramp_LastStepTime_InUS` (on the first poll of a move: from the clock value
that poll records), is below the step period truncated to whole microseconds
returns `false` and emits no step; position, both step periods and the
acceleration term are unchanged, and the whole state is unchanged unless this is
the first poll of the move, which records the clock value and clears
`startNewMove`. -/
theorem processMovement_not_due (s : SpeedyStepper) (t0 t1 : Nat)
    (hmove : s.currentPosition_InSteps ≠ s.targetPosition_InSteps)
    (hearly : subULong t1 (if s.startNewMove = true then t0 else s.ramp_LastStepTime_InUS)
      < toULong s.ramp_NextStepPeriod_InUS) :
    (processMovement s t0 t1).result = false ∧
    (processMovement s t0 t1).pulse = false ∧
    (processMovement s t0 t1).stepper.currentPosition_InSteps = s.currentPosition_InSteps ∧
    (processMovement s t0 t1).stepper.currentStepPeriod_InUS = s.currentStepPeriod_InUS ∧
    (processMovement s t0 t1).stepper.ramp_NextStepPeriod_InUS = s.ramp_NextStepPeriod_InUS ∧
    (processMovement s t0 t1).stepper.acceleration_InStepsPerUSPerUS
      = s.acceleration_InStepsPerUSPerUS ∧
    (processMovement s t0 t1).stepper
      = (if s.startNewMove = true then
          { s with ramp_LastStepTime_InUS := t0, startNewMove := false }
        else s) := by
  obtain ⟨-, a2, -, -, a5, a6, a7, -, -, a10⟩ := startOfMove_fields s t0
  rw [processMovement_of_wait s t0 t1 hmove (by rw [a10, a6]; exact hearly)]
  exact ⟨rfl, rfl, a2, a7, a6, a5, rfl⟩

/-- Polls that emit no step leave position, target, direction, deceleration
distance and acceleration term as they are. -/
theorem pollTrace_no_pulse :
    ∀ (polls : List (Nat × Nat)) (s : SpeedyStepper) (pre : List PollRecord)
      (r : PollRecord) (post : List PollRecord),
      pollTrace s polls = pre ++ r :: post →
      (∀ x ∈ pre, x.after.pulse = false) →
      r.before.currentPosition_InSteps = s.currentPosition_InSteps ∧
      r.before.targetPosition_InSteps = s.targetPosition_InSteps ∧
      r.before.direction_Scaler = s.direction_Scaler ∧
      r.before.decelerationDistance_InSteps = s.decelerationDistance_InSteps ∧
      r.before.acceleration_InStepsPerUSPerUS = s.acceleration_InStepsPerUSPerUS ∧
      ∃ t : Nat × Nat, r.after = processMovement r.before t.1 t.2 := by
  intro polls
  induction polls with
  | nil =>
    intro s pre r post htr
    simp [pollTrace] at htr
  | cons t ts ih =>
    intro s pre r post htr hpre
    simp only [pollTrace] at htr
    cases pre with
    | nil =>
      simp only [List.nil_append, List.cons.injEq] at htr
      obtain ⟨hrec, -⟩ := htr
      subst hrec
      exact ⟨rfl, rfl, rfl, rfl, rfl, t, rfl⟩
    | cons x pre' =>
      simp only [List.cons_append, List.cons.injEq] at htr
      obtain ⟨hrec, htl⟩ := htr
      subst hrec
      obtain ⟨m1, m2, m3, m4, -, -, m7⟩ := processMovement_summary s t.1 t.2
      have hx : (processMovement s t.1 t.2).pulse = false := hpre _ (List.mem_cons_self _ _)
      rw [hx] at m4 m7
      simp only [Bool.false_eq_true, if_false, false_and] at m4 m7
      obtain ⟨i1, i2, i3, i4, i5, i6⟩ := ih (processMovement s t.1 t.2).stepper pre' r post htl
        (fun y hy => hpre y (List.mem_cons_of_mem _ hy))
      exact ⟨i1.trans m4, i2.trans m1, i3.trans m2, i4.trans m3, i5.trans m7, i6⟩

/-- What "during a move" provides: after `setupMoveInSteps` with positive cruise speed
and acceleration (braking distance below `2 ^ 30`), and after any run of polls,
`direction_Scaler` is `1` or `-1` and the deceleration distance is not negative. -/
theorem moving_state (sqrtf : ℚ → ℚ) (s0 : SpeedyStepper) (v a : ℚ) (target : Int)
    (hv : 0 < v) (ha : 0 < a)
    (hfit : roundHalfAway (toFloat (toFloat (v * v) / toFloat (2 * a))) < 1073741824) :
    ∀ (polls : List (Nat × Nat)),
      ∀ x ∈ pollTrace (setupMoveInSteps sqrtf (configure s0 v a) target) polls,
        (x.after.stepper.direction_Scaler = 1 ∨ x.after.stepper.direction_Scaler = -1) ∧
        0 ≤ x.after.stepper.decelerationDistance_InSteps := by
  obtain ⟨c1, c2, -⟩ := configure_fields s0 v a
  obtain ⟨-, -, f3, -⟩ := setupMoveInSteps_fields sqrtf (configure s0 v a) target
  obtain ⟨-, g2, g3, -⟩ := brakingSteps_of_fit v a hv ha hfit
  obtain ⟨b1, -⟩ := decelerationDistance_range sqrtf (configure s0 v a) target
    (by rw [c1, c2]; exact g2) (by rw [c1, c2]; exact g3)
  have hdir : (setupMoveInSteps sqrtf (configure s0 v a) target).direction_Scaler = 1 ∨
      (setupMoveInSteps sqrtf (configure s0 v a) target).direction_Scaler = -1 := by
    rw [f3]
    split_ifs
    · exact Or.inr rfl
    · exact Or.inl rfl
  generalize setupMoveInSteps sqrtf (configure s0 v a) target = s at hdir b1
  intro polls
  induction polls generalizing s with
  | nil => intro x hx; simp [pollTrace] at hx
  | cons t ts ih =>
    intro x hx
    obtain ⟨-, m2, m3, -⟩ := processMovement_summary s t.1 t.2
    simp only [pollTrace, List.mem_cons] at hx
    rcases hx with hx | hx
    · subst hx
      simp only
      rw [m2, m3]
      exact ⟨hdir, b1⟩
    · exact ih _ (by rw [m2]; exact hdir) (by rw [m3]; exact b1) x hx

/-- C9: during a move (direction `1` or `-1`, deceleration distance not
negative, see `moving_state`) `setupStop` sets the target to
`currentPosition + direction_Scaler * decelerationDistance_InSteps` and changes no
other member, so the remaining distance equals the deceleration distance and lies
in the direction of travel; the next poll that emits a step finds the remaining
distance equal to the deceleration distance and negates the acceleration term. -/
theorem setupStop_starts_deceleration (s : SpeedyStepper) (polls : List (Nat × Nat))
    (pre : List PollRecord) (r : PollRecord) (post : List PollRecord)
    (hdir : s.direction_Scaler = 1 ∨ s.direction_Scaler = -1)
    (hdec : 0 ≤ s.decelerationDistance_InSteps)
    (htrace : pollTrace (setupStop s) polls = pre ++ r :: post)
    (hpre : ∀ x ∈ pre, x.after.pulse = false)
    (hr : r.after.pulse = true) :
    setupStop s = { s with
      targetPosition_InSteps :=
        s.currentPosition_InSteps + s.direction_Scaler * s.decelerationDistance_InSteps } ∧
    distanceToTarget (setupStop s) = s.decelerationDistance_InSteps ∧
    s.direction_Scaler * ((setupStop s).targetPosition_InSteps - s.currentPosition_InSteps)
      = s.decelerationDistance_InSteps ∧
    distanceToTarget r.before = r.before.decelerationDistance_InSteps ∧
    r.after.stepper.acceleration_InStepsPerUSPerUS = -s.acceleration_InStepsPerUSPerUS := by
  have hstop : setupStop s = { s with
      targetPosition_InSteps :=
        s.currentPosition_InSteps + s.direction_Scaler * s.decelerationDistance_InSteps } := by
    unfold setupStop
    rcases hdir with h | h
    · rw [h, if_pos (by decide), one_mul]
    · rw [h, if_neg (by decide)]
      have : s.currentPosition_InSteps - s.decelerationDistance_InSteps
          = s.currentPosition_InSteps + -1 * s.decelerationDistance_InSteps := by ring
      rw [this]
  have hd : distanceToTarget (setupStop s) = s.decelerationDistance_InSteps := by
    rw [hstop]
    unfold distanceToTarget
    simp only
    rcases hdir with h | h <;> rw [h] <;> split_ifs <;> omega
  obtain ⟨p1, p2, p3, p4, p5, t, p6⟩ := pollTrace_no_pulse polls (setupStop s) pre r post
    htrace hpre
  have hdr : distanceToTarget r.before = distanceToTarget (setupStop s) := by
    unfold distanceToTarget
    rw [p1, p2]
  have e4 : (setupStop s).decelerationDistance_InSteps = s.decelerationDistance_InSteps := by
    rw [hstop]
  have e5 : (setupStop s).acceleration_InStepsPerUSPerUS = s.acceleration_InStepsPerUSPerUS := by
    rw [hstop]
  refine ⟨hstop, hd, ?_, ?_, ?_⟩
  · rw [hstop]
    simp only
    rcases hdir with h | h <;> rw [h] <;> ring
  · rw [hdr, hd, p4, e4]
  · obtain ⟨-, -, -, -, -, -, m7⟩ := processMovement_summary r.before t.1 t.2
    rw [← p6] at m7
    rw [m7, if_pos ⟨hr, by rw [hdr, hd, p4, e4]⟩, p5, e5]

/-- C10: `getCurrentVelocityInStepsPerSecond` returns 0 when `currentStepPeriod_InUS`
is 0 and otherwise `1000000 / currentStepPeriod_InUS` with the sign of
`direction_Scaler`; after a poll that emits a step short of the target the period
it reports is the value `ramp_NextStepPeriod_InUS` had before the poll, and after
the poll that emits the final step it returns 0. -/
theorem velocity_reports_last_step (s : SpeedyStepper) (t0 t1 : Nat)
    (hdir : s.direction_Scaler ≠ 0) :
    getCurrentVelocityInStepsPerSecond s
      = (if s.currentStepPeriod_InUS = 0 then 0
        else (Int.sign s.direction_Scaler : ℚ) * (1000000 / s.currentStepPeriod_InUS)) ∧
    ((processMovement s t0 t1).pulse = true → (processMovement s t0 t1).result = false →
      (processMovement s t0 t1).stepper.currentStepPeriod_InUS = s.ramp_NextStepPeriod_InUS ∧
      getCurrentVelocityInStepsPerSecond (processMovement s t0 t1).stepper
        = (if s.ramp_NextStepPeriod_InUS = 0 then 0
          else (Int.sign s.direction_Scaler : ℚ) * (1000000 / s.ramp_NextStepPeriod_InUS))) ∧
    ((processMovement s t0 t1).pulse = true → (processMovement s t0 t1).result = true →
      getCurrentVelocityInStepsPerSecond (processMovement s t0 t1).stepper = 0) := by
  have hvel : ∀ u : SpeedyStepper, u.direction_Scaler = s.direction_Scaler →
      getCurrentVelocityInStepsPerSecond u
        = (if u.currentStepPeriod_InUS = 0 then 0
          else (Int.sign s.direction_Scaler : ℚ) * (1000000 / u.currentStepPeriod_InUS)) := by
    intro u hu
    unfold getCurrentVelocityInStepsPerSecond
    rw [hu]
    by_cases hz : u.currentStepPeriod_InUS = 0
    · rw [if_pos hz, if_pos hz]
    · rw [if_neg hz, if_neg hz]
      by_cases hpos : s.direction_Scaler > 0
      · rw [if_pos hpos, Int.sign_eq_one_of_pos hpos]
        push_cast
        ring
      · rw [if_neg hpos, Int.sign_eq_neg_one_of_neg (by omega)]
        push_cast
        ring
  obtain ⟨-, m2, -⟩ := processMovement_summary s t0 t1
  refine ⟨hvel s rfl, ?_, ?_⟩
  · intro hp hres
    have hper : (processMovement s t0 t1).stepper.currentStepPeriod_InUS
        = s.ramp_NextStepPeriod_InUS := by
      by_cases ha : s.currentPosition_InSteps = s.targetPosition_InSteps
      · rw [processMovement_of_done s t0 t1 ha] at hp
        exact Bool.noConfusion hp
      · by_cases hb : subULong t1 (startOfMove s t0).ramp_LastStepTime_InUS
            < toULong (startOfMove s t0).ramp_NextStepPeriod_InUS
        · rw [processMovement_of_wait s t0 t1 ha hb] at hp
          exact Bool.noConfusion hp
        · obtain ⟨-, -, -, -, -, a6, -⟩ := startOfMove_fields s t0
          obtain ⟨-, -, -, -, -, b6, -⟩ := emitStep_fields (startOfMove s t0) t1
          rw [processMovement_of_step s t0 t1 ha hb] at hres ⊢
          split_ifs at hres ⊢ with hc
          exact b6.trans a6
    refine ⟨hper, ?_⟩
    rw [hvel _ m2, hper]
  · intro hp hres
    by_cases ha : s.currentPosition_InSteps = s.targetPosition_InSteps
    · rw [processMovement_of_done s t0 t1 ha] at hp
      exact Bool.noConfusion hp
    · by_cases hb : subULong t1 (startOfMove s t0).ramp_LastStepTime_InUS
          < toULong (startOfMove s t0).ramp_NextStepPeriod_InUS
      · rw [processMovement_of_wait s t0 t1 ha hb] at hp
        exact Bool.noConfusion hp
      · rw [processMovement_of_step s t0 t1 ha hb] at hres ⊢
        split_ifs at hres ⊢ with hc
        simp [getCurrentVelocityInStepsPerSecond]

/-! ## The example moves, evaluated -/

theorem sqrtMicro_four : sqrtMicro 4 = 2 := by
  unfold sqrtMicro
  have h : Int.toNat (Int.floor ((4 : ℚ) * 1000000000000)) = 2000000 * 2000000 := by
    norm_num
    rfl
  rw [h, Nat.sqrt_eq]
  norm_num

theorem toULong_natCast (n : Nat) (h : n < 2 ^ 32) : toULong (n : ℚ) = n := by
  unfold toULong ULONG_MOD
  rw [Int.floor_natCast, Int.toNat_ofNat, Nat.mod_eq_of_lt h]

theorem toULong_half_million : toULong 500000 = 500000 :=
  toULong_natCast 500000 (by norm_num)

theorem toULong_third_million : toULong (1000000 / 3) = 333333 := by
  unfold toULong ULONG_MOD
  have h : Int.floor ((1000000 : ℚ) / 3) = 333333 := by
    rw [Int.floor_eq_iff]
    constructor <;> norm_num
  rw [h]
  rfl

theorem plannedOne_eq :
    setupMoveInSteps sqrtMicro (configure constructed 3 2) 1 = plannedOne := by
  have h4 : (2 : ℚ) * 2 = 4 := by norm_num
  have ht : Int.tdiv 1 2 = 0 := rfl
  simp [plannedOne, setupMoveInSteps, startRamp, clipDeceleration, distanceToTravel, planDirection,
    planMove, configure, constructed,
    setSpeedInStepsPerSecond, setAccelerationInStepsPerSecondPerSecond, h4, sqrtMicro_four,
    brakingSteps_three_two, wrapLong, ht]
  norm_num

theorem plannedTwo_eq :
    setupMoveInSteps sqrtMicro (configure constructed 3 2) 2 = plannedTwo := by
  have h4 : (2 : ℚ) * 2 = 4 := by norm_num
  have ht : Int.tdiv 2 2 = 1 := rfl
  simp [plannedTwo, plannedOne, setupMoveInSteps, startRamp, clipDeceleration, distanceToTravel,
    planDirection, planMove, configure, constructed, setSpeedInStepsPerSecond, setAccelerationInStepsPerSecondPerSecond, h4,
    sqrtMicro_four, brakingSteps_three_two, wrapLong, ht]
  norm_num

theorem plannedTen_eq :
    setupMoveInSteps sqrtMicro (configure constructed 3 2) 10 = plannedTen := by
  have h4 : (2 : ℚ) * 2 = 4 := by norm_num
  simp [plannedTen, plannedOne, setupMoveInSteps, startRamp, clipDeceleration, distanceToTravel,
    planDirection, planMove, configure, constructed, setSpeedInStepsPerSecond, setAccelerationInStepsPerSecondPerSecond, h4,
    sqrtMicro_four, brakingSteps_three_two, wrapLong]
  norm_num

theorem setupRelativeMoveInSteps_constructed (v a : ℚ) (d : Int) :
    setupRelativeMoveInSteps sqrtMicro (configure constructed v a) d
      = setupMoveInSteps sqrtMicro (configure constructed v a) d := by
  unfold setupRelativeMoveInSteps
  rw [(configure_fields constructed v a).2.2]
  simp [constructed]

/-- First poll of the 1-step move, at time 0: the clock is recorded, no step. -/
theorem plannedOne_poll1 :
    processMovement plannedOne 0 0
      = { stepper := { plannedOne with startNewMove := false },
          result := false, pulse := false } := by
  rw [processMovement_of_wait]
  · simp [plannedOne, startOfMove]
  · simp [plannedOne]
  · simp [plannedOne, startOfMove, toULong_half_million, subULong, ULONG_MOD]

/-- Second poll of the 1-step move, at time 500000: the only step, and the end. -/
theorem plannedOne_poll2 :
    processMovement { plannedOne with startNewMove := false } 500000 500000
      = { stepper := { plannedOne with
            startNewMove := false
            currentPosition_InSteps := 1
            ramp_NextStepPeriod_InUS := 1000000 / 3
            ramp_LastStepTime_InUS := 500000 },
          result := true, pulse := true } := by
  rw [processMovement_of_step]
  · simp [plannedOne, startOfMove, emitStep, clipPeriod, nextPeriod, takeStep,
      beginDeceleration, distanceToTarget]
    norm_num
  · simp [plannedOne]
  · simp [plannedOne, startOfMove, toULong_half_million, subULong, ULONG_MOD]

theorem plannedOne_trace :
    pollTrace plannedOne [(0, 0), (500000, 500000)] = oneStepRun := by
  simp only [pollTrace, plannedOne_poll1, plannedOne_poll2, oneStepRun, oneStepWait,
    oneStepDone]

theorem plannedTwo_poll1 :
    processMovement plannedTwo 0 0
      = { stepper := { plannedTwo with startNewMove := false },
          result := false, pulse := false } := by
  rw [processMovement_of_wait]
  · simp [plannedTwo, plannedOne, startOfMove]
  · simp [plannedTwo, plannedOne]
  · simp [plannedTwo, plannedOne, startOfMove, toULong_half_million, subULong, ULONG_MOD]

theorem plannedTwo_poll2 :
    processMovement { plannedTwo with startNewMove := false } 500000 500000
      = { stepper := steppedTwo, result := false, pulse := true } := by
  rw [processMovement_of_step]
  · simp [steppedTwo, plannedTwo, plannedOne, startOfMove, emitStep, clipPeriod, nextPeriod,
      takeStep, beginDeceleration, distanceToTarget]
    norm_num
  · simp [plannedTwo, plannedOne]
  · simp [plannedTwo, plannedOne, startOfMove, toULong_half_million, subULong, ULONG_MOD]

theorem plannedTwo_poll3 :
    processMovement steppedTwo 1000000 1000000
      = { stepper := { steppedTwo with
            currentPosition_InSteps := 2
            currentStepPeriod_InUS := 0
            acceleration_InStepsPerUSPerUS := -(2 / 1000000000000)
            ramp_NextStepPeriod_InUS := 11000000 / 27
            ramp_LastStepTime_InUS := 1000000 },
          result := true, pulse := true } := by
  rw [processMovement_of_step]
  · simp [steppedTwo, plannedTwo, plannedOne, startOfMove, emitStep, clipPeriod, nextPeriod,
      takeStep, beginDeceleration, distanceToTarget]
    norm_num
  · simp [steppedTwo, plannedTwo, plannedOne]
  · simp [steppedTwo, plannedTwo, plannedOne, startOfMove, toULong_third_million, subULong,
      ULONG_MOD]

theorem plannedTwo_trace :
    pollTrace plannedTwo [(0, 0), (500000, 500000), (1000000, 1000000)] = twoStepRun := by
  simp only [pollTrace, plannedTwo_poll1, plannedTwo_poll2, plannedTwo_poll3, twoStepRun,
    twoStepWait, twoStepFirst, twoStepDone]

theorem plannedTen_poll1 :
    processMovement plannedTen 0 0
      = { stepper := { plannedTen with startNewMove := false },
          result := false, pulse := false } := by
  rw [processMovement_of_wait]
  · simp [plannedTen, plannedOne, startOfMove]
  · simp [plannedTen, plannedOne]
  · simp [plannedTen, plannedOne, startOfMove, toULong_half_million, subULong, ULONG_MOD]

theorem plannedTen_poll2 :
    processMovement { plannedTen with startNewMove := false } 500000 500000
      = { stepper := cruisingTen, result := false, pulse := true } := by
  rw [processMovement_of_step]
  · simp [cruisingTen, plannedTen, plannedOne, startOfMove, emitStep, clipPeriod, nextPeriod,
      takeStep, beginDeceleration, distanceToTarget]
    norm_num
  · simp [plannedTen, plannedOne]
  · simp [plannedTen, plannedOne, startOfMove, toULong_half_million, subULong, ULONG_MOD]

/-- The state `cruisingTen` is reached by the program: plan the 10-step move, poll at
time 0, poll at time 500000. -/
theorem cruisingTen_eq :
    (processMovement
      (processMovement (setupMoveInSteps sqrtMicro (configure constructed 3 2) 10) 0 0).stepper
      500000 500000).stepper = cruisingTen := by
  rw [plannedTen_eq, plannedTen_poll1, plannedTen_poll2]

/-- A poll of `cruisingTen` 333333 microseconds after its last step emits the next
step, although the step period is 1000000 / 3. -/
theorem cruisingTen_poll :
    processMovement cruisingTen 0 833333
      = { stepper := { cruisingTen with
            currentPosition_InSteps := 2
            currentStepPeriod_InUS := 1000000 / 3
            ramp_LastStepTime_InUS := 833333 },
          result := false, pulse := true } := by
  rw [processMovement_of_step]
  · simp [cruisingTen, plannedTen, plannedOne, startOfMove, emitStep, clipPeriod, nextPeriod,
      takeStep, beginDeceleration, distanceToTarget]
  · simp [cruisingTen, plannedTen, plannedOne]
  · simp [cruisingTen, plannedTen, plannedOne, startOfMove, toULong_third_million, subULong,
      ULONG_MOD]

/-! ## Witnesses and counterexamples on the example moves -/

/-- Witness for C1: the 1-step move from the constructed axis, polled at times 0 and
500000, emits one step. -/
theorem relativeMove_reaches_target_witness :
    pulseCount ([oneStepWait] ++ [oneStepDone]) = Int.natAbs 1 :=
  (relativeMove_reaches_target sqrtMicro constructed 3 2 1 [(0, 0), (500000, 500000)]
    [oneStepWait] oneStepDone []
    (by decide) (by norm_num) (by norm_num)
    (by rw [setupRelativeMoveInSteps_constructed, plannedOne_eq, plannedOne_trace]; rfl)
    (by simp [oneStepWait]) (by simp [oneStepDone])).1

/-- Counterexample to C4 as stated: speed 3, acceleration 2, a move of 1 step from the
constructed axis, polled at times 0 and 500000.  The second poll is the first to
return `true`, and no poll of the run changes the sign of the acceleration term. -/
theorem plannedMove_sign_flips_counterexample :
    (0 : ℚ) < 3 ∧ (0 : ℚ) < 2 ∧ (1 : Int) ≠ constructed.currentPosition_InSteps ∧
    (pollTrace (setupMoveInSteps sqrtMicro (configure constructed 3 2) 1)
      [(0, 0), (500000, 500000)]).map (fun x => x.after.result) = [false, true] ∧
    signFlipCount (pollTrace (setupMoveInSteps sqrtMicro (configure constructed 3 2) 1)
      [(0, 0), (500000, 500000)]) = 0 := by
  rw [plannedOne_eq, plannedOne_trace]
  refine ⟨by norm_num, by norm_num, by decide, ?_, ?_⟩
  · simp [oneStepRun, oneStepWait, oneStepDone]
  · simp [signFlipCount, signFlipped, oneStepRun, oneStepWait, oneStepDone, plannedOne]

/-- Witness for C4 (amended): the 2-step move from the constructed axis (deceleration
distance 1), polled at times 0, 500000 and 1000000, changes the sign once. -/
theorem plannedMove_sign_flips_witness :
    signFlipCount ([twoStepWait, twoStepFirst] ++ [twoStepDone])
      = (if 1 ≤ (setupMoveInSteps sqrtMicro (configure constructed 3 2) 2).decelerationDistance_InSteps
          then 1 else 0) :=
  (plannedMove_sign_flips sqrtMicro constructed 3 2 2
    [(0, 0), (500000, 500000), (1000000, 1000000)]
    [twoStepWait, twoStepFirst] twoStepDone []
    (by decide) (by norm_num) (by norm_num) (by norm_num)
    (by rw [braking_three_two]; decide)
    (by rw [plannedTwo_eq, plannedTwo_trace]; rfl)
    (by simp [twoStepWait, twoStepFirst]) (by simp [twoStepDone])).1

/-- Counterexample to C7 as stated: `cruisingTen` is off its target, its step period
is 1000000 / 3 microseconds, and a poll 333333 microseconds after the last step
(less than the period) emits a step and moves the position. -/
theorem processMovement_not_due_counterexample :
    (processMovement
      (processMovement (setupMoveInSteps sqrtMicro (configure constructed 3 2) 10) 0 0).stepper
      500000 500000).stepper = cruisingTen ∧
    cruisingTen.currentPosition_InSteps ≠ cruisingTen.targetPosition_InSteps ∧
    ((subULong 833333 cruisingTen.ramp_LastStepTime_InUS : Nat) : ℚ)
      < cruisingTen.ramp_NextStepPeriod_InUS ∧
    (processMovement cruisingTen 0 833333).pulse = true ∧
    (processMovement cruisingTen 0 833333).stepper.currentPosition_InSteps
      = cruisingTen.currentPosition_InSteps + 1 := by
  rw [cruisingTen_poll]
  refine ⟨cruisingTen_eq, ?_, ?_, rfl, ?_⟩
  · simp [cruisingTen, plannedTen, plannedOne]
  · simp [cruisingTen, plannedTen, plannedOne, subULong, ULONG_MOD]
    norm_num
  · simp [cruisingTen, plannedTen, plannedOne]

/-- Witness for C7 (amended): the first poll of the 10-step move, 100 microseconds
after the clock value it records. -/
theorem processMovement_not_due_witness :
    (processMovement plannedTen 0 100).result = false ∧
    (processMovement plannedTen 0 100).pulse = false :=
  ⟨(processMovement_not_due plannedTen 0 100
      (by simp [plannedTen, plannedOne])
      (by simp [plannedTen, plannedOne, toULong_half_million, subULong, ULONG_MOD])).1,
   (processMovement_not_due plannedTen 0 100
      (by simp [plannedTen, plannedOne])
      (by simp [plannedTen, plannedOne, toULong_half_million, subULong, ULONG_MOD])).2.1⟩

/-- Witness for C8: last step stamped 296 microseconds before the clock wraps, polled
1000 microseconds later. -/
theorem processMovement_elapsed_wraparound_witness :
    subULong ((wrappingTen.ramp_LastStepTime_InUS + 1000) % 2 ^ 32)
      wrappingTen.ramp_LastStepTime_InUS = 1000 :=
  (processMovement_elapsed_wraparound wrappingTen 0 1000
    (by norm_num) (by simp [wrappingTen, cruisingTen, plannedTen, plannedOne]) rfl).1

/-- Witness for C9: a stop requested in `cruisingTen`, then a poll 333334 microseconds
after the last step. -/
theorem setupStop_starts_deceleration_witness :
    (processMovement (setupStop cruisingTen) 0 833334).stepper.acceleration_InStepsPerUSPerUS
      = -cruisingTen.acceleration_InStepsPerUSPerUS :=
  (setupStop_starts_deceleration cruisingTen [(0, 833334)] []
    { before := setupStop cruisingTen, after := processMovement (setupStop cruisingTen) 0 833334 }
    []
    (by simp [cruisingTen, plannedTen, plannedOne])
    (by simp [cruisingTen, plannedTen, plannedOne])
    rfl
    (by simp)
    (by
      show (processMovement (setupStop cruisingTen) 0 833334).pulse = true
      rw [processMovement_of_step]
      · split_ifs <;> rfl
      · simp [setupStop, cruisingTen, plannedTen, plannedOne]
      · simp [setupStop, cruisingTen, plannedTen, plannedOne, startOfMove,
          toULong_third_million, subULong, ULONG_MOD])).2.2.2.2

/-- Witness for C10: the velocity reported in `cruisingTen` (direction 1). -/
theorem velocity_reports_last_step_witness :
    getCurrentVelocityInStepsPerSecond cruisingTen
      = (if cruisingTen.currentStepPeriod_InUS = 0 then 0
        else (Int.sign cruisingTen.direction_Scaler : ℚ)
          * (1000000 / cruisingTen.currentStepPeriod_InUS)) :=
  (velocity_reports_last_step cruisingTen 0 833333
    (by simp [cruisingTen, plannedTen, plannedOne])).1

/-! ## Planning without validation, first poll, stop while decelerating -/

/-- C11 (amended): `setupMoveInSteps` has no validation and no error result: also with a
configured cruise speed or acceleration that is zero or negative it stores the
requested target, sets the direction from the sign of `target - current`, sets the
acceleration term to `acceleration / 1e12` and sets the start-of-move flag. -/
theorem setupMoveInSteps_plans_unvalidated (sqrtf : ℚ → ℚ) (s : SpeedyStepper) (v a : ℚ)
    (target : Int) (_hbad : v ≤ 0 ∨ a ≤ 0) :
    (setupMoveInSteps sqrtf (configure s v a) target).targetPosition_InSteps = target ∧
    (setupMoveInSteps sqrtf (configure s v a) target).direction_Scaler
      = (if target - s.currentPosition_InSteps < 0 then -1 else 1) ∧
    (setupMoveInSteps sqrtf (configure s v a) target).acceleration_InStepsPerUSPerUS
      = a / 1000000000000 ∧
    (setupMoveInSteps sqrtf (configure s v a) target).startNewMove = true := by
  obtain ⟨-, c2, c3⟩ := configure_fields s v a
  obtain ⟨f1, -, f3, -, f5, -, -, f8, -⟩ := setupMoveInSteps_fields sqrtf (configure s v a) target
  rw [c3] at f3
  rw [c2] at f5
  exact ⟨f1, f3, f5, f8⟩

/-- Counterexample to C11 as stated: with cruise speed 0 (acceleration 100) a move of the
constructed axis to position 5 is planned all the same: target and start-of-move
flag change. -/
theorem setupMoveInSteps_plans_unvalidated_counterexample :
    (configure constructed 0 100).desiredSpeed_InStepsPerSecond ≤ 0 ∧
    (configure constructed 0 100).targetPosition_InSteps = 0 ∧
    (configure constructed 0 100).startNewMove = false ∧
    (setupMoveInSteps sqrtMicro (configure constructed 0 100) 5).targetPosition_InSteps = 5 ∧
    (setupMoveInSteps sqrtMicro (configure constructed 0 100) 5).startNewMove = true := by
  obtain ⟨f1, -, -, -, -, -, -, f8, -⟩ :=
    setupMoveInSteps_fields sqrtMicro (configure constructed 0 100) 5
  refine ⟨?_, ?_, ?_, f1, f8⟩
  · rw [(configure_fields constructed 0 100).1]
  · simp [configure, setSpeedInStepsPerSecond, setAccelerationInStepsPerSecondPerSecond,
      constructed]
  · simp [configure, setSpeedInStepsPerSecond, setAccelerationInStepsPerSecondPerSecond,
      constructed]

/-- Witness for C11 (amended): cruise speed 0, acceleration 100, target 5. -/
theorem setupMoveInSteps_plans_unvalidated_witness :
    (setupMoveInSteps sqrtMicro (configure constructed 0 100) 5).targetPosition_InSteps = 5 :=
  (setupMoveInSteps_plans_unvalidated sqrtMicro constructed 0 100 5 (Or.inl (le_refl 0))).1

/-- C17 (amended): for a move planned with target off the current position and positive
cruise speed and acceleration, the first call of `processMovement`, if the time
between its two clock readings is below the initial step period truncated to
whole microseconds, records the first reading in `ramp_LastStepTime_InUS`, clears
the start-of-move flag, emits no step (position unchanged) and returns `false`. -/
theorem first_poll_arms_clock (sqrtf : ℚ → ℚ) (s : SpeedyStepper) (v a : ℚ) (target : Int)
    (t0 t1 : Nat)
    (hmove : target ≠ s.currentPosition_InSteps) (_hv : 0 < v) (_ha : 0 < a)
    (hearly : subULong t1 t0 < toULong (1000000 / sqrtf (2 * a))) :
    (processMovement (setupMoveInSteps sqrtf (configure s v a) target) t0
        t1).stepper.ramp_LastStepTime_InUS = t0 ∧
    (processMovement (setupMoveInSteps sqrtf (configure s v a) target) t0
        t1).stepper.startNewMove = false ∧
    (processMovement (setupMoveInSteps sqrtf (configure s v a) target) t0 t1).pulse = false ∧
    (processMovement (setupMoveInSteps sqrtf (configure s v a) target) t0
        t1).stepper.currentPosition_InSteps = s.currentPosition_InSteps ∧
    (processMovement (setupMoveInSteps sqrtf (configure s v a) target) t0 t1).result = false := by
  obtain ⟨-, c2, c3⟩ := configure_fields s v a
  obtain ⟨f1, f2, -, -, -, f6, -, f8, -⟩ := setupMoveInSteps_fields sqrtf (configure s v a) target
  rw [c3] at f2
  rw [c2] at f6
  obtain ⟨-, a2, -, -, -, a6, -, -, a9, a10⟩ :=
    startOfMove_fields (setupMoveInSteps sqrtf (configure s v a) target) t0
  rw [f8] at a10
  simp only [if_true] at a10
  rw [processMovement_of_wait _ t0 t1 (by rw [f1, f2]; exact fun h => hmove h.symm)
    (by rw [a10, a6, f6]; exact hearly)]
  exact ⟨a10, a9, rfl, a2.trans f2, rfl⟩

theorem sqrtMicro_sixteen_tera : sqrtMicro (2 * 8000000000000) = 4000000 := by
  unfold sqrtMicro
  have h : Int.toNat (Int.floor ((2 : ℚ) * 8000000000000 * 1000000000000))
      = 4000000000000 * 4000000000000 := by
    norm_num
    rfl
  rw [h, Nat.sqrt_eq]
  norm_num

theorem toULong_quarter : toULong (1000000 / 4000000) = 0 := by
  unfold toULong ULONG_MOD
  have h : Int.floor ((1000000 : ℚ) / 4000000) = 0 := by
    rw [Int.floor_eq_iff]
    constructor <;> norm_num
  rw [h]
  rfl

/-- Counterexample to C17 as stated: acceleration `8e12` steps/s^2 (cruise speed 100), a
move of the constructed axis to position 5.  The initial step period is a quarter
of a microsecond, truncated to 0, so the first poll, at clock value 1000, emits a
step. -/
theorem first_poll_arms_clock_counterexample :
    (5 : Int) ≠ constructed.currentPosition_InSteps ∧ (0 : ℚ) < 100 ∧
    (0 : ℚ) < 8000000000000 ∧
    (processMovement (setupMoveInSteps sqrtMicro (configure constructed 100 8000000000000) 5)
      1000 1000).pulse = true ∧
    (processMovement (setupMoveInSteps sqrtMicro (configure constructed 100 8000000000000) 5)
      1000 1000).stepper.currentPosition_InSteps = 1 := by
  obtain ⟨-, c2, c3⟩ := configure_fields constructed 100 8000000000000
  obtain ⟨f1, f2, f3, -, -, f6, -, -, -⟩ :=
    setupMoveInSteps_fields sqrtMicro (configure constructed 100 8000000000000) 5
  rw [c3] at f2 f3
  rw [c2, sqrtMicro_sixteen_tera] at f6
  obtain ⟨a1, a2, a3, -, -, a6, -⟩ :=
    startOfMove_fields (setupMoveInSteps sqrtMicro (configure constructed 100 8000000000000) 5)
      1000
  obtain ⟨b1, b2, -⟩ := emitStep_fields
    (startOfMove (setupMoveInSteps sqrtMicro (configure constructed 100 8000000000000) 5) 1000)
    1000
  have hpos : constructed.currentPosition_InSteps = 0 := rfl
  rw [hpos] at f2 f3
  rw [processMovement_of_step _ 1000 1000 (by rw [f1, f2]; decide)
    (by rw [a6, f6, toULong_quarter]; exact Nat.not_lt_zero _)]
  have hne : ¬ (emitStep (startOfMove
      (setupMoveInSteps sqrtMicro (configure constructed 100 8000000000000) 5) 1000)
      1000).currentPosition_InSteps
      = (emitStep (startOfMove
      (setupMoveInSteps sqrtMicro (configure constructed 100 8000000000000) 5) 1000)
      1000).targetPosition_InSteps := by
    rw [b1, b2, a1, a2, a3, f1, f2, f3]
    decide
  rw [if_neg hne]
  refine ⟨by decide, by norm_num, by norm_num, rfl, ?_⟩
  show (emitStep _ 1000).currentPosition_InSteps = 1
  rw [b2, a2, a3, f2, f3]
  decide

/-- Witness for C17 (amended): the 10-step move of the example axis, both clock readings
of the first poll equal to 1000. -/
theorem first_poll_arms_clock_witness :
    (processMovement (setupMoveInSteps sqrtMicro (configure constructed 3 2) 10) 1000
        1000).stepper.ramp_LastStepTime_InUS = 1000 :=
  (first_poll_arms_clock sqrtMicro constructed 3 2 10 1000 1000 (by decide) (by norm_num)
    (by norm_num)
    (by
      have h4 : (2 : ℚ) * 2 = 4 := by norm_num
      rw [h4, sqrtMicro_four]
      have h5 : (1000000 : ℚ) / 2 = 500000 := by norm_num
      rw [h5, toULong_half_million]
      simp [subULong, ULONG_MOD])).1

/-- With less than the deceleration distance left to go, no poll of a run touches the
acceleration term. -/
theorem pollTrace_accel_kept (T δ D : Int) (hδ : δ = 1 ∨ δ = -1) :
    ∀ (polls : List (Nat × Nat)) (s : SpeedyStepper),
      s.targetPosition_InSteps = T → s.direction_Scaler = δ →
      s.decelerationDistance_InSteps = D →
      0 ≤ δ * (T - s.currentPosition_InSteps) →
      δ * (T - s.currentPosition_InSteps) < D →
      ∀ x ∈ pollTrace s polls,
        x.after.stepper.acceleration_InStepsPerUSPerUS = s.acceleration_InStepsPerUSPerUS := by
  intro polls
  induction polls with
  | nil => intro s _ _ _ _ _ x hx; simp [pollTrace] at hx
  | cons t ts ih =>
    intro s hT hdir hD h0 hlt x hx
    obtain ⟨m1, m2, m3, m4, -, m6, m7⟩ := processMovement_summary s t.1 t.2
    have hdist := distanceToTarget_eq s δ hδ (by rw [hT]; exact h0)
    rw [hT] at m1 hdist m6
    rw [hdir] at m2 m4
    rw [hD] at m3 m7
    have hne : ¬ ((processMovement s t.1 t.2).pulse = true ∧ distanceToTarget s = D) := by
      rintro ⟨-, h⟩
      rw [hdist] at h
      omega
    rw [if_neg hne] at m7
    simp only [pollTrace, List.mem_cons] at hx
    rcases hx with hx | hx
    · subst hx
      exact m7
    · have hrem : 0 ≤ δ * (T - (processMovement s t.1 t.2).stepper.currentPosition_InSteps) ∧
          δ * (T - (processMovement s t.1 t.2).stepper.currentPosition_InSteps) < D := by
        by_cases hp : (processMovement s t.1 t.2).pulse = true
        · rw [if_pos hp] at m4
          have := m6 hp
          rcases hδ with h | h <;> subst h <;> omega
        · rw [if_neg hp] at m4
          rw [m4]
          exact ⟨h0, hlt⟩
      rw [ih _ m1 m2 m3 hrem.1 hrem.2 x hx, m7]

/-- With exactly the deceleration distance `D ≥ 1` left to go, every poll of a run that
emits a step leaves the acceleration term negated once. -/
theorem pollTrace_accel_negated (T δ D : Int) (hδ : δ = 1 ∨ δ = -1) (hD1 : 1 ≤ D) :
    ∀ (polls : List (Nat × Nat)) (s : SpeedyStepper),
      s.targetPosition_InSteps = T → s.direction_Scaler = δ →
      s.decelerationDistance_InSteps = D →
      δ * (T - s.currentPosition_InSteps) = D →
      ∀ x ∈ pollTrace s polls, x.after.pulse = true →
        x.after.stepper.acceleration_InStepsPerUSPerUS = -s.acceleration_InStepsPerUSPerUS := by
  intro polls
  induction polls with
  | nil => intro s _ _ _ _ x hx; simp [pollTrace] at hx
  | cons t ts ih =>
    intro s hT hdir hD hrem x hx hxp
    obtain ⟨m1, m2, m3, m4, -, m6, m7⟩ := processMovement_summary s t.1 t.2
    have hdist := distanceToTarget_eq s δ hδ (by rw [hT, hrem]; omega)
    rw [hT] at m1 hdist m6
    rw [hdir] at m2 m4
    rw [hD] at m3 m7
    rw [hrem] at hdist
    simp only [pollTrace, List.mem_cons] at hx
    by_cases hp : (processMovement s t.1 t.2).pulse = true
    · rw [if_pos ⟨hp, hdist⟩] at m7
      rw [if_pos hp] at m4
      rcases hx with hx | hx
      · subst hx
        exact m7
      · have hrem' : 0 ≤ δ * (T - (processMovement s t.1 t.2).stepper.currentPosition_InSteps) ∧
            δ * (T - (processMovement s t.1 t.2).stepper.currentPosition_InSteps) < D := by
          rcases hδ with h | h <;> subst h <;> omega
        rw [pollTrace_accel_kept T δ D hδ ts _ m1 m2 m3 hrem'.1 hrem'.2 x hx, m7]
    · rw [if_neg (fun h => hp h.1)] at m7
      rw [if_neg hp] at m4
      rcases hx with hx | hx
      · subst hx
        exact absurd hxp hp
      · rw [ih _ m1 m2 m3 (by rw [m4]; exact hrem) x hx hxp, m7]

/-- C20: during a move that has begun to decelerate (acceleration term negative) with
deceleration distance at least 1, after `setupStop` the next poll that emits a step
negates the acceleration term a second time, which leaves it positive; no later
step negates it again (one sign change in the rest of the move, on the step at
remaining distance `decelerationDistance_InSteps`), so the acceleration term is
positive after every one of the `decelerationDistance_InSteps` remaining steps. -/
theorem setupStop_while_decelerating (s : SpeedyStepper) (polls : List (Nat × Nat))
    (pre : List PollRecord) (r : PollRecord) (post : List PollRecord)
    (hdir : s.direction_Scaler = 1 ∨ s.direction_Scaler = -1)
    (hdec : 1 ≤ s.decelerationDistance_InSteps)
    (hacc : s.acceleration_InStepsPerUSPerUS < 0)
    (htrace : pollTrace (setupStop s) polls = pre ++ r :: post)
    (hpre : ∀ x ∈ pre, x.after.result = false)
    (hr : r.after.result = true) :
    signFlipCount (pre ++ [r]) = 1 ∧
    (pulseCount (pre ++ [r]) : Int) = s.decelerationDistance_InSteps ∧
    ∀ x ∈ pre ++ [r],
      (signFlipped x = true ↔
        x.after.pulse = true ∧ distanceToTarget x.before = s.decelerationDistance_InSteps) ∧
      (x.after.pulse = true →
        x.after.stepper.acceleration_InStepsPerUSPerUS = -s.acceleration_InStepsPerUSPerUS ∧
        0 < x.after.stepper.acceleration_InStepsPerUSPerUS) := by
  have hstop : setupStop s = { s with
      targetPosition_InSteps :=
        s.currentPosition_InSteps + s.direction_Scaler * s.decelerationDistance_InSteps } := by
    unfold setupStop
    rcases hdir with h | h
    · rw [h, if_pos (by decide), one_mul]
    · rw [h, if_neg (by decide)]
      have : s.currentPosition_InSteps - s.decelerationDistance_InSteps
          = s.currentPosition_InSteps + -1 * s.decelerationDistance_InSteps := by ring
      rw [this]
  have e1 : (setupStop s).targetPosition_InSteps
      = s.currentPosition_InSteps + s.direction_Scaler * s.decelerationDistance_InSteps := by
    rw [hstop]
  have e2 : (setupStop s).currentPosition_InSteps = s.currentPosition_InSteps := by rw [hstop]
  have e3 : (setupStop s).direction_Scaler = s.direction_Scaler := by rw [hstop]
  have e4 : (setupStop s).decelerationDistance_InSteps = s.decelerationDistance_InSteps := by
    rw [hstop]
  have e5 : (setupStop s).acceleration_InStepsPerUSPerUS = s.acceleration_InStepsPerUSPerUS := by
    rw [hstop]
  have hrem : s.direction_Scaler * ((setupStop s).targetPosition_InSteps
      - (setupStop s).currentPosition_InSteps) = s.decelerationDistance_InSteps := by
    rw [e1, e2]
    rcases hdir with h | h <;> rw [h] <;> ring
  obtain ⟨k1, k2⟩ := pollTrace_signFlips (setupStop s).targetPosition_InSteps
    s.direction_Scaler s.decelerationDistance_InSteps hdir polls (setupStop s) pre r post
    rfl e3 e4 (by rw [e5]; exact ne_of_lt hacc) (by rw [hrem]; omega) htrace hpre hr
  obtain ⟨p1, -, -⟩ := pollTrace_first_done (setupStop s).targetPosition_InSteps
    s.direction_Scaler hdir polls (setupStop s) pre r post rfl e3 (by rw [hrem]; omega)
    htrace hpre hr
  rw [hrem] at k1 p1
  rw [if_pos ⟨hdec, le_refl _⟩] at k1
  refine ⟨k1, p1, ?_⟩
  intro x hx
  refine ⟨k2 x hx, ?_⟩
  intro hp
  have hmem : x ∈ pollTrace (setupStop s) polls := by
    rw [htrace]
    rcases List.mem_append.mp hx with h | h
    · exact List.mem_append_left _ h
    · rw [List.mem_singleton] at h
      subst h
      exact List.mem_append_right _ (List.mem_cons_self _ _)
  have := pollTrace_accel_negated (setupStop s).targetPosition_InSteps s.direction_Scaler
    s.decelerationDistance_InSteps hdir hdec polls (setupStop s) rfl e3 e4 hrem x hmem hp
  rw [e5] at this
  rw [this]
  exact ⟨rfl, by linarith⟩

/-! ## The 4-step example move -/

theorem plannedFour_eq :
    setupMoveInSteps sqrtMicro (configure constructed 3 2) 4 = plannedFour := by
  have h4 : (2 : ℚ) * 2 = 4 := by norm_num
  have ht : Int.tdiv 4 2 = 2 := rfl
  simp [plannedFour, plannedOne, setupMoveInSteps, startRamp, clipDeceleration,
    distanceToTravel, planDirection, planMove, configure, constructed,
    setSpeedInStepsPerSecond, setAccelerationInStepsPerSecondPerSecond, h4,
    sqrtMicro_four, brakingSteps_three_two, wrapLong, ht]
  norm_num

theorem plannedFour_poll1 :
    processMovement plannedFour 0 0
      = { stepper := { plannedFour with startNewMove := false },
          result := false, pulse := false } := by
  rw [processMovement_of_wait]
  · simp [plannedFour, plannedOne, startOfMove]
  · simp [plannedFour, plannedOne]
  · simp [plannedFour, plannedOne, startOfMove, toULong_half_million, subULong, ULONG_MOD]

theorem plannedFour_poll2 :
    processMovement { plannedFour with startNewMove := false } 500000 500000
      = { stepper := steppedFour, result := false, pulse := true } := by
  rw [processMovement_of_step]
  · simp [steppedFour, plannedFour, plannedOne, startOfMove, emitStep, clipPeriod, nextPeriod,
      takeStep, beginDeceleration, distanceToTarget]
    norm_num
  · simp [plannedFour, plannedOne]
  · simp [plannedFour, plannedOne, startOfMove, toULong_half_million, subULong, ULONG_MOD]

theorem plannedFour_poll3 :
    processMovement steppedFour 900000 900000
      = { stepper := halfwayFour, result := false, pulse := true } := by
  rw [processMovement_of_step]
  · simp [halfwayFour, steppedFour, plannedFour, plannedOne, startOfMove, emitStep, clipPeriod,
      nextPeriod, takeStep, beginDeceleration, distanceToTarget]
  · simp [steppedFour, plannedFour, plannedOne]
  · simp [steppedFour, plannedFour, plannedOne, startOfMove, toULong_third_million, subULong,
      ULONG_MOD]

theorem plannedFour_poll4 :
    processMovement halfwayFour 1300000 1300000
      = { stepper := brakingFour, result := false, pulse := true } := by
  rw [processMovement_of_step]
  · simp [brakingFour, halfwayFour, steppedFour, plannedFour, plannedOne, startOfMove, emitStep,
      clipPeriod, nextPeriod, takeStep, beginDeceleration, distanceToTarget]
    norm_num
  · simp [halfwayFour, steppedFour, plannedFour, plannedOne]
  · simp [halfwayFour, steppedFour, plannedFour, plannedOne, startOfMove,
      toULong_third_million, subULong, ULONG_MOD]

/-- The state `brakingFour` is reached by the program: plan the 4-step move and poll at
times 0, 500000, 900000 and 1300000. -/
theorem brakingFour_trace :
    (pollTrace (setupMoveInSteps sqrtMicro (configure constructed 3 2) 4)
      [(0, 0), (500000, 500000), (900000, 900000), (1300000, 1300000)]).map
        (fun x => x.after.stepper)
      = [{ plannedFour with startNewMove := false }, steppedFour, halfwayFour, brakingFour] := by
  rw [plannedFour_eq]
  simp only [pollTrace, plannedFour_poll1, plannedFour_poll2, plannedFour_poll3,
    plannedFour_poll4, List.map]

theorem toULong_eleven_over_27 : toULong (11000000 / 27) = 407407 := by
  unfold toULong ULONG_MOD
  have h : Int.floor ((11000000 : ℚ) / 27) = 407407 := by
    rw [Int.floor_eq_iff]
    constructor <;> norm_num
  rw [h]
  rfl

theorem setupStop_brakingFour :
    setupStop brakingFour = { brakingFour with targetPosition_InSteps := 5 } := by
  simp [setupStop, brakingFour, halfwayFour, steppedFour, plannedFour, plannedOne]

theorem stopFour_poll1 :
    processMovement (setupStop brakingFour) 0 1800000
      = { stepper := restartedFour, result := false, pulse := true } := by
  rw [setupStop_brakingFour, processMovement_of_step]
  · simp [restartedFour, brakingFour, halfwayFour, steppedFour, plannedFour, plannedOne,
      startOfMove, emitStep, clipPeriod, nextPeriod, takeStep, beginDeceleration,
      distanceToTarget]
    norm_num
  · simp [brakingFour, halfwayFour, steppedFour, plannedFour, plannedOne]
  · simp [brakingFour, halfwayFour, steppedFour, plannedFour, plannedOne, startOfMove,
      toULong_eleven_over_27, subULong, ULONG_MOD]

theorem stopFour_poll2 :
    processMovement restartedFour 0 2200000 = stopFourDone.after := by
  rw [processMovement_of_step]
  · simp [stopFourDone, restartedFour, brakingFour, halfwayFour, steppedFour, plannedFour,
      plannedOne, startOfMove, emitStep, clipPeriod, nextPeriod, takeStep, beginDeceleration,
      distanceToTarget]
  · simp [restartedFour, brakingFour, halfwayFour, steppedFour, plannedFour, plannedOne]
  · simp [restartedFour, brakingFour, halfwayFour, steppedFour, plannedFour, plannedOne,
      startOfMove, toULong_third_million, subULong, ULONG_MOD]

theorem stopFour_trace :
    pollTrace (setupStop brakingFour) [(0, 1800000), (0, 2200000)]
      = [stopFourFirst] ++ stopFourDone :: [] := by
  simp only [pollTrace, stopFour_poll1, stopFour_poll2, stopFourFirst, stopFourDone,
    List.singleton_append]

/-- Witness for C20: `brakingFour` is decelerating with deceleration distance 2; after
`setupStop` the two remaining steps are taken at times 1800000 and 2200000. -/
theorem setupStop_while_decelerating_witness :
    signFlipCount ([stopFourFirst] ++ [stopFourDone]) = 1 :=
  (setupStop_while_decelerating brakingFour [(0, 1800000), (0, 2200000)]
    [stopFourFirst] stopFourDone []
    (by simp [brakingFour, halfwayFour, steppedFour, plannedFour, plannedOne])
    (by simp [brakingFour, halfwayFour, steppedFour, plannedFour, plannedOne])
    (by simp [brakingFour])
    stopFour_trace
    (by simp [stopFourFirst]) (by simp [stopFourDone])).1

/-! ## Recorded step periods -/

/-- The value a stepping poll writes to `currentStepPeriod_InUS` (before the reset at the
end of the move) is the recorded period. -/
theorem recordedPeriod_written (s : SpeedyStepper) (t0 t1 : Nat) :
    (emitStep (startOfMove s t0) t1).currentStepPeriod_InUS
      = recordedPeriod { before := s, after := processMovement s t0 t1 } := by
  obtain ⟨-, -, -, -, -, a6, -⟩ := startOfMove_fields s t0
  obtain ⟨-, -, -, -, -, b6, -⟩ := emitStep_fields (startOfMove s t0) t1
  exact b6.trans a6

theorem emitStep_period_floor (s : SpeedyStepper) (now : Nat) :
    (emitStep s now).desiredStepPeriod_InUS ≤ (emitStep s now).ramp_NextStepPeriod_InUS := by
  unfold emitStep clipPeriod
  split_ifs with h
  · exact le_refl _
  · exact not_lt.mp h

/-- What one poll does to the step period: the cruise period is kept; without a step
the next period is kept; after a step the next period is at least the cruise
period. -/
theorem processMovement_ramp (s : SpeedyStepper) (t0 t1 : Nat) :
    (processMovement s t0 t1).stepper.desiredStepPeriod_InUS = s.desiredStepPeriod_InUS ∧
    ((processMovement s t0 t1).pulse = false →
      (processMovement s t0 t1).stepper.ramp_NextStepPeriod_InUS
        = s.ramp_NextStepPeriod_InUS) ∧
    ((processMovement s t0 t1).pulse = true →
      s.desiredStepPeriod_InUS ≤ (processMovement s t0 t1).stepper.ramp_NextStepPeriod_InUS) := by
  obtain ⟨-, -, -, -, -, a6, -, a8, -⟩ := startOfMove_fields s t0
  obtain ⟨-, -, -, -, -, -, b7, -⟩ := emitStep_fields (startOfMove s t0) t1
  have hfl := emitStep_period_floor (startOfMove s t0) t1
  rw [b7, a8] at hfl
  by_cases ha : s.currentPosition_InSteps = s.targetPosition_InSteps
  · rw [processMovement_of_done s t0 t1 ha]
    exact ⟨rfl, fun _ => rfl, fun h => Bool.noConfusion h⟩
  · by_cases hb : subULong t1 (startOfMove s t0).ramp_LastStepTime_InUS
          < toULong (startOfMove s t0).ramp_NextStepPeriod_InUS
    · rw [processMovement_of_wait s t0 t1 ha hb]
      exact ⟨a8, fun _ => a6, fun h => Bool.noConfusion h⟩
    · rw [processMovement_of_step s t0 t1 ha hb]
      split_ifs
      · exact ⟨b7.trans a8, fun h => False.elim h, fun _ => hfl⟩
      · exact ⟨b7.trans a8, fun h => False.elim h, fun _ => hfl⟩

/-- In a run, every poll that comes after an emitted step (or any poll, if the run
starts with the next period at or above the cruise period) starts with the next
period at or above the cruise period. -/
theorem pollTrace_period_floor :
    ∀ (polls : List (Nat × Nat)) (s : SpeedyStepper) (pre : List PollRecord)
      (x : PollRecord) (post : List PollRecord),
      pollTrace s polls = pre ++ x :: post →
      (1 ≤ pulseCount pre ∨ s.desiredStepPeriod_InUS ≤ s.ramp_NextStepPeriod_InUS) →
      x.before.desiredStepPeriod_InUS = s.desiredStepPeriod_InUS ∧
      s.desiredStepPeriod_InUS ≤ x.before.ramp_NextStepPeriod_InUS := by
  intro polls
  induction polls with
  | nil =>
    intro s pre x post htr
    simp [pollTrace] at htr
  | cons t ts ih =>
    intro s pre x post htr hor
    simp only [pollTrace] at htr
    obtain ⟨r1, r2, r3⟩ := processMovement_ramp s t.1 t.2
    cases pre with
    | nil =>
      simp only [List.nil_append, List.cons.injEq] at htr
      obtain ⟨hrec, -⟩ := htr
      subst hrec
      rcases hor with h | h
      · simp [pulseCount] at h
      · exact ⟨rfl, h⟩
    | cons y pre' =>
      simp only [List.cons_append, List.cons.injEq] at htr
      obtain ⟨hrec, htl⟩ := htr
      subst hrec
      rw [pulseCount_cons] at hor
      simp only at hor
      by_cases hp : (processMovement s t.1 t.2).pulse = true
      · obtain ⟨i1, i2⟩ := ih _ pre' x post htl (Or.inr (by rw [r1]; exact r3 hp))
        rw [r1] at i1 i2
        exact ⟨i1, i2⟩
      · rw [if_neg hp] at hor
        have hp' : (processMovement s t.1 t.2).pulse = false := by
          cases h : (processMovement s t.1 t.2).pulse
          · rfl
          · exact absurd h hp
        obtain ⟨i1, i2⟩ := ih _ pre' x post htl (by
          rcases hor with h | h
          · exact Or.inl (by omega)
          · exact Or.inr (by rw [r1, r2 hp']; exact h))
        rw [r1] at i1 i2
        exact ⟨i1, i2⟩

theorem toULong_million : toULong 1000000 = 1000000 :=
  toULong_natCast 1000000 (by norm_num)

theorem plannedSlow_eq :
    setupMoveInSteps sqrtMicro (configure constructed 1 2) 3 = plannedSlow := by
  have h4 : (2 : ℚ) * 2 = 4 := by norm_num
  simp [plannedSlow, plannedOne, setupMoveInSteps, startRamp, clipDeceleration,
    distanceToTravel, planDirection, planMove, configure, constructed,
    setSpeedInStepsPerSecond, setAccelerationInStepsPerSecondPerSecond, h4,
    sqrtMicro_four, brakingSteps_one_two, wrapLong]
  norm_num

theorem plannedSlow_poll1 :
    processMovement plannedSlow 0 0
      = { stepper := { plannedSlow with startNewMove := false },
          result := false, pulse := false } := by
  rw [processMovement_of_wait]
  · simp [plannedSlow, plannedOne, startOfMove]
  · simp [plannedSlow, plannedOne]
  · simp [plannedSlow, plannedOne, startOfMove, toULong_half_million, subULong, ULONG_MOD]

theorem plannedSlow_poll2 :
    processMovement { plannedSlow with startNewMove := false } 500000 500000
      = { stepper := steppedSlow, result := false, pulse := true } := by
  rw [processMovement_of_step]
  · simp [steppedSlow, plannedSlow, plannedOne, startOfMove, emitStep, clipPeriod, nextPeriod,
      takeStep, beginDeceleration, distanceToTarget]
    norm_num
  · simp [plannedSlow, plannedOne]
  · simp [plannedSlow, plannedOne, startOfMove, toULong_half_million, subULong, ULONG_MOD]

theorem plannedSlow_poll3 :
    processMovement steppedSlow 1500000 1500000
      = { stepper := { steppedSlow with
            currentPosition_InSteps := 2
            currentStepPeriod_InUS := 1000000
            ramp_LastStepTime_InUS := 1500000 },
          result := false, pulse := true } := by
  rw [processMovement_of_step]
  · simp [steppedSlow, plannedSlow, plannedOne, startOfMove, emitStep, clipPeriod, nextPeriod,
      takeStep, beginDeceleration, distanceToTarget]
  · simp [steppedSlow, plannedSlow, plannedOne]
  · simp [steppedSlow, plannedSlow, plannedOne, startOfMove, toULong_million, subULong,
      ULONG_MOD]

/-- C18, the code at the failing input: cruise speed 1, acceleration 2, a move of the
constructed axis to position 3.  When `setupMoveInSteps` returns, the acceleration
term is positive (not negated) and `ramp_NextStepPeriod_InUS` is 500000, below the
cruise period `desiredStepPeriod_InUS = 1000000`. -/
theorem initial_period_below_cruise :
    (0 : ℚ) < 1 ∧ (0 : ℚ) < 2 ∧
    (setupMoveInSteps sqrtMicro (configure constructed 1 2) 3).ramp_NextStepPeriod_InUS
      = 500000 ∧
    (setupMoveInSteps sqrtMicro (configure constructed 1 2) 3).desiredStepPeriod_InUS
      = 1000000 / 1 ∧
    0 < (setupMoveInSteps sqrtMicro (configure constructed 1 2) 3).acceleration_InStepsPerUSPerUS ∧
    (setupMoveInSteps sqrtMicro (configure constructed 1 2) 3).ramp_NextStepPeriod_InUS
      < (setupMoveInSteps sqrtMicro (configure constructed 1 2) 3).desiredStepPeriod_InUS := by
  rw [plannedSlow_eq]
  simp [plannedSlow, plannedOne]
  norm_num

/-- C14, the code at the failing input: the same move, polled at times 0, 500000 and
1500000.  The two steps are emitted at remaining distances 3 and 2, both above the
deceleration distance 0, and the recorded period rises from 500000 to 1000000. -/
theorem recorded_period_rises_while_accelerating :
    recordedPeriods (pollTrace (setupMoveInSteps sqrtMicro (configure constructed 1 2) 3)
      [(0, 0), (500000, 500000), (1500000, 1500000)]) = [500000, 1000000] ∧
    remainingAtSteps (pollTrace (setupMoveInSteps sqrtMicro (configure constructed 1 2) 3)
      [(0, 0), (500000, 500000), (1500000, 1500000)]) = [3, 2] ∧
    (setupMoveInSteps sqrtMicro (configure constructed 1 2) 3).decelerationDistance_InSteps
      = 0 := by
  rw [plannedSlow_eq]
  simp only [pollTrace, plannedSlow_poll1, plannedSlow_poll2, plannedSlow_poll3]
  refine ⟨?_, ?_, ?_⟩
  · simp [recordedPeriods, recordedPeriod, steppedSlow, plannedSlow, plannedOne]
  · simp [remainingAtSteps, distanceToTarget, steppedSlow, plannedSlow, plannedOne]
  · simp [plannedSlow, plannedOne]

/-- C15 (amended): for a move planned with positive cruise speed `v` and acceleration `a`
whose distance is at most `2 * round(v^2 / (2a))`, every step after the first is
emitted with a recorded period greater than or equal to the cruise period
`1000000 / v`: the speed does not exceed the cruise speed, which can be reached. -/
theorem triangular_period_floor (sqrtf : ℚ → ℚ) (s0 : SpeedyStepper) (v a : ℚ)
    (target : Int) (polls : List (Nat × Nat)) (pre : List PollRecord) (x : PollRecord)
    (post : List PollRecord)
    (_hv : 0 < v) (_ha : 0 < a)
    (_htri : |target - s0.currentPosition_InSteps| ≤ 2 * roundHalfAway (v ^ 2 / (2 * a)))
    (htrace : pollTrace (setupMoveInSteps sqrtf (configure s0 v a) target) polls
      = pre ++ x :: post)
    (hnotfirst : 1 ≤ pulseCount pre)
    (_hstep : x.after.pulse = true) :
    1000000 / v ≤ recordedPeriod x := by
  obtain ⟨c1, -, -⟩ := configure_fields s0 v a
  obtain ⟨-, -, -, -, -, -, f7, -⟩ := setupMoveInSteps_fields sqrtf (configure s0 v a) target
  rw [c1] at f7
  obtain ⟨-, h2⟩ := pollTrace_period_floor polls _ pre x post htrace (Or.inl hnotfirst)
  rw [f7] at h2
  exact h2

/-- Counterexample to C15 as stated: cruise speed 3, acceleration 2 (`round(9/4) = 2`), a
move of 4 steps, polled at times 0, 500000 and 900000.  The second step is recorded
with the cruise period `1000000 / 3` itself: the clip took effect. -/
theorem triangular_period_floor_counterexample :
    (0 : ℚ) < 3 ∧ (0 : ℚ) < 2 ∧
    |(4 : Int) - constructed.currentPosition_InSteps| ≤ 2 * roundHalfAway ((3 : ℚ) ^ 2 / (2 * 2)) ∧
    recordedPeriods (pollTrace (setupMoveInSteps sqrtMicro (configure constructed 3 2) 4)
      [(0, 0), (500000, 500000), (900000, 900000)]) = [500000, 1000000 / 3] ∧
    ¬ ((1000000 : ℚ) / 3 < 1000000 / 3) := by
  have hr : roundHalfAway ((3 : ℚ) ^ 2 / (2 * 2)) = 2 := by
    unfold roundHalfAway
    norm_num
  rw [plannedFour_eq, hr]
  simp only [pollTrace, plannedFour_poll1, plannedFour_poll2, plannedFour_poll3]
  refine ⟨by norm_num, by norm_num, by decide, ?_, lt_irrefl _⟩
  simp [recordedPeriods, recordedPeriod, steppedFour, plannedFour, plannedOne]

/-- Witness for C15 (amended): the second step of the 4-step example move. -/
theorem triangular_period_floor_witness :
    (1000000 : ℚ) / 3 ≤ recordedPeriod
      { before := steppedFour
        after := { stepper := halfwayFour, result := false, pulse := true } } :=
  triangular_period_floor sqrtMicro constructed 3 2 4
    [(0, 0), (500000, 500000), (900000, 900000)]
    [{ before := plannedFour,
       after := { stepper := { plannedFour with startNewMove := false },
                  result := false, pulse := false } },
     { before := { plannedFour with startNewMove := false },
       after := { stepper := steppedFour, result := false, pulse := true } }]
    { before := steppedFour,
      after := { stepper := halfwayFour, result := false, pulse := true } } []
    (by norm_num) (by norm_num)
    (by
      have hr : roundHalfAway ((3 : ℚ) ^ 2 / (2 * 2)) = 2 := by
        unfold roundHalfAway
        norm_num
      rw [hr]
      decide)
    (by
      rw [plannedFour_eq]
      simp only [pollTrace, plannedFour_poll1, plannedFour_poll2, plannedFour_poll3,
        List.cons_append, List.nil_append])
    (by simp [pulseCount])
    rfl

/-! ## Homing -/

theorem processMovement_speed (s : SpeedyStepper) (t0 t1 : Nat) :
    (processMovement s t0 t1).stepper.desiredSpeed_InStepsPerSecond
      = s.desiredSpeed_InStepsPerSecond := by
  rw [processMovement_eq]
  unfold emitStep clipPeriod nextPeriod takeStep beginDeceleration startOfMove
  split_ifs <;> rfl

/-- A call of `pollOnce` is a call of `processMovement` at some clock values, and leaves
the input streams as they are. -/
theorem pollOnce_spec (s : SpeedyStepper) (w : World) :
    (∃ t0 t1 : Nat, (pollOnce s w).1 = processMovement s t0 t1) ∧
    (pollOnce s w).2.switch = w.switch ∧ (pollOnce s w).2.clock = w.clock := by
  unfold pollOnce micros
  split_ifs
  · exact ⟨⟨0, 0, rfl⟩, rfl, rfl⟩
  · exact ⟨⟨_, _, rfl⟩, rfl, rfl⟩
  · exact ⟨⟨_, _, rfl⟩, rfl, rfl⟩

theorem debounce_spec (level : Bool) (w : World) :
    (debounce level w).2.switch = w.switch ∧ (debounce level w).2.clock = w.clock ∧
    ((debounce level w).1 = true → ∃ n : Nat, w.switch n = level) := by
  unfold debounce digitalRead
  split_ifs with h1 h2
  · exact ⟨rfl, rfl, fun _ => ⟨_, h1⟩⟩
  · exact ⟨rfl, rfl, fun h => False.elim h⟩
  · exact ⟨rfl, rfl, fun h => False.elim h⟩

/-- What a homing loop leaves: target and configured speed of the move it ran are kept;
if it ends without the flag, the move was completed (position equals target); if it
ends with the flag, the switch read `level` at some read. -/
theorem homingLoop_spec (level : Bool) :
    ∀ (fuel : Nat) (s : SpeedyStepper) (w : World) (s' : SpeedyStepper) (w' : World)
      (flag : Bool),
      homingLoop level fuel s w = some (s', w', flag) →
      s'.targetPosition_InSteps = s.targetPosition_InSteps ∧
      s'.desiredSpeed_InStepsPerSecond = s.desiredSpeed_InStepsPerSecond ∧
      w'.switch = w.switch ∧ w'.clock = w.clock ∧
      (flag = false → s'.currentPosition_InSteps = s'.targetPosition_InSteps) ∧
      (flag = true → ∃ n : Nat, w.switch n = level) := by
  intro fuel
  induction fuel with
  | zero =>
    intro s w s' w' flag h
    simp [homingLoop] at h
  | succ fuel ih =>
    intro s w s' w' flag h
    obtain ⟨⟨t0, t1, hp⟩, q2, q3⟩ := pollOnce_spec s w
    obtain ⟨m1, -, -, -, m5, -⟩ := processMovement_summary s t0 t1
    have m8 := processMovement_speed s t0 t1
    obtain ⟨d1, d2, d3⟩ := debounce_spec level (pollOnce s w).2
    rw [← hp] at m1 m5 m8
    rw [q2] at d1 d3
    rw [q3] at d2
    unfold homingLoop at h
    split_ifs at h with h1 h2
    · simp only [Option.some.injEq, Prod.mk.injEq] at h
      obtain ⟨e1, e2, e3⟩ := h
      subst e1 e2 e3
      exact ⟨m1, m8, q2, q3, fun _ => m5.mp h1, fun hf => Bool.noConfusion hf⟩
    · simp only [Option.some.injEq, Prod.mk.injEq] at h
      obtain ⟨e1, e2, e3⟩ := h
      subst e1 e2 e3
      exact ⟨m1, m8, d1, d2, fun hf => Bool.noConfusion hf, fun _ => d3 h2⟩
    · obtain ⟨i1, i2, i3, i4, i5, i6⟩ := ih _ _ s' w' flag h
      rw [d1] at i3 i6
      rw [d2] at i4
      exact ⟨i1.trans m1, i2.trans m8, i3, i4, i5, i6⟩

theorem homeApproach_true (sqrtf : ℚ → ℚ) (fuel : Nat) (original : ℚ) (dir : Int) (speed : ℚ)
    (maxDist : Int) (s : SpeedyStepper) (w : World) (s' : SpeedyStepper) (w' : World)
    (h : homeApproach sqrtf fuel original dir speed maxDist s w = some (s', w', true)) :
    s'.currentPosition_InSteps = 0 ∧ s'.desiredSpeed_InStepsPerSecond = original := by
  unfold homeApproach at h
  cases hl : homingLoop false fuel (approachPlan sqrtf s dir speed maxDist) w with
  | none => rw [hl] at h; simp at h
  | some res =>
    obtain ⟨s1, w1, flag⟩ := res
    rw [hl] at h
    simp only at h
    split_ifs at h with hf
    · simp at h
    · simp only [Option.some.injEq, Prod.mk.injEq, and_true] at h
      obtain ⟨e1, -⟩ := h
      subst e1
      exact ⟨rfl, rfl⟩

theorem homeBackOff_true (sqrtf : ℚ → ℚ) (fuel : Nat) (original : ℚ) (dir : Int) (speed : ℚ)
    (maxDist : Int) (s : SpeedyStepper) (w : World) (s' : SpeedyStepper) (w' : World)
    (h : homeBackOff sqrtf fuel original dir speed maxDist s w = some (s', w', true)) :
    s'.currentPosition_InSteps = 0 ∧ s'.desiredSpeed_InStepsPerSecond = original := by
  unfold homeBackOff at h
  cases hl : homingLoop true fuel (backOffPlan sqrtf s dir maxDist) w with
  | none => rw [hl] at h; simp at h
  | some res =>
    obtain ⟨s1, w1, flag⟩ := res
    rw [hl] at h
    simp only at h
    split_ifs at h with hf
    · simp at h
    · exact homeApproach_true sqrtf fuel original dir speed maxDist s1 w1 s' w' h

/-- C12: whenever `moveToHomeInSteps` returns `true`, the current position is 0 and the
configured cruise speed is the one from before the call. -/
theorem homing_success_zeroes_position (sqrtf : ℚ → ℚ) (fuel : Nat) (s : SpeedyStepper)
    (w : World) (dir : Int) (speed : ℚ) (maxDist : Int) (s' : SpeedyStepper) (w' : World)
    (h : moveToHomeInSteps sqrtf fuel s w dir speed maxDist = some (s', w', true)) :
    s'.currentPosition_InSteps = 0 ∧
    s'.desiredSpeed_InStepsPerSecond = s.desiredSpeed_InStepsPerSecond := by
  unfold moveToHomeInSteps at h
  split_ifs at h with h0
  · cases hl : homingLoop false fuel (seekPlan sqrtf s dir speed maxDist)
        (digitalRead (digitalRead w).2).2 with
    | none => rw [hl] at h; simp at h
    | some res =>
      obtain ⟨s1, w1, flag⟩ := res
      rw [hl] at h
      simp only at h
      split_ifs at h with hf
      · simp at h
      · exact homeBackOff_true sqrtf fuel _ dir speed maxDist s1 w1 s' w' h
  · exact homeBackOff_true sqrtf fuel _ dir speed maxDist s _ s' w' h

theorem setupRelativeMoveInSteps_fields (sqrtf : ℚ → ℚ) (s : SpeedyStepper) (d : Int) :
    (setupRelativeMoveInSteps sqrtf s d).targetPosition_InSteps
      = s.currentPosition_InSteps + d ∧
    (setupRelativeMoveInSteps sqrtf s d).currentPosition_InSteps = s.currentPosition_InSteps ∧
    (setupRelativeMoveInSteps sqrtf s d).direction_Scaler = (if d < 0 then -1 else 1) ∧
    (setupRelativeMoveInSteps sqrtf s d).ramp_NextStepPeriod_InUS
      = 1000000 / sqrtf (2 * s.acceleration_InStepsPerSecondPerSecond) ∧
    (setupRelativeMoveInSteps sqrtf s d).desiredStepPeriod_InUS
      = 1000000 / s.desiredSpeed_InStepsPerSecond ∧
    (setupRelativeMoveInSteps sqrtf s d).startNewMove = true ∧
    (setupRelativeMoveInSteps sqrtf s d).desiredSpeed_InStepsPerSecond
      = s.desiredSpeed_InStepsPerSecond := by
  obtain ⟨f1, f2, f3, -, -, f6, f7, f8, -, f10, -⟩ :=
    setupMoveInSteps_fields sqrtf s (s.currentPosition_InSteps + d)
  have hsub : s.currentPosition_InSteps + d - s.currentPosition_InSteps = d := by omega
  rw [hsub] at f3
  exact ⟨f1, f2, f3, f6, f7, f8, f10⟩

/-- The helper behind C13: when the switch reads `HIGH` at every read, a call of
`moveToHomeInSteps` that returns has run the seek move to its end: it returns
`false` with the position at the seek target. -/
theorem homing_switch_never_active (sqrtf : ℚ → ℚ) (fuel : Nat) (s : SpeedyStepper)
    (w : World) (dir : Int) (speed : ℚ) (maxDist : Int) (s' : SpeedyStepper) (w' : World)
    (b : Bool)
    (hsw : ∀ n : Nat, w.switch n = true)
    (h : moveToHomeInSteps sqrtf fuel s w dir speed maxDist = some (s', w', b)) :
    b = false ∧ s'.currentPosition_InSteps = s.currentPosition_InSteps + maxDist * dir := by
  unfold moveToHomeInSteps at h
  have h0 : (digitalRead (digitalRead w).2).1 = true := hsw _
  rw [if_pos h0] at h
  cases hl : homingLoop false fuel (seekPlan sqrtf s dir speed maxDist)
      (digitalRead (digitalRead w).2).2 with
  | none => rw [hl] at h; simp at h
  | some res =>
    obtain ⟨s1, w1, flag⟩ := res
    rw [hl] at h
    simp only at h
    obtain ⟨l1, -, -, -, l5, l6⟩ := homingLoop_spec false fuel _ _ s1 w1 flag hl
    have hflag : flag = false := by
      cases hf : flag
      · rfl
      · obtain ⟨n, hn⟩ := l6 hf
        have := hsw n
        have hn' : w.switch n = false := hn
        rw [this] at hn'
        exact Bool.noConfusion hn'
    rw [if_pos hflag] at h
    simp only [Option.some.injEq, Prod.mk.injEq] at h
    obtain ⟨e1, -, e3⟩ := h
    subst e1
    refine ⟨e3.symm, ?_⟩
    rw [l5 hflag, l1]
    unfold seekPlan
    rw [(setupRelativeMoveInSteps_fields sqrtf _ _).1]
    rfl

/-- C19, the general fact: when the switch reads `LOW` at the test on entry, the first
phase is skipped with its `setSpeedInStepsPerSecond(speedInStepsPerSecond)`, and the
back-off move is planned on the axis as it was at the call: for
`maxDistance * direction * -1` steps, with the cruise speed configured before the
call. -/
theorem backOff_when_active_at_entry (sqrtf : ℚ → ℚ) (fuel : Nat) (s : SpeedyStepper)
    (w : World) (dir : Int) (speed : ℚ) (maxDist : Int)
    (hlow : w.switch (w.reads + 1) = false) :
    moveToHomeInSteps sqrtf fuel s w dir speed maxDist
      = homeBackOff sqrtf fuel s.desiredSpeed_InStepsPerSecond dir speed maxDist s
          (digitalRead (digitalRead w).2).2 ∧
    (backOffPlan sqrtf s dir maxDist).targetPosition_InSteps
      = s.currentPosition_InSteps + maxDist * dir * -1 ∧
    (backOffPlan sqrtf s dir maxDist).desiredSpeed_InStepsPerSecond
      = s.desiredSpeed_InStepsPerSecond ∧
    (backOffPlan sqrtf s dir maxDist).desiredStepPeriod_InUS
      = 1000000 / s.desiredSpeed_InStepsPerSecond := by
  obtain ⟨f1, -, -, -, f5, -, f7⟩ := setupRelativeMoveInSteps_fields sqrtf s (maxDist * dir * -1)
  refine ⟨?_, f1, f7, f5⟩
  unfold moveToHomeInSteps
  have h0 : ¬ (digitalRead (digitalRead w).2).1 = true := by
    have : (digitalRead (digitalRead w).2).1 = w.switch (w.reads + 1) := rfl
    rw [this, hlow]
    exact Bool.noConfusion
  rw [if_neg h0]

/-- C19, the code at the failing input: the constructed axis (cruise speed 200), homing
requested at speed 50 over at most 100 steps in direction 1, the switch already
`LOW` at entry.  The back-off move is planned for -100 steps with cruise speed 200
and cruise period `1000000 / 200`, not with the requested speed 50. -/
theorem backOff_speed_at_failing_input (fuel : Nat) :
    moveToHomeInSteps sqrtMicro fuel constructed switchActiveAtEntry 1 50 100
      = homeBackOff sqrtMicro fuel 200 1 50 100 constructed
          (digitalRead (digitalRead switchActiveAtEntry).2).2 ∧
    (backOffPlan sqrtMicro constructed 1 100).targetPosition_InSteps = -100 ∧
    (backOffPlan sqrtMicro constructed 1 100).desiredSpeed_InStepsPerSecond = 200 ∧
    (backOffPlan sqrtMicro constructed 1 100).desiredStepPeriod_InUS = 1000000 / 200 ∧
    (200 : ℚ) ≠ 50 := by
  obtain ⟨h1, h2, h3, h4⟩ := backOff_when_active_at_entry sqrtMicro fuel constructed
    switchActiveAtEntry 1 50 100 rfl
  refine ⟨h1, ?_, h3, h4, by norm_num⟩
  rw [h2]
  decide

theorem pollOnce_first (s : SpeedyStepper) (w : World)
    (hne : s.currentPosition_InSteps ≠ s.targetPosition_InSteps)
    (hstart : s.startNewMove = true) :
    pollOnce s w = (processMovement s (w.clock w.ticks) (w.clock (w.ticks + 1)),
      { w with ticks := w.ticks + 1 + 1 }) := by
  unfold pollOnce
  rw [if_neg hne, if_pos hstart]
  rfl

theorem pollOnce_later (s : SpeedyStepper) (w : World)
    (hne : s.currentPosition_InSteps ≠ s.targetPosition_InSteps)
    (hstart : s.startNewMove = false) :
    pollOnce s w = (processMovement s 0 (w.clock w.ticks), { w with ticks := w.ticks + 1 }) := by
  unfold pollOnce
  rw [if_neg hne, if_neg (by rw [hstart]; exact Bool.noConfusion)]
  rfl

theorem debounce_other (level : Bool) (w : World) (h : w.switch w.reads ≠ level) :
    debounce level w = (false, { w with reads := w.reads + 1 }) := by
  unfold debounce
  have h' : ¬ (digitalRead w).1 = level := h
  rw [if_neg h']
  rfl

theorem debounce_confirm (level : Bool) (w : World) (h1 : w.switch w.reads = level)
    (h2 : w.switch (w.reads + 1 + 1) = level) :
    debounce level w = (true, { w with reads := w.reads + 1 + 1 + 1 + 1 }) := by
  unfold debounce
  have h1' : (digitalRead w).1 = level := h1
  have h2' : (digitalRead (digitalRead (digitalRead w).2).2).1 = level := h2
  rw [if_pos h1', if_pos h2']
  rfl

/-- The first poll of a freshly planned move whose step period is not yet due: no step,
the clock value is recorded. -/
theorem processMovement_first_wait (s : SpeedyStepper) (t0 t1 : Nat)
    (hne : s.currentPosition_InSteps ≠ s.targetPosition_InSteps)
    (hstart : s.startNewMove = true)
    (hearly : subULong t1 t0 < toULong s.ramp_NextStepPeriod_InUS) :
    processMovement s t0 t1
      = { stepper := startOfMove s t0, result := false, pulse := false } := by
  obtain ⟨-, -, -, -, -, a6, -, -, -, a10⟩ := startOfMove_fields s t0
  rw [hstart] at a10
  simp only [if_true] at a10
  exact processMovement_of_wait s t0 t1 hne (by rw [a10, a6]; exact hearly)

/-- A poll that is due, one step before the target: the step is emitted and the poll
returns `true`. -/
theorem processMovement_last_step (s : SpeedyStepper) (t0 t1 : Nat)
    (hne : s.currentPosition_InSteps ≠ s.targetPosition_InSteps)
    (hstart : s.startNewMove = false)
    (hlast : s.currentPosition_InSteps + s.direction_Scaler = s.targetPosition_InSteps)
    (hdue : toULong s.ramp_NextStepPeriod_InUS ≤ subULong t1 s.ramp_LastStepTime_InUS) :
    (processMovement s t0 t1).result = true := by
  obtain ⟨a1, a2, a3, -, -, a6, -, -, -, a10⟩ := startOfMove_fields s t0
  obtain ⟨b1, b2, -⟩ := emitStep_fields (startOfMove s t0) t1
  rw [hstart] at a10
  simp only [Bool.false_eq_true, if_false] at a10
  rw [processMovement_of_step s t0 t1 hne (by rw [a10, a6]; exact not_lt.mpr hdue)]
  rw [if_pos (by rw [b1, b2, a1, a2, a3]; exact hlast)]

theorem sqrtMicro_four_hundred : sqrtMicro (2 * 200) = 20 := by
  unfold sqrtMicro
  have h : Int.toNat (Int.floor ((2 : ℚ) * 200 * 1000000000000)) = 20000000 * 20000000 := by
    norm_num
    rfl
  rw [h, Nat.sqrt_eq]
  norm_num

theorem toULong_fifty_thousand : toULong (1000000 / 20) = 50000 := by
  have h : (1000000 : ℚ) / 20 = ((50000 : Nat) : ℚ) := by norm_num
  rw [h]
  exact toULong_natCast 50000 (by norm_num)

theorem homingLoop_continue (level : Bool) (fuel : Nat) (s : SpeedyStepper) (w : World)
    (h1 : (pollOnce s w).1.result = false)
    (h2 : (debounce level (pollOnce s w).2).1 = false) :
    homingLoop level (fuel + 1) s w
      = homingLoop level fuel (pollOnce s w).1.stepper (debounce level (pollOnce s w).2).2 := by
  rw [homingLoop, if_neg (by rw [h1]; exact Bool.noConfusion),
    if_neg (by rw [h2]; exact Bool.noConfusion)]

theorem homingLoop_done (level : Bool) (fuel : Nat) (s : SpeedyStepper) (w : World)
    (h1 : (pollOnce s w).1.result = true) :
    homingLoop level (fuel + 1) s w
      = some ((pollOnce s w).1.stepper, (pollOnce s w).2, false) := by
  rw [homingLoop, if_pos h1]

theorem homingLoop_flag (level : Bool) (fuel : Nat) (s : SpeedyStepper) (w : World)
    (h1 : (pollOnce s w).1.result = false)
    (h2 : (debounce level (pollOnce s w).2).1 = true) :
    homingLoop level (fuel + 1) s w
      = some ((pollOnce s w).1.stepper, (debounce level (pollOnce s w).2).2, true) := by
  rw [homingLoop, if_neg (by rw [h1]; exact Bool.noConfusion), if_pos h2]

/-- The run behind the counterexample to C13: on the constructed axis, with the switch
never active, the clock at 0 for the first poll and at 50000 afterwards, homing in
direction 1 over at most 1 step returns after the second poll. -/
theorem homing_one_step_returns :
    ∃ r : SpeedyStepper × World × Bool,
      moveToHomeInSteps sqrtMicro 2 constructed switchNeverActive 1 80 1 = some r := by
  obtain ⟨f1, f2, f3, f4, -, f6, -⟩ := setupRelativeMoveInSteps_fields sqrtMicro
    (setSpeedInStepsPerSecond constructed 80) (1 * 1)
  have hacc : (setSpeedInStepsPerSecond constructed 80).acceleration_InStepsPerSecondPerSecond
      = 200 := rfl
  have hpos : (setSpeedInStepsPerSecond constructed 80).currentPosition_InSteps = 0 := rfl
  rw [hacc, sqrtMicro_four_hundred] at f4
  rw [hpos] at f1 f2
  have hdir : (if (1 : Int) * 1 < 0 then (-1 : Int) else 1) = 1 := by decide
  rw [hdir] at f3
  have hplan : seekPlan sqrtMicro constructed 1 80 1
      = setupRelativeMoveInSteps sqrtMicro (setSpeedInStepsPerSecond constructed 80) (1 * 1) :=
    rfl
  rw [← hplan] at f1 f2 f3 f4 f6
  generalize hgen : seekPlan sqrtMicro constructed 1 80 1 = plan at f1 f2 f3 f4 f6
  have hne : plan.currentPosition_InSteps ≠ plan.targetPosition_InSteps := by
    rw [f1, f2]
    decide
  obtain ⟨a1, a2, a3, -, -, a6, -, -, a9, a10⟩ := startOfMove_fields plan 0
  rw [f6] at a10
  simp only [if_true] at a10
  have hne' : (startOfMove plan 0).currentPosition_InSteps
      ≠ (startOfMove plan 0).targetPosition_InSteps := by
    rw [a1, a2]
    exact hne
  -- first iteration: the first poll records the clock, the switch reads HIGH
  have e1 : ∀ w : World, w.clock w.ticks = 0 → w.clock (w.ticks + 1) = 0 →
      pollOnce plan w = ({ stepper := startOfMove plan 0, result := false, pulse := false },
        { w with ticks := w.ticks + 1 + 1 }) := by
    intro w h0 h1
    rw [pollOnce_first plan w hne f6, h0, h1, processMovement_first_wait plan 0 0 hne f6
      (by rw [f4, toULong_fifty_thousand]; simp [subULong, ULONG_MOD])]
  -- second iteration: the step is due and reaches the target
  have e3 : ∀ w : World, w.clock w.ticks = 50000 →
      (pollOnce (startOfMove plan 0) w).1.result = true := by
    intro w h0
    rw [pollOnce_later _ w hne' a9]
    refine processMovement_last_step _ _ _ hne' a9 ?_ ?_
    · rw [a1, a2, a3, f1, f2, f3]
      decide
    · rw [a6, a10, f4, toULong_fifty_thousand, h0]
      simp [subULong, ULONG_MOD]
  unfold moveToHomeInSteps
  rw [if_pos (by rfl), hgen]
  have p1 := e1 (digitalRead (digitalRead switchNeverActive).2).2 rfl rfl
  have d1 : debounce false (pollOnce plan (digitalRead (digitalRead switchNeverActive).2).2).2
      = (false, _) := debounce_other false _ (by rw [p1]; exact Bool.noConfusion)
  have s1 : (pollOnce plan (digitalRead (digitalRead switchNeverActive).2).2).1.stepper
      = startOfMove plan 0 := by rw [p1]
  have p2 : (pollOnce (pollOnce plan (digitalRead (digitalRead switchNeverActive).2).2).1.stepper
      (debounce false (pollOnce plan (digitalRead (digitalRead switchNeverActive).2).2).2).2).1.result
      = true := by
    rw [s1]
    refine e3 _ ?_
    rw [d1, p1]
    rfl
  have hc : homingLoop false 2 plan (digitalRead (digitalRead switchNeverActive).2).2 = _ :=
    homingLoop_continue false 1 plan _ (by rw [p1]) (by rw [d1])
  have hd : homingLoop false 1 _ _ = _ := homingLoop_done false 0 _ _ p2
  rw [hc, hd]
  exact ⟨_, rfl⟩

theorem subULong_self (t : Nat) : subULong t t = 0 := by
  unfold subULong ULONG_MOD
  omega

/-- A planned relative move of non-zero distance is off its target, has the
start-of-move flag set, starts at the initial period, and keeps position and
configured acceleration. -/
theorem planned_ready (sqrtf : ℚ → ℚ) (s : SpeedyStepper) (d : Int) (hd : d ≠ 0) :
    (setupRelativeMoveInSteps sqrtf s d).currentPosition_InSteps
      ≠ (setupRelativeMoveInSteps sqrtf s d).targetPosition_InSteps ∧
    (setupRelativeMoveInSteps sqrtf s d).startNewMove = true ∧
    (setupRelativeMoveInSteps sqrtf s d).ramp_NextStepPeriod_InUS
      = 1000000 / sqrtf (2 * s.acceleration_InStepsPerSecondPerSecond) ∧
    (setupRelativeMoveInSteps sqrtf s d).acceleration_InStepsPerSecondPerSecond
      = s.acceleration_InStepsPerSecondPerSecond := by
  obtain ⟨f1, f2, -, f4, -, f6, -⟩ := setupRelativeMoveInSteps_fields sqrtf s d
  refine ⟨?_, f6, f4, ?_⟩
  · rw [f1, f2]
    omega
  · exact (setupMoveInSteps_fields sqrtf s _).2.2.2.2.2.2.2.2.2.2

theorem startOfMove_acceleration (s : SpeedyStepper) (t : Nat) :
    (startOfMove s t).acceleration_InStepsPerSecondPerSecond
      = s.acceleration_InStepsPerSecondPerSecond := by
  unfold startOfMove
  split_ifs <;> rfl

/-- A homing loop whose first poll finds the step not yet due and whose first debounce
finds the switch at `level` twice ends at once with the flag set. -/
theorem homingLoop_confirms_at_once (level : Bool) (fuel : Nat) (s : SpeedyStepper) (w : World)
    (hne : s.currentPosition_InSteps ≠ s.targetPosition_InSteps)
    (hstart : s.startNewMove = true)
    (hper : 0 < toULong s.ramp_NextStepPeriod_InUS)
    (hclock : w.clock (w.ticks + 1) = w.clock w.ticks)
    (h1 : w.switch w.reads = level) (h2 : w.switch (w.reads + 1 + 1) = level) :
    homingLoop level (fuel + 1) s w
      = some (startOfMove s (w.clock w.ticks),
          { w with reads := w.reads + 1 + 1 + 1 + 1, ticks := w.ticks + 1 + 1 }, true) := by
  have p1 : pollOnce s w
      = ({ stepper := startOfMove s (w.clock w.ticks), result := false, pulse := false },
         { w with ticks := w.ticks + 1 + 1 }) := by
    rw [pollOnce_first s w hne hstart, hclock, processMovement_first_wait s _ _ hne hstart
      (by rw [subULong_self]; exact hper)]
  have d1 : debounce level (pollOnce s w).2
      = (true, { (pollOnce s w).2 with reads := (pollOnce s w).2.reads + 1 + 1 + 1 + 1 }) :=
    debounce_confirm level _ (by rw [p1]; exact h1) (by rw [p1]; exact h2)
  rw [homingLoop_flag level fuel s w (by rw [p1]) (by rw [d1]), d1, p1]

/-- Homing can succeed: if no step of the three moves is due at their first poll (the
clock stands still and the initial step period is at least a microsecond) and the
switch reads `HIGH` on entry, `LOW` twice, `HIGH` twice and `LOW` twice at the reads
the debounce tests use, `moveToHomeInSteps` returns `true`. -/
theorem homing_returns_true (sqrtf : ℚ → ℚ) (fuel : Nat) (s : SpeedyStepper) (w : World)
    (dir : Int) (speed : ℚ) (maxDist : Int)
    (hd : maxDist * dir ≠ 0)
    (hper : 0 < toULong (1000000 / sqrtf (2 * s.acceleration_InStepsPerSecondPerSecond)))
    (hclock : ∀ n : Nat, w.clock n = 0)
    (h1 : w.switch (w.reads + 1) = true)
    (h2 : w.switch (w.reads + 2) = false) (h4 : w.switch (w.reads + 4) = false)
    (h6 : w.switch (w.reads + 6) = true) (h8 : w.switch (w.reads + 8) = true)
    (h10 : w.switch (w.reads + 10) = false) (h12 : w.switch (w.reads + 12) = false) :
    ∃ (s' : SpeedyStepper) (w' : World),
      moveToHomeInSteps sqrtf (fuel + 1) s w dir speed maxDist = some (s', w', true) := by
  -- first phase
  obtain ⟨a1, a2, a3, a4⟩ := planned_ready sqrtf (setSpeedInStepsPerSecond s speed)
    (maxDist * dir) hd
  have acc0 : (setSpeedInStepsPerSecond s speed).acceleration_InStepsPerSecondPerSecond
      = s.acceleration_InStepsPerSecondPerSecond := rfl
  rw [acc0] at a3 a4
  have l1 := homingLoop_confirms_at_once false fuel
    (seekPlan sqrtf s dir speed maxDist) (digitalRead (digitalRead w).2).2
    a1 a2 (by rw [show (seekPlan sqrtf s dir speed maxDist).ramp_NextStepPeriod_InUS = _ from a3]
              exact hper)
    (by show w.clock _ = w.clock _
        rw [hclock, hclock]) h2 h4
  -- second phase
  have accS : (startOfMove (seekPlan sqrtf s dir speed maxDist)
      ((digitalRead (digitalRead w).2).2.clock (digitalRead (digitalRead w).2).2.ticks)
      ).acceleration_InStepsPerSecondPerSecond = s.acceleration_InStepsPerSecondPerSecond := by
    rw [startOfMove_acceleration]
    exact a4
  have hd2 : maxDist * dir * -1 ≠ 0 := by
    intro h
    apply hd
    linarith
  obtain ⟨b1, b2, b3, b4⟩ := planned_ready sqrtf
    (startOfMove (seekPlan sqrtf s dir speed maxDist)
      ((digitalRead (digitalRead w).2).2.clock (digitalRead (digitalRead w).2).2.ticks))
    (maxDist * dir * -1) hd2
  rw [accS] at b3 b4
  have l2 := homingLoop_confirms_at_once true fuel
    (backOffPlan sqrtf (startOfMove (seekPlan sqrtf s dir speed maxDist)
      ((digitalRead (digitalRead w).2).2.clock (digitalRead (digitalRead w).2).2.ticks))
      dir maxDist)
    { (digitalRead (digitalRead w).2).2 with
      reads := (digitalRead (digitalRead w).2).2.reads + 1 + 1 + 1 + 1
      ticks := (digitalRead (digitalRead w).2).2.ticks + 1 + 1 }
    b1 b2 (by rw [show (backOffPlan sqrtf _ dir maxDist).ramp_NextStepPeriod_InUS = _ from b3]
              exact hper)
    (by show w.clock _ = w.clock _
        rw [hclock, hclock]) h6 h8
  -- third phase
  generalize hs2 : startOfMove
    (backOffPlan sqrtf (startOfMove (seekPlan sqrtf s dir speed maxDist)
      ((digitalRead (digitalRead w).2).2.clock (digitalRead (digitalRead w).2).2.ticks))
      dir maxDist) _ = s2 at l2
  have accB : s2.acceleration_InStepsPerSecondPerSecond
      = s.acceleration_InStepsPerSecondPerSecond := by
    rw [← hs2, startOfMove_acceleration]
    exact b4
  obtain ⟨c1, c2, c3, -⟩ := planned_ready sqrtf (setSpeedInStepsPerSecond s2 (speed / 8))
    (maxDist * dir) hd
  have acc3 : (setSpeedInStepsPerSecond s2 (speed / 8)).acceleration_InStepsPerSecondPerSecond
      = s2.acceleration_InStepsPerSecondPerSecond := rfl
  rw [acc3, accB] at c3
  have l3 := homingLoop_confirms_at_once false fuel
    (approachPlan sqrtf s2 dir speed maxDist)
    { (digitalRead (digitalRead w).2).2 with
      reads := (digitalRead (digitalRead w).2).2.reads + 1 + 1 + 1 + 1 + 1 + 1 + 1 + 1
      ticks := (digitalRead (digitalRead w).2).2.ticks + 1 + 1 + 1 + 1 }
    c1 c2 (by rw [show (approachPlan sqrtf s2 dir speed maxDist).ramp_NextStepPeriod_InUS = _
                from c3]
              exact hper)
    (by show w.clock _ = w.clock _
        rw [hclock, hclock]) h10 h12
  unfold moveToHomeInSteps
  rw [if_pos (show (digitalRead (digitalRead w).2).1 = true from h1), l1]
  simp only [Bool.true_eq_false, if_false]
  unfold homeBackOff
  rw [l2]
  simp only [Bool.true_eq_false, if_false]
  unfold homeApproach
  rw [l3]
  simp only [Bool.true_eq_false, if_false]
  exact ⟨_, _, rfl⟩

/-- The run behind the witnesses for C12 and C21: on the constructed axis with the inputs
`switchFoundAtOnce`, homing in direction 1 at speed 80 over at most 100 steps
returns `true`. -/
theorem homing_found_at_once_returns :
    ∃ (s' : SpeedyStepper) (w' : World),
      moveToHomeInSteps sqrtMicro 1 constructed switchFoundAtOnce 1 80 100
        = some (s', w', true) :=
  homing_returns_true sqrtMicro 0 constructed switchFoundAtOnce 1 80 100 (by decide)
    (by
      have h : constructed.acceleration_InStepsPerSecondPerSecond = 200 := rfl
      rw [h, sqrtMicro_four_hundred, toULong_fifty_thousand]
      decide)
    (fun _ => rfl) (by decide) (by decide) (by decide) (by decide) (by decide) (by decide)
    (by decide)

/-- Witness for C12: the run `homing_found_at_once_returns`. -/
theorem homing_success_zeroes_position_witness :
    ∃ (s' : SpeedyStepper) (w' : World),
      moveToHomeInSteps sqrtMicro 1 constructed switchFoundAtOnce 1 80 100
        = some (s', w', true) ∧
      s'.currentPosition_InSteps = 0 ∧
      s'.desiredSpeed_InStepsPerSecond = constructed.desiredSpeed_InStepsPerSecond := by
  obtain ⟨s', w', h⟩ := homing_found_at_once_returns
  exact ⟨s', w', h, homing_success_zeroes_position sqrtMicro 1 constructed switchFoundAtOnce
    1 80 100 s' w' h⟩

/-- Counterexample to C13 as stated: the constructed axis at position 0, homing in
direction 1 over at most 1 step, the switch inactive at every read, the clock at 0
for the first poll and at 50000 afterwards.  The call returns `false` with the axis
at position 1, not at its position from before the call. -/
theorem homing_fails_at_seek_target_counterexample :
    (∀ n : Nat, switchNeverActive.switch n = true) ∧
    ∃ (s' : SpeedyStepper) (w' : World),
      moveToHomeInSteps sqrtMicro 2 constructed switchNeverActive 1 80 1
        = some (s', w', false) ∧
      s'.currentPosition_InSteps = 1 ∧
      s'.currentPosition_InSteps ≠ constructed.currentPosition_InSteps := by
  refine ⟨fun _ => rfl, ?_⟩
  obtain ⟨⟨s', w', b⟩, h⟩ := homing_one_step_returns
  obtain ⟨hb, hp⟩ := homing_switch_never_active sqrtMicro 2 constructed switchNeverActive
    1 80 1 s' w' b (fun _ => rfl) h
  subst hb
  have hp' : s'.currentPosition_InSteps = 1 := by
    rw [hp]
    decide
  refine ⟨s', w', h, hp', ?_⟩
  rw [hp']
  decide

/-! ## The recorded periods of a move as a recurrence -/

/-- What a stepping poll leaves in `ramp_NextStepPeriod_InUS`. -/
theorem processMovement_next_period (s : SpeedyStepper) (t0 t1 : Nat)
    (hp : (processMovement s t0 t1).pulse = true) :
    (processMovement s t0 t1).stepper.ramp_NextStepPeriod_InUS
      = rampStep (if distanceToTarget s = s.decelerationDistance_InSteps then
            -s.acceleration_InStepsPerUSPerUS else s.acceleration_InStepsPerUSPerUS)
          s.desiredStepPeriod_InUS s.ramp_NextStepPeriod_InUS := by
  obtain ⟨a1, a2, -, a4, a5, a6, -, a8, -⟩ := startOfMove_fields s t0
  have h3 := distanceToTarget_startOfMove s t0
  have key : ∀ u : SpeedyStepper, ∀ now : Nat,
      (emitStep u now).ramp_NextStepPeriod_InUS
        = rampStep (if distanceToTarget u = u.decelerationDistance_InSteps then
              -u.acceleration_InStepsPerUSPerUS else u.acceleration_InStepsPerUSPerUS)
            u.desiredStepPeriod_InUS u.ramp_NextStepPeriod_InUS := by
    intro u now
    unfold emitStep clipPeriod nextPeriod takeStep beginDeceleration rampStep
    split_ifs <;> simp_all
  by_cases ha : s.currentPosition_InSteps = s.targetPosition_InSteps
  · rw [processMovement_of_done s t0 t1 ha] at hp
    exact Bool.noConfusion hp
  · by_cases hb : subULong t1 (startOfMove s t0).ramp_LastStepTime_InUS
          < toULong (startOfMove s t0).ramp_NextStepPeriod_InUS
    · rw [processMovement_of_wait s t0 t1 ha hb] at hp
      exact Bool.noConfusion hp
    · rw [processMovement_of_step s t0 t1 ha hb]
      have hk := key (startOfMove s t0) t1
      rw [h3, a4, a5, a6, a8] at hk
      by_cases hfin : (emitStep (startOfMove s t0) t1).currentPosition_InSteps
          = (emitStep (startOfMove s t0) t1).targetPosition_InSteps
      · rw [if_pos hfin]
        exact hk
      · rw [if_neg hfin]
        exact hk

/-- A poll without a step keeps the acceleration term and the next period. -/
theorem processMovement_idle_ramp (s : SpeedyStepper) (t0 t1 : Nat)
    (hp : (processMovement s t0 t1).pulse = false) :
    (processMovement s t0 t1).stepper.acceleration_InStepsPerUSPerUS
      = s.acceleration_InStepsPerUSPerUS ∧
    (processMovement s t0 t1).stepper.ramp_NextStepPeriod_InUS = s.ramp_NextStepPeriod_InUS := by
  obtain ⟨-, -, -, -, -, -, m7⟩ := processMovement_summary s t0 t1
  obtain ⟨-, r2, -⟩ := processMovement_ramp s t0 t1
  rw [hp] at m7
  simp only [Bool.false_eq_true, false_and, if_false] at m7
  exact ⟨m7, r2 hp⟩

theorem recordedPeriods_cons (x : PollRecord) (xs : List PollRecord) :
    recordedPeriods (x :: xs)
      = if x.after.pulse = true then recordedPeriod x :: recordedPeriods xs
        else recordedPeriods xs := by
  unfold recordedPeriods
  by_cases h : x.after.pulse = true
  · simp [List.filter_cons, h]
  · simp [List.filter_cons, h]

/-- The recorded periods of a run towards `T` in direction `δ`, up to the first poll that
returns `true`, are those of the recurrence over the distance that was left. -/
theorem recordedPeriods_eq_rampList (T δ D : Int) (desired : ℚ) (hδ : δ = 1 ∨ δ = -1) :
    ∀ (polls : List (Nat × Nat)) (s : SpeedyStepper) (pre : List PollRecord)
      (r : PollRecord) (post : List PollRecord),
      s.targetPosition_InSteps = T → s.direction_Scaler = δ →
      s.decelerationDistance_InSteps = D → s.desiredStepPeriod_InUS = desired →
      0 ≤ δ * (T - s.currentPosition_InSteps) →
      pollTrace s polls = pre ++ r :: post →
      (∀ x ∈ pre, x.after.result = false) → r.after.result = true →
      recordedPeriods (pre ++ [r])
        = rampList D desired (Int.toNat (δ * (T - s.currentPosition_InSteps)))
            s.acceleration_InStepsPerUSPerUS s.ramp_NextStepPeriod_InUS := by
  intro polls
  induction polls with
  | nil =>
    intro s pre r post _ _ _ _ _ htr
    simp [pollTrace] at htr
  | cons t ts ih =>
    intro s pre r post hT hdir hD hdes hrem htr hpre hr
    obtain ⟨m1, m2, m3, m4, m5, m6, m7⟩ := processMovement_summary s t.1 t.2
    obtain ⟨r1, -, -⟩ := processMovement_ramp s t.1 t.2
    have hdist := distanceToTarget_eq s δ hδ (by rw [hT]; exact hrem)
    simp only [pollTrace] at htr
    rw [hT] at m1 hdist m6
    rw [hdir] at m2 m4
    rw [m1] at m5
    rw [hD] at m3 m7
    rw [hdes] at r1
    -- the step of this poll, if it has one
    have hstep : (processMovement s t.1 t.2).pulse = true →
        ∃ n : Nat, Int.toNat (δ * (T - s.currentPosition_InSteps)) = n + 1 ∧
          Int.toNat (δ * (T - (processMovement s t.1 t.2).stepper.currentPosition_InSteps)) = n ∧
          (processMovement s t.1 t.2).stepper.acceleration_InStepsPerUSPerUS
            = (if ((n + 1 : Nat) : Int) = D then -s.acceleration_InStepsPerUSPerUS
                else s.acceleration_InStepsPerUSPerUS) ∧
          (processMovement s t.1 t.2).stepper.ramp_NextStepPeriod_InUS
            = rampStep (if ((n + 1 : Nat) : Int) = D then -s.acceleration_InStepsPerUSPerUS
                else s.acceleration_InStepsPerUSPerUS) desired s.ramp_NextStepPeriod_InUS := by
      intro hp
      have hn := m6 hp
      rw [if_pos hp] at m4
      have hnp := processMovement_next_period s t.1 t.2 hp
      rw [hdist, hD, hdes] at hnp
      rw [hdist] at m7
      refine ⟨Int.toNat (δ * (T - s.currentPosition_InSteps)) - 1, ?_, ?_, ?_, ?_⟩
      · rcases hδ with h | h <;> subst h <;> omega
      · rw [m4]
        rcases hδ with h | h <;> subst h <;> omega
      · have hc : ((Int.toNat (δ * (T - s.currentPosition_InSteps)) - 1 + 1 : Nat) : Int)
            = δ * (T - s.currentPosition_InSteps) := by
          rcases hδ with h | h <;> subst h <;> omega
        rw [hc, m7]
        by_cases hDe : δ * (T - s.currentPosition_InSteps) = D
        · rw [if_pos ⟨hp, hDe⟩, if_pos hDe]
        · rw [if_neg (fun h => hDe h.2), if_neg hDe]
      · have hc : ((Int.toNat (δ * (T - s.currentPosition_InSteps)) - 1 + 1 : Nat) : Int)
            = δ * (T - s.currentPosition_InSteps) := by
          rcases hδ with h | h <;> subst h <;> omega
        rw [hc]
        exact hnp
    cases pre with
    | nil =>
      simp only [List.nil_append, List.cons.injEq] at htr
      obtain ⟨hrec, -⟩ := htr
      subst hrec
      simp only at hr
      have hfin := m5.mp hr
      simp only [List.nil_append, recordedPeriods_cons]
      have hnil : recordedPeriods [] = [] := rfl
      rw [hnil]
      by_cases hp : (processMovement s t.1 t.2).pulse = true
      · obtain ⟨n, h1, h2, -, -⟩ := hstep hp
        rw [hfin] at h2
        simp only [sub_self, mul_zero, Int.toNat_zero] at h2
        subst h2
        rw [if_pos hp, h1]
        rfl
      · rw [if_neg hp] at m4 ⊢
        rw [m4] at hfin
        rw [hfin]
        simp [rampList]
    | cons x pre' =>
      simp only [List.cons_append, List.cons.injEq] at htr
      obtain ⟨hrec, htl⟩ := htr
      subst hrec
      have hx : (processMovement s t.1 t.2).result = false := hpre _ (List.mem_cons_self _ _)
      have hrem' : 0 ≤ δ * (T - (processMovement s t.1 t.2).stepper.currentPosition_InSteps) := by
        by_cases hp : (processMovement s t.1 t.2).pulse = true
        · rw [if_pos hp] at m4
          have := m6 hp
          rcases hδ with h | h <;> subst h <;> omega
        · rw [if_neg hp] at m4
          rw [m4]; exact hrem
      have hih := ih (processMovement s t.1 t.2).stepper pre' r post m1 m2 m3 r1 hrem' htl
        (fun y hy => hpre y (List.mem_cons_of_mem _ hy)) hr
      simp only [List.cons_append, recordedPeriods_cons]
      rw [hih]
      by_cases hp : (processMovement s t.1 t.2).pulse = true
      · obtain ⟨n, h1, h2, h3, h4⟩ := hstep hp
        rw [if_pos hp, h1, h2, h3, h4]
        rfl
      · have hp' : (processMovement s t.1 t.2).pulse = false := by
          cases h : (processMovement s t.1 t.2).pulse
          · rfl
          · exact absurd h hp
        obtain ⟨i1, i2⟩ := processMovement_idle_ramp s t.1 t.2 hp'
        rw [if_neg hp] at m4 ⊢
        rw [m4, i1, i2]

/-! ## Runs polled exactly when each step is due -/

/-- A poll made exactly when the step is due emits the step, and leaves the
start-of-move flag cleared. -/
theorem dueTime_steps (s : SpeedyStepper)
    (hne : s.currentPosition_InSteps ≠ s.targetPosition_InSteps)
    (hstart : s.startNewMove = false) :
    (processMovement s (dueTime s) (dueTime s)).pulse = true ∧
    (processMovement s (dueTime s) (dueTime s)).stepper.startNewMove = false := by
  obtain ⟨-, -, -, -, -, a6, -, -, a9, a10⟩ := startOfMove_fields s (dueTime s)
  obtain ⟨-, -, -, -, -, -, -, b8, -⟩ := emitStep_fields (startOfMove s (dueTime s)) (dueTime s)
  rw [hstart] at a10
  simp only [Bool.false_eq_true, if_false] at a10
  have hdue : ¬ subULong (dueTime s) (startOfMove s (dueTime s)).ramp_LastStepTime_InUS
      < toULong (startOfMove s (dueTime s)).ramp_NextStepPeriod_InUS := by
    rw [a10, a6]
    have hd : dueTime s
        = (s.ramp_LastStepTime_InUS + toULong s.ramp_NextStepPeriod_InUS) % ULONG_MOD := by
      unfold dueTime
      rw [hstart]
      simp
    rw [hd, subULong_wrap _ _ (by unfold toULong; exact Nat.mod_lt _ (by unfold ULONG_MOD; norm_num))]
    exact lt_irrefl _
  rw [processMovement_of_step s _ _ hne hdue]
  by_cases hfin : (emitStep (startOfMove s (dueTime s)) (dueTime s)).currentPosition_InSteps
      = (emitStep (startOfMove s (dueTime s)) (dueTime s)).targetPosition_InSteps
  · rw [if_pos hfin]
    exact ⟨rfl, b8.trans a9⟩
  · rw [if_neg hfin]
    exact ⟨rfl, b8.trans a9⟩

/-- A move in progress with `n + 1` steps left, polled exactly when each step is due:
the poll that emits the last step is the first that returns `true`, and it is poll
number `n + 1`. -/
theorem dueRun_completes (T δ : Int) (hδ : δ = 1 ∨ δ = -1) :
    ∀ (n : Nat) (s : SpeedyStepper),
      s.targetPosition_InSteps = T → s.direction_Scaler = δ → s.startNewMove = false →
      δ * (T - s.currentPosition_InSteps) = ((n + 1 : Nat) : Int) →
      ∃ (pre : List PollRecord) (r : PollRecord),
        pollTrace s (dueRun (n + 1) s) = pre ++ [r] ∧
        (∀ x ∈ pre, x.after.result = false) ∧ r.after.result = true := by
  intro n
  induction n with
  | zero =>
    intro s hT hdir hstart hrem
    have hne : s.currentPosition_InSteps ≠ s.targetPosition_InSteps := by
      rw [hT]
      rcases hδ with h | h <;> subst h <;> omega
    obtain ⟨hp, -⟩ := dueTime_steps s hne hstart
    obtain ⟨m1, -, -, m4, m5, -, -⟩ := processMovement_summary s (dueTime s) (dueTime s)
    rw [if_pos hp, hdir] at m4
    refine ⟨[], { before := s, after := processMovement s (dueTime s) (dueTime s) }, rfl,
      fun x hx => absurd hx (List.not_mem_nil x), ?_⟩
    show (processMovement s (dueTime s) (dueTime s)).result = true
    rw [m5, m1, m4, hT]
    rcases hδ with h | h <;> subst h <;> omega
  | succ n ih =>
    intro s hT hdir hstart hrem
    have hne : s.currentPosition_InSteps ≠ s.targetPosition_InSteps := by
      rw [hT]
      rcases hδ with h | h <;> subst h <;> omega
    obtain ⟨hp, hst⟩ := dueTime_steps s hne hstart
    obtain ⟨m1, m2, -, m4, m5, -, -⟩ := processMovement_summary s (dueTime s) (dueTime s)
    rw [if_pos hp, hdir] at m4
    have hres : (processMovement s (dueTime s) (dueTime s)).result = false := by
      cases hr : (processMovement s (dueTime s) (dueTime s)).result
      · rfl
      · exfalso
        have := m5.mp hr
        rw [m1, m4, hT] at this
        rcases hδ with h | h <;> subst h <;> omega
    obtain ⟨pre, r, htr, hpre, hr⟩ := ih (processMovement s (dueTime s) (dueTime s)).stepper
      (m1.trans hT) (m2.trans hdir) hst
      (by rw [m4]; rcases hδ with h | h <;> subst h <;> omega)
    refine ⟨{ before := s, after := processMovement s (dueTime s) (dueTime s) } :: pre, r, ?_, ?_, hr⟩
    · show _ :: pollTrace _ (dueRun (n + 1) _) = _
      rw [htr]
      rfl
    · intro x hx
      rcases List.mem_cons.mp hx with h | h
      · rw [h]
        exact hres
      · exact hpre x h

/-- A planned move of `n + 1` steps whose truncated initial period is not zero, polled
once at the start and then exactly when each step is due, completes: the first poll
that returns `true` is the last of the `n + 2` polls. -/
theorem dueRun_completes_planned (T δ : Int) (hδ : δ = 1 ∨ δ = -1) (n : Nat)
    (s : SpeedyStepper) (hT : s.targetPosition_InSteps = T) (hdir : s.direction_Scaler = δ)
    (hstart : s.startNewMove = true)
    (hrem : δ * (T - s.currentPosition_InSteps) = ((n + 1 : Nat) : Int))
    (hp : 0 < toULong s.ramp_NextStepPeriod_InUS) :
    ∃ (pre : List PollRecord) (r : PollRecord),
      pollTrace s (dueRun (n + 2) s) = pre ++ [r] ∧
      (∀ x ∈ pre, x.after.result = false) ∧ r.after.result = true := by
  have hne : s.currentPosition_InSteps ≠ s.targetPosition_InSteps := by
    rw [hT]
    rcases hδ with h | h <;> subst h <;> omega
  have hd : dueTime s = 0 := by
    unfold dueTime
    rw [if_pos hstart]
  have hw := processMovement_first_wait s 0 0 hne hstart (by rw [subULong_self]; exact hp)
  obtain ⟨a1, a2, a3, -, -, -, -, -, a9, -⟩ := startOfMove_fields s 0
  obtain ⟨pre, r, htr, hpre, hr⟩ := dueRun_completes T δ hδ n (startOfMove s 0)
    (a1.trans hT) (a3.trans hdir) a9 (by rw [a2]; exact hrem)
  refine ⟨{ before := s, after := processMovement s 0 0 } :: pre, r, ?_, ?_, hr⟩
  · show pollTrace s ((dueTime s, dueTime s)
        :: dueRun (n + 1) (processMovement s (dueTime s) (dueTime s)).stepper) = _
    rw [hd]
    show _ :: pollTrace (processMovement s 0 0).stepper
        (dueRun (n + 1) (processMovement s 0 0).stepper) = _
    rw [hw]
    show _ :: pollTrace (startOfMove s 0) (dueRun (n + 1) (startOfMove s 0)) = _
    rw [htr]
    rfl
  · intro x hx
    rcases List.mem_cons.mp hx with h | h
    · rw [h, hw]
    · exact hpre x h

/-! ## The recurrence of the step period -/

theorem rampStep_ge_desired (acc desired p : ℚ) : desired ≤ rampStep acc desired p := by
  unfold rampStep
  split_ifs with h
  · exact le_refl _
  · exact not_lt.mp h

theorem rampStep_ge_raw (acc desired p : ℚ) : p * (1 - acc * p * p) ≤ rampStep acc desired p := by
  unfold rampStep
  split_ifs with h
  · exact le_of_lt h
  · exact le_refl _

/-- While accelerating, a period at or above the cruise period does not grow, and one
strictly above it shrinks. -/
theorem rampStep_le (acc desired p : ℚ) (hacc : 0 < acc) (hd : 0 ≤ desired)
    (hp : desired ≤ p) :
    rampStep acc desired p ≤ p ∧ (desired < p → rampStep acc desired p < p) := by
  have hp0 : 0 ≤ p := le_trans hd hp
  have hraw : p * (1 - acc * p * p) ≤ p := by
    have : 0 ≤ acc * p * p * p := by positivity
    nlinarith
  unfold rampStep
  split_ifs with h
  · exact ⟨hp, fun h2 => h2⟩
  · refine ⟨hraw, fun h2 => ?_⟩
    have hpos : 0 < p := lt_of_le_of_lt hd h2
    have : 0 < acc * p * p * p := by positivity
    nlinarith

/-- While decelerating (negative acceleration term), a positive period at or above the
cruise period grows. -/
theorem rampStep_neg_gt (acc desired p : ℚ) (hacc : 0 < acc) (hp0 : 0 < p)
    (hp : desired ≤ p) :
    p < rampStep (-acc) desired p := by
  have hraw : p < p * (1 - -acc * p * p) := by
    have : 0 < acc * p * p * p := by positivity
    nlinarith
  unfold rampStep
  split_ifs with h
  · linarith
  · exact hraw

/-- The recurrence is monotone in the period as long as `3 * acc * p ^ 2 ≤ 1`. -/
theorem ramp_raw_mono (acc x y : ℚ) (hacc : 0 ≤ acc) (hx : 0 ≤ x) (hxy : x ≤ y)
    (hy : 3 * acc * y ^ 2 ≤ 1) :
    x * (1 - acc * x * x) ≤ y * (1 - acc * y * y) := by
  have h1 : x * x + x * y + y * y ≤ 3 * y ^ 2 := by nlinarith
  have h2 : acc * (x * x + x * y + y * y) ≤ 1 := by
    have := mul_le_mul_of_nonneg_left h1 hacc
    nlinarith
  have h3 : 0 ≤ (y - x) * (1 - acc * (x * x + x * y + y * y)) :=
    mul_nonneg (by linarith) (by linarith)
  nlinarith




theorem ceil_div_bound (N : Nat) :
    N ≤ ((N + 10000000000000000 - 1) / 10000000000000000) * 10000000000000000 := by
  omega

theorem ceil_div_le (N l : Nat) (h : N ≤ 10000000000000000 * l) :
    (N + 10000000000000000 - 1) / 10000000000000000 ≤ l := by
  omega

/-- The value of `lowerStep` is below the recurrence at `l / 1000`. -/
theorem lowerStep_le (l : Nat) (hl : l ≤ 57000000) :
    ((lowerStep l : Nat) : ℚ)
      ≤ 1000 * ((l : ℚ) / 1000
          * (1 - 100 / 1000000000000 * ((l : ℚ) / 1000) * ((l : ℚ) / 1000))) := by
  have hsq : l * l ≤ 10000000000000000 :=
    le_trans (Nat.mul_le_mul hl hl) (by norm_num)
  have hcube : l * l * l ≤ 10000000000000000 * l := Nat.mul_le_mul_right l hsq
  have hcl := ceil_div_le (l * l * l) l hcube
  have hceil := ceil_div_bound (l * l * l)
  have hceilq : (l : ℚ) * l * l
      ≤ (((l * l * l + 10000000000000000 - 1) / 10000000000000000 : Nat) : ℚ)
          * 10000000000000000 := by
    exact_mod_cast hceil
  unfold lowerStep
  rw [Nat.cast_sub hcl]
  have h1 : 1000 * ((l : ℚ) / 1000
        * (1 - 100 / 1000000000000 * ((l : ℚ) / 1000) * ((l : ℚ) / 1000)))
      = (l : ℚ) - (l : ℚ) * l * l / 10000000000000000 := by ring
  rw [h1]
  have h3 : (l : ℚ) * l * l / 10000000000000000
      ≤ (((l * l * l + 10000000000000000 - 1) / 10000000000000000 : Nat) : ℚ) := by
    rw [div_le_iff₀ (by norm_num)]
    exact hceilq
  linarith





/-- The recurrence at `u / 1000` is below the value of `upperStep`, which stays at or
above the cruise period and at or below `u`. -/
theorem upperStep_ge (u : Nat) :
    1000 * ((u : ℚ) / 1000
        * (1 - 100 / 1000000000000 * ((u : ℚ) / 1000) * ((u : ℚ) / 1000)))
      ≤ ((upperStep u : Nat) : ℚ) ∧
    (10000000 : ℚ) ≤ ((upperStep u : Nat) : ℚ) ∧
    (u ≤ 57000000 → upperStep u ≤ 57000000) := by
  have hfloor : (u * u * u / 10000000000000000) * 10000000000000000 ≤ u * u * u :=
    Nat.div_mul_le_self _ _
  have hfloorq : ((u * u * u / 10000000000000000 : Nat) : ℚ) * 10000000000000000
      ≤ (u : ℚ) * u * u := by
    exact_mod_cast hfloor
  have h1 : 1000 * ((u : ℚ) / 1000
        * (1 - 100 / 1000000000000 * ((u : ℚ) / 1000) * ((u : ℚ) / 1000)))
      = (u : ℚ) - (u : ℚ) * u * u / 10000000000000000 := by ring
  have h3 : ((u * u * u / 10000000000000000 : Nat) : ℚ)
      ≤ (u : ℚ) * u * u / 10000000000000000 := by
    rw [le_div_iff₀ (by norm_num)]
    exact hfloorq
  have h4 : (u : ℚ) ≤ ((u - u * u * u / 10000000000000000 : Nat) : ℚ)
      + ((u * u * u / 10000000000000000 : Nat) : ℚ) := by
    have : u ≤ (u - u * u * u / 10000000000000000) + u * u * u / 10000000000000000 := by
      omega
    exact_mod_cast this
  have hmax1 : ((u - u * u * u / 10000000000000000 : Nat) : ℚ) ≤ ((upperStep u : Nat) : ℚ) := by
    unfold upperStep
    exact_mod_cast le_max_left _ _
  have hmax2 : (10000000 : ℚ) ≤ ((upperStep u : Nat) : ℚ) := by
    unfold upperStep
    exact_mod_cast le_max_right (u - u * u * u / 10000000000000000) 10000000
  refine ⟨?_, hmax2, fun hu => ?_⟩
  · rw [h1]
    linarith
  · unfold upperStep
    exact max_le (le_trans (Nat.sub_le _ _) hu) (by norm_num)

/-- One step of the interval bounds: if the period, in thousandths of a microsecond,
lies between `l` and `u ≤ 57000000`, the next period while accelerating at
100 steps/s^2 towards the cruise period 10000 us lies between `lowerStep l` and
`upperStep u`. -/
theorem rampStep_interval (p : ℚ) (l u : Nat) (hl : (l : ℚ) ≤ 1000 * p)
    (hu : 1000 * p ≤ (u : ℚ)) (hu57 : u ≤ 57000000) :
    ((lowerStep l : Nat) : ℚ) ≤ 1000 * rampStep (100 / 1000000000000) 10000 p ∧
    1000 * rampStep (100 / 1000000000000) 10000 p ≤ ((upperStep u : Nat) : ℚ) ∧
    upperStep u ≤ 57000000 := by
  have hl0 : (0 : ℚ) ≤ (l : ℚ) := Nat.cast_nonneg l
  have hlu : (l : ℚ) ≤ (u : ℚ) := le_trans hl hu
  have hluN : l ≤ u := by exact_mod_cast hlu
  have hu57q : (u : ℚ) ≤ 57000000 := by exact_mod_cast hu57
  have hp0 : 0 ≤ p := by linarith
  have hpy : p ≤ (u : ℚ) / 1000 := by linarith
  have hxp : (l : ℚ) / 1000 ≤ p := by linarith
  have hy57 : (u : ℚ) / 1000 ≤ 57000 := by linarith
  have hp57 : p ≤ 57000 := le_trans hpy hy57
  have hy : 3 * (100 / 1000000000000 : ℚ) * ((u : ℚ) / 1000) ^ 2 ≤ 1 := by
    have h2 : ((u : ℚ) / 1000) ^ 2 ≤ 57000 ^ 2 := pow_le_pow_left₀ (by positivity) hy57 2
    calc 3 * (100 / 1000000000000 : ℚ) * ((u : ℚ) / 1000) ^ 2
        ≤ 3 * (100 / 1000000000000 : ℚ) * 57000 ^ 2 :=
          mul_le_mul_of_nonneg_left h2 (by norm_num)
      _ ≤ 1 := by norm_num
  have hyp : 3 * (100 / 1000000000000 : ℚ) * p ^ 2 ≤ 1 := by
    have h2 : p ^ 2 ≤ 57000 ^ 2 := pow_le_pow_left₀ hp0 hp57 2
    calc 3 * (100 / 1000000000000 : ℚ) * p ^ 2
        ≤ 3 * (100 / 1000000000000 : ℚ) * 57000 ^ 2 :=
          mul_le_mul_of_nonneg_left h2 (by norm_num)
      _ ≤ 1 := by norm_num
  have hlow := ramp_raw_mono (100 / 1000000000000) ((l : ℚ) / 1000) p (by norm_num)
    (by positivity) hxp hyp
  have hupp := ramp_raw_mono (100 / 1000000000000) p ((u : ℚ) / 1000) (by norm_num)
    hp0 hpy hy
  have hlowq := lowerStep_le l (le_trans hluN hu57)
  obtain ⟨huppq, hmax2, hkeep⟩ := upperStep_ge u
  have hraw := rampStep_ge_raw (100 / 1000000000000) 10000 p
  refine ⟨by linarith, ?_, hkeep hu57⟩
  unfold rampStep
  split_ifs with h
  · linarith
  · linarith

/-- The interval bounds over `k` steps. -/
theorem rampStep_interval_iterate (k : Nat) :
    ∀ (p : ℚ) (l u : Nat), (l : ℚ) ≤ 1000 * p → 1000 * p ≤ (u : ℚ) → u ≤ 57000000 →
      ((lowerStep^[k] l : Nat) : ℚ) ≤ 1000 * (rampStep (100 / 1000000000000) 10000)^[k] p ∧
      1000 * (rampStep (100 / 1000000000000) 10000)^[k] p ≤ ((upperStep^[k] u : Nat) : ℚ) ∧
      upperStep^[k] u ≤ 57000000 := by
  induction k with
  | zero =>
    intro p l u hl hu hu57
    rw [Function.iterate_zero_apply, Function.iterate_zero_apply, Function.iterate_zero_apply]
    exact ⟨hl, hu, hu57⟩
  | succ k ih =>
    intro p l u hl hu hu57
    obtain ⟨h1, h2, h3⟩ := rampStep_interval p l u hl hu hu57
    rw [Function.iterate_succ_apply, Function.iterate_succ_apply, Function.iterate_succ_apply]
    exact ih (rampStep (100 / 1000000000000) 10000 p) (lowerStep l) (upperStep u) h1 h2 h3

theorem lowerStep_certificate : 10000000 < lowerStep^[44] 35355331 := by
  decide

theorem upperStep_certificate : upperStep^[45] 35355347 = 10000000 := by
  set_option maxRecDepth 100000 in
  decide

/-! ## The shape of the recurrence -/

/-- Below the deceleration distance the sign of the acceleration term stays. -/
theorem rampList_below (D : Int) (desired : ℚ) :
    ∀ (m : Nat) (acc q : ℚ), (m : Int) < D →
      rampList D desired m acc q = List.iterate (rampStep acc desired) q m := by
  intro m
  induction m with
  | zero =>
    intro acc q _
    rfl
  | succ m ih =>
    intro acc q hm
    have hne : ¬ ((m + 1 : Nat) : Int) = D := by omega
    rw [rampList, if_neg hne, ih acc _ (by omega)]
    rfl

/-- At the deceleration distance the sign of the acceleration term flips, once. -/
theorem rampList_at (D : Int) (desired : ℚ) (m : Nat) (acc q : ℚ)
    (hm : ((m + 1 : Nat) : Int) = D) :
    rampList D desired (m + 1) acc q = List.iterate (rampStep (-acc) desired) q (m + 1) := by
  rw [rampList, if_pos hm, rampList_below D desired m (-acc) _ (by omega)]
  rfl

/-- Above the deceleration distance the sign of the acceleration term stays. -/
theorem rampList_above (D : Int) (desired : ℚ) (n : Nat) (hn : D ≤ (n : Int)) :
    ∀ (k : Nat) (acc q : ℚ),
      rampList D desired (n + k) acc q
        = List.iterate (rampStep acc desired) q k
          ++ rampList D desired n acc ((rampStep acc desired)^[k] q) := by
  intro k
  induction k with
  | zero =>
    intro acc q
    rfl
  | succ k ih =>
    intro acc q
    have hne : ¬ ((n + k + 1 : Nat) : Int) = D := by omega
    show rampList D desired (n + k + 1) acc q = _
    rw [rampList, if_neg hne, ih acc _]
    rfl

/-- A list of iterates is a chain for a relation that holds between successive
iterates. -/
theorem iterate_chain {α : Type} (R : α → α → Prop) (f : α → α) :
    ∀ (n : Nat) (q : α), (∀ k, k + 1 < n → R (f^[k] q) (f^[k + 1] q)) →
      List.Chain' R (List.iterate f q n) := by
  intro n
  induction n with
  | zero =>
    intro q _
    exact List.chain'_nil
  | succ n ih =>
    intro q h
    show List.Chain' R (q :: List.iterate f (f q) n)
    rw [List.chain'_cons']
    constructor
    · intro y hy
      cases n with
      | zero => simp [List.iterate] at hy
      | succ n =>
        have hy2 : y = f q := by
          simpa [List.iterate] using hy.symm
        rw [hy2]
        exact h 0 (by omega)
    · exact ih (f q) (fun k hk => h (k + 1) (by omega))

theorem iterate_fixed_list {α : Type} (f : α → α) (a : α) (h : f a = a) :
    ∀ n : Nat, List.iterate f a n = List.replicate n a := by
  intro n
  induction n with
  | zero => rfl
  | succ n ih =>
    show a :: List.iterate f (f a) n = a :: List.replicate n a
    rw [h, ih]

/-- While accelerating from a period at or above the cruise period, the periods stay
at or above the cruise period and do not grow. -/
theorem rampStep_iterate_le (acc desired : ℚ) (hacc : 0 < acc) (hd : 0 ≤ desired) :
    ∀ (k : Nat) (q : ℚ), desired ≤ q →
      desired ≤ (rampStep acc desired)^[k] q ∧ (rampStep acc desired)^[k] q ≤ q := by
  intro k
  induction k with
  | zero =>
    intro q hq
    rw [Function.iterate_zero_apply]
    exact ⟨hq, le_refl _⟩
  | succ k ih =>
    intro q hq
    rw [Function.iterate_succ_apply]
    obtain ⟨h1, h2⟩ := ih (rampStep acc desired q) (rampStep_ge_desired acc desired q)
    exact ⟨h1, le_trans h2 (rampStep_le acc desired q hacc hd hq).1⟩

/-- While decelerating from a period at or above the cruise period, the periods stay at
or above it. -/
theorem rampStep_neg_iterate_ge (acc desired : ℚ) :
    ∀ (k : Nat) (q : ℚ), desired ≤ q → desired ≤ (rampStep (-acc) desired)^[k] q := by
  intro k
  induction k with
  | zero =>
    intro q hq
    rw [Function.iterate_zero_apply]
    exact hq
  | succ k ih =>
    intro q hq
    rw [Function.iterate_succ_apply]
    exact ih _ (rampStep_ge_desired _ _ _)

/-! ## Scenario A: acceleration 100 steps/s^2, cruise speed 100 steps/s, 200 steps -/

theorem rampStep_cruise_fixed : rampStep (100 / 1000000000000) 10000 10000 = 10000 := by
  unfold rampStep
  norm_num

/-- The first two periods of scenario A, from the bounds on the square root. -/
theorem scenarioA_first_periods (r : ℚ) (hlo : 14142135 / 1000000 ≤ r)
    (hhi : r ≤ 14142136 / 1000000) :
    ((35355331 : Nat) : ℚ) ≤ 1000 * rampStep (100 / 1000000000000) 10000 (1000000 / r) ∧
    1000 * rampStep (100 / 1000000000000) 10000 (1000000 / r) ≤ ((35355347 : Nat) : ℚ) ∧
    10000 < 1000000 / r := by
  have hr : 0 < r := lt_of_lt_of_le (by norm_num) hlo
  have hl : (70710676 / 1000 : ℚ) ≤ 1000000 / r := by
    rw [le_div_iff₀ hr]
    linarith
  have hu : 1000000 / r ≤ (70710682 / 1000 : ℚ) := by
    rw [div_le_iff₀ hr]
    linarith
  generalize 1000000 / r = p at hl hu
  have hp0 : 0 ≤ p := le_trans (by norm_num) hl
  have hl3 : (70710676 / 1000 : ℚ) ^ 3 ≤ p ^ 3 := pow_le_pow_left₀ (by norm_num) hl 3
  have hu3 : p ^ 3 ≤ (70710682 / 1000 : ℚ) ^ 3 := pow_le_pow_left₀ hp0 hu 3
  have hraw : p * (1 - 100 / 1000000000000 * p * p) = p - p ^ 3 / 10000000000 := by ring
  have h1 : (35355331 / 1000 : ℚ) ≤ p - p ^ 3 / 10000000000 := by
    have : (35355331 / 1000 : ℚ)
        ≤ 70710676 / 1000 - (70710682 / 1000 : ℚ) ^ 3 / 10000000000 := by norm_num
    linarith
  have h2 : p - p ^ 3 / 10000000000 ≤ (35355347 / 1000 : ℚ) := by
    have : 70710682 / 1000 - (70710676 / 1000 : ℚ) ^ 3 / 10000000000
        ≤ (35355347 / 1000 : ℚ) := by norm_num
    linarith
  have hnot : ¬ p * (1 - 100 / 1000000000000 * p * p) < 10000 := by
    rw [hraw]
    linarith
  refine ⟨?_, ?_, by linarith⟩
  · unfold rampStep
    rw [if_neg hnot, hraw]
    push_cast
    linarith
  · unfold rampStep
    rw [if_neg hnot, hraw]
    push_cast
    linarith

/-- In scenario A the 46th period is still above the cruise period and the 47th is
the cruise period. -/
theorem scenarioA_reaches_cruise (r : ℚ) (hlo : 14142135 / 1000000 ≤ r)
    (hhi : r ≤ 14142136 / 1000000) :
    10000 < (rampStep (100 / 1000000000000) 10000)^[45] (1000000 / r) ∧
    (rampStep (100 / 1000000000000) 10000)^[46] (1000000 / r) = 10000 := by
  obtain ⟨h1, h2, -⟩ := scenarioA_first_periods r hlo hhi
  obtain ⟨a1, -, -⟩ := rampStep_interval_iterate 44 _ 35355331 35355347 h1 h2 (by norm_num)
  obtain ⟨-, b2, -⟩ := rampStep_interval_iterate 45 _ 35355331 35355347 h1 h2 (by norm_num)
  have hc1 : ((10000000 : Nat) : ℚ) < ((lowerStep^[44] 35355331 : Nat) : ℚ) :=
    Nat.cast_lt.mpr lowerStep_certificate
  rw [upperStep_certificate] at b2
  constructor
  · rw [Function.iterate_succ_apply]
    push_cast at hc1
    linarith
  · rw [Function.iterate_succ_apply]
    have hge := (rampStep_iterate_le (100 / 1000000000000) 10000 (by norm_num) (by norm_num) 45
      (rampStep (100 / 1000000000000) 10000 (1000000 / r)) (rampStep_ge_desired _ _ _)).1
    push_cast at b2
    linarith

/-- The recorded periods of scenario A as a recurrence: 46 periods strictly above the
cruise period and strictly shrinking, starting at the initial period; 104 periods
equal to the cruise period; 50 periods that grow strictly, starting at the cruise
period. -/
theorem scenarioA_rampList (r : ℚ) (hlo : 14142135 / 1000000 ≤ r)
    (hhi : r ≤ 14142136 / 1000000) :
    ∃ A C B : List ℚ,
      rampList 50 10000 200 (100 / 1000000000000) (1000000 / r) = A ++ C ++ B ∧
      A.length = 46 ∧ A.head? = some (1000000 / r) ∧ (∀ x ∈ A, 10000 < x) ∧
      List.Chain' (fun x y => y < x) A ∧
      C = List.replicate 104 10000 ∧
      B.length = 50 ∧ B.head? = some 10000 ∧ List.Chain' (fun x y => x < y) B := by
  obtain ⟨h45, h46⟩ := scenarioA_reaches_cruise r hlo hhi
  obtain ⟨-, -, hp0⟩ := scenarioA_first_periods r hlo hhi
  generalize 1000000 / r = p at h45 h46 hp0
  have hacc : (0 : ℚ) < 100 / 1000000000000 := by norm_num
  -- every period up to the 46th is above the cruise period
  have habove : ∀ k, k ≤ 45 → 10000 < (rampStep (100 / 1000000000000) 10000)^[k] p := by
    intro k hk
    have hk1 := (rampStep_iterate_le (100 / 1000000000000) 10000 hacc (by norm_num) k p
      (le_of_lt hp0)).1
    have hk2 := (rampStep_iterate_le (100 / 1000000000000) 10000 hacc (by norm_num) (45 - k)
      _ hk1).2
    rw [← Function.iterate_add_apply, Nat.sub_add_cancel hk] at hk2
    exact lt_of_lt_of_le h45 hk2
  have h150 : (rampStep (100 / 1000000000000) 10000)^[150] p = 10000 := by
    have : (150 : Nat) = 104 + 46 := by norm_num
    rw [this, Function.iterate_add_apply, h46]
    exact Function.iterate_fixed rampStep_cruise_fixed 104
  have hlist : rampList 50 10000 200 (100 / 1000000000000) p
      = List.iterate (rampStep (100 / 1000000000000) 10000) p 46
        ++ List.replicate 104 10000
        ++ List.iterate (rampStep (-(100 / 1000000000000)) 10000) 10000 50 := by
    have h200 : (200 : Nat) = 50 + 150 := by norm_num
    have h50 : (50 : Nat) = 49 + 1 := by norm_num
    have hsplit : (150 : Nat) = 46 + 104 := by norm_num
    rw [h200, rampList_above 50 10000 50 (by norm_num) 150, h150]
    nth_rewrite 2 [h50]
    rw [rampList_at 50 10000 49 _ _ (by norm_num), hsplit, List.iterate_add, h46,
      iterate_fixed_list _ _ rampStep_cruise_fixed 104]
  refine ⟨_, _, _, hlist, List.length_iterate _ _ _, rfl, ?_, ?_, rfl,
    List.length_iterate _ _ _, rfl, ?_⟩
  · intro x hx
    obtain ⟨k, hk, rfl⟩ := List.mem_iterate.mp hx
    exact habove k (by omega)
  · apply iterate_chain
    intro k hk
    rw [Function.iterate_succ_apply']
    exact (rampStep_le (100 / 1000000000000) 10000 _ hacc (by norm_num)
      (le_of_lt (habove k (by omega)))).2 (habove k (by omega))
  · apply iterate_chain
    intro k _
    rw [Function.iterate_succ_apply']
    have hge := rampStep_neg_iterate_ge (100 / 1000000000000) 10000 k 10000 (le_refl _)
    exact rampStep_neg_gt (100 / 1000000000000) 10000 _ hacc
      (lt_of_lt_of_le (by norm_num) hge) hge

theorem remainingAtSteps_cons (x : PollRecord) (xs : List PollRecord) :
    remainingAtSteps (x :: xs)
      = if x.after.pulse = true then distanceToTarget x.before :: remainingAtSteps xs
        else remainingAtSteps xs := by
  unfold remainingAtSteps
  by_cases h : x.after.pulse = true
  · simp [List.filter_cons, h]
  · simp [List.filter_cons, h]

/-- The steps of a run towards `T` in direction `δ`, up to the first poll that returns
`true`, are emitted at the remaining distances `n, n - 1, ..., 1`, where `n` is the
distance that was left. -/
theorem remainingAtSteps_eq_countdown (T δ : Int) (hδ : δ = 1 ∨ δ = -1) :
    ∀ (polls : List (Nat × Nat)) (s : SpeedyStepper) (pre : List PollRecord)
      (r : PollRecord) (post : List PollRecord),
      s.targetPosition_InSteps = T → s.direction_Scaler = δ →
      0 ≤ δ * (T - s.currentPosition_InSteps) →
      pollTrace s polls = pre ++ r :: post →
      (∀ x ∈ pre, x.after.result = false) → r.after.result = true →
      remainingAtSteps (pre ++ [r])
        = countdown (Int.toNat (δ * (T - s.currentPosition_InSteps))) := by
  intro polls
  induction polls with
  | nil =>
    intro s pre r post _ _ _ htr
    simp [pollTrace] at htr
  | cons t ts ih =>
    intro s pre r post hT hdir hrem htr hpre hr
    obtain ⟨m1, m2, -, m4, m5, m6, -⟩ := processMovement_summary s t.1 t.2
    have hdist := distanceToTarget_eq s δ hδ (by rw [hT]; exact hrem)
    simp only [pollTrace] at htr
    rw [hT] at m1 hdist m6
    rw [hdir] at m2 m4
    rw [m1] at m5
    have hstep : (processMovement s t.1 t.2).pulse = true →
        ∃ n : Nat, Int.toNat (δ * (T - s.currentPosition_InSteps)) = n + 1 ∧
          Int.toNat (δ * (T - (processMovement s t.1 t.2).stepper.currentPosition_InSteps)) = n ∧
          distanceToTarget s = ((n + 1 : Nat) : Int) := by
      intro hp
      have hn := m6 hp
      rw [if_pos hp] at m4
      refine ⟨Int.toNat (δ * (T - s.currentPosition_InSteps)) - 1, ?_, ?_, ?_⟩
      · rcases hδ with h | h <;> subst h <;> omega
      · rw [m4]
        rcases hδ with h | h <;> subst h <;> omega
      · rw [hdist]
        rcases hδ with h | h <;> subst h <;> omega
    cases pre with
    | nil =>
      simp only [List.nil_append, List.cons.injEq] at htr
      obtain ⟨hrec, -⟩ := htr
      subst hrec
      simp only at hr
      have hfin := m5.mp hr
      simp only [List.nil_append, remainingAtSteps_cons]
      have hnil : remainingAtSteps [] = [] := rfl
      rw [hnil]
      by_cases hp : (processMovement s t.1 t.2).pulse = true
      · obtain ⟨n, h1, h2, h3⟩ := hstep hp
        rw [hfin] at h2
        simp only [sub_self, mul_zero, Int.toNat_zero] at h2
        subst h2
        rw [if_pos hp, h1, h3]
        rfl
      · rw [if_neg hp] at m4 ⊢
        rw [m4] at hfin
        rw [hfin]
        simp [countdown]
    | cons x pre' =>
      simp only [List.cons_append, List.cons.injEq] at htr
      obtain ⟨hrec, htl⟩ := htr
      subst hrec
      have hrem' : 0 ≤ δ * (T - (processMovement s t.1 t.2).stepper.currentPosition_InSteps) := by
        by_cases hp : (processMovement s t.1 t.2).pulse = true
        · rw [if_pos hp] at m4
          have := m6 hp
          rcases hδ with h | h <;> subst h <;> omega
        · rw [if_neg hp] at m4
          rw [m4]; exact hrem
      have hih := ih (processMovement s t.1 t.2).stepper pre' r post m1 m2 hrem' htl
        (fun y hy => hpre y (List.mem_cons_of_mem _ hy)) hr
      simp only [List.cons_append, remainingAtSteps_cons]
      rw [hih]
      by_cases hp : (processMovement s t.1 t.2).pulse = true
      · obtain ⟨n, h1, h2, h3⟩ := hstep hp
        rw [if_pos hp, h1, h2, h3]
        rfl
      · rw [if_neg hp] at m4 ⊢
        rw [m4]

/-- The state that scenario A plans: acceleration 100 steps/s^2, cruise speed
100 steps/s, a relative move of 200 steps. -/
theorem scenarioA_planned (sqrtf : ℚ → ℚ) (s0 : SpeedyStepper) :
    (setupRelativeMoveInSteps sqrtf (configure s0 100 100) 200).targetPosition_InSteps
      = s0.currentPosition_InSteps + 200 ∧
    (setupRelativeMoveInSteps sqrtf (configure s0 100 100) 200).currentPosition_InSteps
      = s0.currentPosition_InSteps ∧
    (setupRelativeMoveInSteps sqrtf (configure s0 100 100) 200).direction_Scaler = 1 ∧
    (setupRelativeMoveInSteps sqrtf (configure s0 100 100) 200).decelerationDistance_InSteps
      = 50 ∧
    (setupRelativeMoveInSteps sqrtf (configure s0 100 100) 200).acceleration_InStepsPerUSPerUS
      = 100 / 1000000000000 ∧
    (setupRelativeMoveInSteps sqrtf (configure s0 100 100) 200).ramp_NextStepPeriod_InUS
      = 1000000 / sqrtf (2 * 100) ∧
    (setupRelativeMoveInSteps sqrtf (configure s0 100 100) 200).desiredStepPeriod_InUS
      = 10000 ∧
    (setupRelativeMoveInSteps sqrtf (configure s0 100 100) 200).startNewMove = true := by
  obtain ⟨c1, c2, c3⟩ := configure_fields s0 100 100
  obtain ⟨f1, f2, f3, f4, f5, f6, f7, f8, -⟩ := setupMoveInSteps_fields sqrtf
    (configure s0 100 100) ((configure s0 100 100).currentPosition_InSteps + 200)
  have hsub : (configure s0 100 100).currentPosition_InSteps + 200
      - (configure s0 100 100).currentPosition_InSteps = 200 := by omega
  have hw : wrapLong (50 * 2) = 100 := by decide
  rw [hsub, c1, c2, brakingSteps_hundred, hw] at f4
  rw [hsub] at f3
  rw [c2] at f5 f6
  rw [c1] at f7
  rw [c3] at f1 f2 f3 f4 f5 f6 f7 f8
  unfold setupRelativeMoveInSteps
  rw [c3]
  refine ⟨f1, f2, ?_, ?_, f5, f6, ?_, f8⟩
  · rw [f3]
    norm_num
  · rw [f4]
    norm_num
  · rw [f7]
    norm_num

/-- A completed run of scenario A records the periods of the recurrence, at the
remaining distances 200, 199, ..., 1. -/
theorem scenarioA_run (sqrtf : ℚ → ℚ) (s0 : SpeedyStepper)
    (polls : List (Nat × Nat)) (pre : List PollRecord) (r : PollRecord)
    (post : List PollRecord)
    (htr : pollTrace (setupRelativeMoveInSteps sqrtf (configure s0 100 100) 200) polls
      = pre ++ r :: post)
    (hpre : ∀ x ∈ pre, x.after.result = false) (hr : r.after.result = true) :
    recordedPeriods (pre ++ [r])
      = rampList 50 10000 200 (100 / 1000000000000) (1000000 / sqrtf (2 * 100)) ∧
    remainingAtSteps (pre ++ [r]) = countdown 200 := by
  obtain ⟨p1, p2, p3, p4, p5, p6, p7, -⟩ := scenarioA_planned sqrtf s0
  have hrem : (1 : Int) * (s0.currentPosition_InSteps + 200
      - (setupRelativeMoveInSteps sqrtf (configure s0 100 100) 200).currentPosition_InSteps)
      = 200 := by
    rw [p2]
    omega
  have h1 := recordedPeriods_eq_rampList (s0.currentPosition_InSteps + 200) 1 50 10000
    (Or.inl rfl) polls _ pre r post p1 p3 p4 p7 (by rw [hrem]; norm_num) htr hpre hr
  have h2 := remainingAtSteps_eq_countdown (s0.currentPosition_InSteps + 200) 1
    (Or.inl rfl) polls _ pre r post p1 p3 (by rw [hrem]; norm_num) htr hpre hr
  rw [hrem] at h1 h2
  rw [p5, p6] at h1
  exact ⟨h1, h2⟩

theorem sqrtMicro_two_hundred : sqrtMicro (2 * 100) = 14142135 / 1000000 := by
  unfold sqrtMicro
  have h : Int.toNat (Int.floor ((2 : ℚ) * 100 * 1000000000000)) = 200000000000000 := by
    norm_num
    rfl
  have hs : Nat.sqrt 200000000000000 = 14142135 := by
    symm
    rw [Nat.eq_sqrt]
    constructor <;> norm_num
  rw [h, hs]
  norm_num

/-- In scenario A the truncated initial period is 70710 us. -/
theorem toULong_scenarioA (r : ℚ) (hlo : 14142135 / 1000000 ≤ r)
    (hhi : r ≤ 14142136 / 1000000) : toULong (1000000 / r) = 70710 := by
  have hr : 0 < r := lt_of_lt_of_le (by norm_num) hlo
  unfold toULong ULONG_MOD
  have h : Int.floor ((1000000 : ℚ) / r) = 70710 := by
    rw [Int.floor_eq_iff]
    constructor
    · rw [le_div_iff₀ hr]
      push_cast
      linarith
    · rw [div_lt_iff₀ hr]
      push_cast
      linarith
  rw [h]
  rfl

/-- Scenario A polled once at the start and then exactly when each step is due: the run
completes at the last of its 201 polls. -/
theorem scenarioA_due_run (sqrtf : ℚ → ℚ) (s0 : SpeedyStepper)
    (hlo : 14142135 / 1000000 ≤ sqrtf (2 * 100))
    (hhi : sqrtf (2 * 100) ≤ 14142136 / 1000000) :
    ∃ (pre : List PollRecord) (r : PollRecord),
      pollTrace (setupRelativeMoveInSteps sqrtf (configure s0 100 100) 200)
          (dueRun 201 (setupRelativeMoveInSteps sqrtf (configure s0 100 100) 200))
        = pre ++ [r] ∧
      (∀ x ∈ pre, x.after.result = false) ∧ r.after.result = true := by
  obtain ⟨p1, p2, p3, -, -, p6, -, p8⟩ := scenarioA_planned sqrtf s0
  exact dueRun_completes_planned (s0.currentPosition_InSteps + 200) 1 (Or.inl rfl) 199 _ p1 p3
    p8
    (by rw [p2]; push_cast; ring)
    (by rw [p6, toULong_scenarioA _ hlo hhi]; norm_num)

theorem countdown_getElem? :
    ∀ (n i : Nat), i < n → (countdown n)[i]? = some (((n - i : Nat)) : Int) := by
  intro n
  induction n with
  | zero =>
    intro i hi
    omega
  | succ n ih =>
    intro i hi
    cases i with
    | zero =>
      simp [countdown]
    | succ i =>
      have h := ih i (by omega)
      have hsub : n + 1 - (i + 1) = n - i := by omega
      rw [hsub]
      simpa [countdown] using h

/-- C16 (amended): scenario A is acceleration 100 steps/s^2, cruise speed 100 steps/s and
a relative move of 200 steps, with a square root routine that returns `sqrt 200` to
within `1e-6`.  The deceleration distance is 50 and the cruise period 10000 us.  The
run polled once at the start and then exactly when each step is due completes at
its 201st poll.  In that run, and in every run polled until the first poll returns
`true`, 200 steps are emitted, at the remaining distances 200, 199, ..., 1, and their
recorded periods are: 46 periods strictly above the cruise period and strictly
shrinking, the first of them `1000000 / sqrt 200`; then 104 periods equal to the cruise
period; then, for the 50 steps emitted from the deceleration distance on, 50 periods
that grow strictly, the first of them the cruise period. -/
theorem scenarioA_recorded_periods (sqrtf : ℚ → ℚ) (s0 : SpeedyStepper)
    (hlo : 14142135 / 1000000 ≤ sqrtf (2 * 100))
    (hhi : sqrtf (2 * 100) ≤ 14142136 / 1000000) :
    (setupRelativeMoveInSteps sqrtf (configure s0 100 100) 200).decelerationDistance_InSteps
      = 50 ∧
    (setupRelativeMoveInSteps sqrtf (configure s0 100 100) 200).desiredStepPeriod_InUS
      = 10000 ∧
    (∃ (pre : List PollRecord) (r : PollRecord),
      pollTrace (setupRelativeMoveInSteps sqrtf (configure s0 100 100) 200)
          (dueRun 201 (setupRelativeMoveInSteps sqrtf (configure s0 100 100) 200))
        = pre ++ [r] ∧
      (∀ x ∈ pre, x.after.result = false) ∧ r.after.result = true) ∧
    ∀ (polls : List (Nat × Nat)) (pre : List PollRecord) (r : PollRecord)
      (post : List PollRecord),
      pollTrace (setupRelativeMoveInSteps sqrtf (configure s0 100 100) 200) polls
        = pre ++ r :: post →
      (∀ x ∈ pre, x.after.result = false) → r.after.result = true →
      remainingAtSteps (pre ++ [r]) = countdown 200 ∧
      ∃ A C B : List ℚ,
        recordedPeriods (pre ++ [r]) = A ++ C ++ B ∧
        A.length = 46 ∧ A.head? = some (1000000 / sqrtf (2 * 100)) ∧
        (∀ x ∈ A, 10000 < x) ∧
        List.Chain' (fun x y => y < x) A ∧
        C = List.replicate 104 10000 ∧
        B.length = 50 ∧ B.head? = some 10000 ∧ List.Chain' (fun x y => x < y) B := by
  obtain ⟨-, -, -, p4, -, -, p7, -⟩ := scenarioA_planned sqrtf s0
  refine ⟨p4, p7, scenarioA_due_run sqrtf s0 hlo hhi, ?_⟩
  intro polls pre r post htr hpre hr
  obtain ⟨h1, h2⟩ := scenarioA_run sqrtf s0 polls pre r post htr hpre hr
  refine ⟨h2, ?_⟩
  rw [h1]
  exact scenarioA_rampList (sqrtf (2 * 100)) hlo hhi

/-- Counterexample to C16 as stated: scenario A on the constructed axis, with
`sqrtMicro` as square root, polled once at the start and then exactly when each step
is due.  The run completes with 200 steps, and the 47th step, emitted at remaining
distance 154 (well before the deceleration distance 50), already has the cruise period
10000 us as recorded period: only 46 accelerating steps are strictly above it. -/
theorem scenarioA_recorded_periods_counterexample :
    ∃ (pre : List PollRecord) (r : PollRecord),
      pollTrace (setupRelativeMoveInSteps sqrtMicro (configure constructed 100 100) 200)
          (dueRun 201 (setupRelativeMoveInSteps sqrtMicro (configure constructed 100 100) 200))
        = pre ++ [r] ∧
      (∀ x ∈ pre, x.after.result = false) ∧ r.after.result = true ∧
      (recordedPeriods (pre ++ [r])).length = 200 ∧
      (recordedPeriods (pre ++ [r]))[46]? = some 10000 ∧
      (remainingAtSteps (pre ++ [r]))[46]? = some 154 := by
  have hlo : (14142135 / 1000000 : ℚ) ≤ sqrtMicro (2 * 100) := by
    rw [sqrtMicro_two_hundred]
  have hhi : sqrtMicro (2 * 100) ≤ (14142136 / 1000000 : ℚ) := by
    rw [sqrtMicro_two_hundred]
    norm_num
  obtain ⟨pre, r, htr, hpre, hr⟩ := scenarioA_due_run sqrtMicro constructed hlo hhi
  obtain ⟨h1, h2⟩ := scenarioA_run sqrtMicro constructed _ pre r [] htr hpre hr
  obtain ⟨A, C, B, hl, hA, -, -, -, hC, hB, -, -⟩ :=
    scenarioA_rampList (sqrtMicro (2 * 100)) hlo hhi
  refine ⟨pre, r, htr, hpre, hr, ?_, ?_, ?_⟩
  · rw [h1, hl, List.length_append, List.length_append, hA, hB, hC, List.length_replicate]
  · rw [h1, hl, List.append_assoc, List.getElem?_append_right (by rw [hA]), hA, hC]
    rfl
  · rw [h2, countdown_getElem? 200 46 (by norm_num)]
    rfl

/-- Witness for C16 (amended): the constructed axis with `sqrtMicro` as square root,
which returns 14.142135 for `sqrt 200`. -/
theorem scenarioA_recorded_periods_witness :
    ((14142135 / 1000000 : ℚ) ≤ sqrtMicro (2 * 100)
      ∧ sqrtMicro (2 * 100) ≤ (14142136 / 1000000 : ℚ)) ∧
    ∃ (pre : List PollRecord) (r : PollRecord),
      pollTrace (setupRelativeMoveInSteps sqrtMicro (configure constructed 100 100) 200)
          (dueRun 201 (setupRelativeMoveInSteps sqrtMicro (configure constructed 100 100) 200))
        = pre ++ [r] ∧
      (∀ x ∈ pre, x.after.result = false) ∧ r.after.result = true ∧
      remainingAtSteps (pre ++ [r]) = countdown 200 ∧
      ∃ A C B : List ℚ,
        recordedPeriods (pre ++ [r]) = A ++ C ++ B ∧
        A.length = 46 ∧ A.head? = some (1000000 / sqrtMicro (2 * 100)) ∧
        (∀ x ∈ A, 10000 < x) ∧
        List.Chain' (fun x y => y < x) A ∧
        C = List.replicate 104 10000 ∧
        B.length = 50 ∧ B.head? = some 10000 ∧ List.Chain' (fun x y => x < y) B := by
  have hlo : (14142135 / 1000000 : ℚ) ≤ sqrtMicro (2 * 100) := by
    rw [sqrtMicro_two_hundred]
  have hhi : sqrtMicro (2 * 100) ≤ (14142136 / 1000000 : ℚ) := by
    rw [sqrtMicro_two_hundred]
    norm_num
  obtain ⟨-, -, ⟨pre, r, htr, hpre, hr⟩, hall⟩ :=
    scenarioA_recorded_periods sqrtMicro constructed hlo hhi
  obtain ⟨h2, hABC⟩ := hall _ pre r [] htr hpre hr
  exact ⟨⟨hlo, hhi⟩, pre, r, htr, hpre, hr, h2, hABC⟩

/-! ## What a successful homing leaves in the target -/

/-- A homing loop keeps the target and the direction of the move it runs. -/
theorem homingLoop_frame (level : Bool) :
    ∀ (fuel : Nat) (s : SpeedyStepper) (w : World) (s' : SpeedyStepper) (w' : World)
      (flag : Bool),
      homingLoop level fuel s w = some (s', w', flag) →
      s'.targetPosition_InSteps = s.targetPosition_InSteps ∧
      s'.direction_Scaler = s.direction_Scaler := by
  intro fuel
  induction fuel with
  | zero =>
    intro s w s' w' flag h
    simp [homingLoop] at h
  | succ fuel ih =>
    intro s w s' w' flag h
    obtain ⟨⟨t0, t1, hp⟩, -, -⟩ := pollOnce_spec s w
    obtain ⟨m1, m2, -⟩ := processMovement_summary s t0 t1
    rw [← hp] at m1 m2
    unfold homingLoop at h
    split_ifs at h with h1 h2
    · simp only [Option.some.injEq, Prod.mk.injEq] at h
      obtain ⟨e1, -, -⟩ := h
      subst e1
      exact ⟨m1, m2⟩
    · simp only [Option.some.injEq, Prod.mk.injEq] at h
      obtain ⟨e1, -, -⟩ := h
      subst e1
      exact ⟨m1, m2⟩
    · obtain ⟨i1, i2⟩ := ih _ _ s' w' flag h
      exact ⟨i1.trans m1, i2.trans m2⟩

/-- A third phase that ends with `true`: its loop ended with the flag, and the axis
returned is the one the loop left, with the position set to 0 and the speed
restored. -/
theorem homeApproach_frame (sqrtf : ℚ → ℚ) (fuel : Nat) (original : ℚ) (dir : Int) (speed : ℚ)
    (maxDist : Int) (s : SpeedyStepper) (w : World) (s' : SpeedyStepper) (w' : World)
    (h : homeApproach sqrtf fuel original dir speed maxDist s w = some (s', w', true)) :
    ∃ se : SpeedyStepper,
      homingLoop false fuel (approachPlan sqrtf s dir speed maxDist) w = some (se, w', true) ∧
      s' = setSpeedInStepsPerSecond (setCurrentPositionInSteps se 0) original := by
  unfold homeApproach at h
  cases hl : homingLoop false fuel (approachPlan sqrtf s dir speed maxDist) w with
  | none => rw [hl] at h; simp at h
  | some res =>
    obtain ⟨s1, w1, flag⟩ := res
    rw [hl] at h
    simp only at h
    split_ifs at h with hf
    · simp at h
    · simp only [Option.some.injEq, Prod.mk.injEq, and_true] at h
      obtain ⟨e1, e2⟩ := h
      subst e1 e2
      have hflag : flag = true := by
        cases flag
        · exact absurd rfl hf
        · rfl
      subst hflag
      exact ⟨s1, rfl, rfl⟩

/-- A second phase that ends with `true`: its loop ended with the flag, and the third
phase was run on the axis that loop left. -/
theorem homeBackOff_frame (sqrtf : ℚ → ℚ) (fuel : Nat) (original : ℚ) (dir : Int) (speed : ℚ)
    (maxDist : Int) (s : SpeedyStepper) (w : World) (s' : SpeedyStepper) (w' : World)
    (h : homeBackOff sqrtf fuel original dir speed maxDist s w = some (s', w', true)) :
    ∃ (sa : SpeedyStepper) (wa : World),
      homingLoop true fuel (backOffPlan sqrtf s dir maxDist) w = some (sa, wa, true) ∧
      homeApproach sqrtf fuel original dir speed maxDist sa wa = some (s', w', true) := by
  unfold homeBackOff at h
  cases hl : homingLoop true fuel (backOffPlan sqrtf s dir maxDist) w with
  | none => rw [hl] at h; simp at h
  | some res =>
    obtain ⟨s1, w1, flag⟩ := res
    rw [hl] at h
    simp only at h
    split_ifs at h with hf
    · simp at h
    · have hflag : flag = true := by
        cases flag
        · exact absurd rfl hf
        · rfl
      subst hflag
      exact ⟨s1, w1, rfl, h⟩

/-- A call of `moveToHomeInSteps` that returns `true` has run the second phase, from
the axis as it was at the call when the switch read `LOW` on entry, and else from
the axis the first loop left when it ended with the flag. -/
theorem moveToHomeInSteps_true (sqrtf : ℚ → ℚ) (fuel : Nat) (s : SpeedyStepper)
    (w : World) (dir : Int) (speed : ℚ) (maxDist : Int) (s' : SpeedyStepper) (w' : World)
    (h : moveToHomeInSteps sqrtf fuel s w dir speed maxDist = some (s', w', true)) :
    ∃ (sb : SpeedyStepper) (wb : World),
      (((digitalRead (digitalRead w).2).1 = false ∧ sb = s
          ∧ wb = (digitalRead (digitalRead w).2).2) ∨
        ((digitalRead (digitalRead w).2).1 = true ∧
          homingLoop false fuel (seekPlan sqrtf s dir speed maxDist)
            (digitalRead (digitalRead w).2).2 = some (sb, wb, true))) ∧
      homeBackOff sqrtf fuel s.desiredSpeed_InStepsPerSecond dir speed maxDist sb wb
        = some (s', w', true) := by
  unfold moveToHomeInSteps at h
  split_ifs at h with h0
  · cases hl : homingLoop false fuel (seekPlan sqrtf s dir speed maxDist)
        (digitalRead (digitalRead w).2).2 with
    | none => rw [hl] at h; simp at h
    | some res =>
      obtain ⟨s1, w1, flag⟩ := res
      rw [hl] at h
      simp only at h
      split_ifs at h with hf
      · simp at h
      · have hflag : flag = true := by
          cases flag
          · exact absurd rfl hf
          · rfl
        subst hflag
        exact ⟨s1, w1, Or.inr ⟨h0, rfl⟩, h⟩
  · have h0' : (digitalRead (digitalRead w).2).1 = false := by
      cases hv : (digitalRead (digitalRead w).2).1
      · rfl
      · exact absurd hv h0
    exact ⟨s, _, Or.inl ⟨h0', rfl, rfl⟩, h⟩

/-- C21: whenever `moveToHomeInSteps` returns `true`, the third loop ended with the
switch flag on an axis `se`, and what is returned is `se` with the position set to 0
and the cruise speed restored: the target is still the one the slow approach
planned, `sa + maxDistance * direction` with `sa` the position of the axis the
back-off loop left, the direction is still the one the slow approach planned, and
`motionComplete()` is `true` on return exactly when `sa + maxDistance * direction`
is 0. -/
theorem homing_success_keeps_target (sqrtf : ℚ → ℚ) (fuel : Nat) (s : SpeedyStepper)
    (w : World) (dir : Int) (speed : ℚ) (maxDist : Int) (s' : SpeedyStepper) (w' : World)
    (h : moveToHomeInSteps sqrtf fuel s w dir speed maxDist = some (s', w', true)) :
    ∃ (sb : SpeedyStepper) (wb : World) (sa : SpeedyStepper) (wa : World)
      (se : SpeedyStepper),
      homingLoop true fuel (backOffPlan sqrtf sb dir maxDist) wb = some (sa, wa, true) ∧
      homingLoop false fuel (approachPlan sqrtf sa dir speed maxDist) wa
        = some (se, w', true) ∧
      s' = setSpeedInStepsPerSecond (setCurrentPositionInSteps se 0)
        s.desiredSpeed_InStepsPerSecond ∧
      s'.currentPosition_InSteps = 0 ∧
      s'.targetPosition_InSteps = se.targetPosition_InSteps ∧
      s'.targetPosition_InSteps = sa.currentPosition_InSteps + maxDist * dir ∧
      s'.direction_Scaler = se.direction_Scaler ∧
      s'.direction_Scaler = (approachPlan sqrtf sa dir speed maxDist).direction_Scaler ∧
      s'.direction_Scaler = (if maxDist * dir < 0 then -1 else 1) ∧
      (motionComplete s' = true ↔ sa.currentPosition_InSteps + maxDist * dir = 0) := by
  obtain ⟨sb, wb, -, hb⟩ := moveToHomeInSteps_true sqrtf fuel s w dir speed maxDist s' w' h
  obtain ⟨sa, wa, hlb, ha⟩ := homeBackOff_frame sqrtf fuel _ dir speed maxDist sb wb s' w' hb
  obtain ⟨se, hla, hs'⟩ := homeApproach_frame sqrtf fuel _ dir speed maxDist sa wa s' w' ha
  obtain ⟨l1, l2⟩ := homingLoop_frame false fuel _ wa se w' true hla
  obtain ⟨f1, -, f3, -⟩ := setupRelativeMoveInSteps_fields sqrtf
    (setSpeedInStepsPerSecond sa (speed / 8)) (maxDist * dir)
  have hplanT : (approachPlan sqrtf sa dir speed maxDist).targetPosition_InSteps
      = sa.currentPosition_InSteps + maxDist * dir := f1
  have hplanD : (approachPlan sqrtf sa dir speed maxDist).direction_Scaler
      = (if maxDist * dir < 0 then -1 else 1) := f3
  have hpos : s'.currentPosition_InSteps = 0 := by rw [hs']; rfl
  have htar : s'.targetPosition_InSteps = se.targetPosition_InSteps := by rw [hs']; rfl
  have hdir : s'.direction_Scaler = se.direction_Scaler := by rw [hs']; rfl
  refine ⟨sb, wb, sa, wa, se, hlb, hla, hs', hpos, htar, ?_, hdir, ?_, ?_, ?_⟩
  · rw [htar, l1, hplanT]
  · rw [hdir, l2]
  · rw [hdir, l2, hplanD]
  · unfold motionComplete
    rw [hpos, htar, l1, hplanT]
    constructor
    · intro hm
      split_ifs at hm with hc
      · exact hc.symm
    · intro hz
      rw [if_pos hz.symm]

/-- Witness for C21: the run `homing_found_at_once_returns`. -/
theorem homing_success_keeps_target_witness :
    ∃ (s' : SpeedyStepper) (w' : World),
      moveToHomeInSteps sqrtMicro 1 constructed switchFoundAtOnce 1 80 100
        = some (s', w', true) ∧
      ∃ (sb : SpeedyStepper) (wb : World) (sa : SpeedyStepper) (wa : World)
        (se : SpeedyStepper),
        homingLoop true 1 (backOffPlan sqrtMicro sb 1 100) wb = some (sa, wa, true) ∧
        homingLoop false 1 (approachPlan sqrtMicro sa 1 80 100) wa = some (se, w', true) ∧
        s' = setSpeedInStepsPerSecond (setCurrentPositionInSteps se 0)
          constructed.desiredSpeed_InStepsPerSecond ∧
        s'.currentPosition_InSteps = 0 ∧
        s'.targetPosition_InSteps = se.targetPosition_InSteps ∧
        s'.targetPosition_InSteps = sa.currentPosition_InSteps + 100 * 1 ∧
        s'.direction_Scaler = se.direction_Scaler ∧
        s'.direction_Scaler = (approachPlan sqrtMicro sa 1 80 100).direction_Scaler ∧
        s'.direction_Scaler = (if (100 : Int) * 1 < 0 then -1 else 1) ∧
        (motionComplete s' = true ↔ sa.currentPosition_InSteps + 100 * 1 = 0) := by
  obtain ⟨s', w', h⟩ := homing_found_at_once_returns
  exact ⟨s', w', h, homing_success_keeps_target sqrtMicro 1 constructed switchFoundAtOnce
    1 80 100 s' w' h⟩

/-! ## Homing with the switch never active: the call returns -/

theorem startOfMove_armed (s : SpeedyStepper) (t : Nat) (hstart : s.startNewMove = false) :
    startOfMove s t = s := by
  unfold startOfMove
  rw [hstart]
  simp

/-- A poll away from the target leaves the start-of-move flag cleared. -/
theorem processMovement_armed (s : SpeedyStepper) (t0 t1 : Nat)
    (hne : s.currentPosition_InSteps ≠ s.targetPosition_InSteps) :
    (processMovement s t0 t1).stepper.startNewMove = false := by
  obtain ⟨-, -, -, -, -, -, -, -, a9, -⟩ := startOfMove_fields s t0
  obtain ⟨-, -, -, -, -, -, -, b8, -⟩ := emitStep_fields (startOfMove s t0) t1
  by_cases hb : subULong t1 (startOfMove s t0).ramp_LastStepTime_InUS
        < toULong (startOfMove s t0).ramp_NextStepPeriod_InUS
  · rw [processMovement_of_wait s t0 t1 hne hb]
    exact a9
  · rw [processMovement_of_step s t0 t1 hne hb]
    by_cases hfin : (emitStep (startOfMove s t0) t1).currentPosition_InSteps
        = (emitStep (startOfMove s t0) t1).targetPosition_InSteps
    · rw [if_pos hfin]
      exact b8.trans a9
    · rw [if_neg hfin]
      exact b8.trans a9

/-- A poll of a move in progress whose step is due emits the step. -/
theorem processMovement_due (s : SpeedyStepper) (t0 t1 : Nat)
    (hne : s.currentPosition_InSteps ≠ s.targetPosition_InSteps)
    (hstart : s.startNewMove = false)
    (hdue : ¬ subULong t1 s.ramp_LastStepTime_InUS < toULong s.ramp_NextStepPeriod_InUS) :
    (processMovement s t0 t1).pulse = true := by
  rw [processMovement_of_step s t0 t1 hne (by rw [startOfMove_armed s t0 hstart]; exact hdue)]
  by_cases hfin : (emitStep (startOfMove s t0) t1).currentPosition_InSteps
      = (emitStep (startOfMove s t0) t1).targetPosition_InSteps
  · rw [if_pos hfin]
  · rw [if_neg hfin]

/-- A poll of a move in progress whose step is not yet due changes nothing. -/
theorem processMovement_early (s : SpeedyStepper) (t0 t1 : Nat)
    (hne : s.currentPosition_InSteps ≠ s.targetPosition_InSteps)
    (hstart : s.startNewMove = false)
    (hearly : subULong t1 s.ramp_LastStepTime_InUS < toULong s.ramp_NextStepPeriod_InUS) :
    processMovement s t0 t1 = { stepper := s, result := false, pulse := false } := by
  rw [processMovement_of_wait s t0 t1 hne (by rw [startOfMove_armed s t0 hstart]; exact hearly),
    startOfMove_armed s t0 hstart]

theorem subULong_next (a b : Nat) :
    subULong ((a + 1) % ULONG_MOD) b = (subULong a b + 1) % ULONG_MOD := by
  unfold subULong ULONG_MOD
  omega

theorem subULong_lt (a b : Nat) : subULong a b < ULONG_MOD := by
  unfold subULong
  exact Nat.mod_lt _ (by unfold ULONG_MOD; norm_num)

theorem toULong_lt (x : ℚ) : toULong x < ULONG_MOD := by
  unfold toULong
  exact Nat.mod_lt _ (by unfold ULONG_MOD; norm_num)

/-- A loop returns without the flag if its first poll returns `true`. -/
theorem homingLoop_returns_done (level : Bool) (s : SpeedyStepper) (w : World)
    (h1 : (pollOnce s w).1.result = true) :
    ∃ N : Nat, ∀ fuel : Nat, N ≤ fuel →
      ∃ (s' : SpeedyStepper) (w' : World), homingLoop level fuel s w = some (s', w', false) := by
  refine ⟨1, fun fuel hf => ?_⟩
  obtain ⟨f, rfl⟩ : ∃ f, fuel = f + 1 := ⟨fuel - 1, by omega⟩
  exact ⟨_, _, homingLoop_done level f s w h1⟩

/-- A loop returns without the flag if, after a first iteration that neither completes
the move nor sets the flag, the rest of the loop does. -/
theorem homingLoop_returns_next (level : Bool) (s : SpeedyStepper) (w : World)
    (h1 : (pollOnce s w).1.result = false)
    (h2 : (debounce level (pollOnce s w).2).1 = false)
    (hnext : ∃ N : Nat, ∀ fuel : Nat, N ≤ fuel →
      ∃ (s' : SpeedyStepper) (w' : World),
        homingLoop level fuel (pollOnce s w).1.stepper (debounce level (pollOnce s w).2).2
          = some (s', w', false)) :
    ∃ N : Nat, ∀ fuel : Nat, N ≤ fuel →
      ∃ (s' : SpeedyStepper) (w' : World), homingLoop level fuel s w = some (s', w', false) := by
  obtain ⟨N, hN⟩ := hnext
  refine ⟨N + 1, fun fuel hf => ?_⟩
  obtain ⟨f, rfl⟩ : ∃ f, fuel = f + 1 := ⟨fuel - 1, by omega⟩
  rw [homingLoop_continue level f s w h1 h2]
  exact hN f (by omega)

/-- One iteration of the seek loop on a move in progress whose step is due, the switch
reading `HIGH`: if the rest of the loop returns without the flag for every axis with
one step less to go, so does the loop. -/
theorem seekLoop_due (T δ : Int) (hδ : δ = 1 ∨ δ = -1) (m : Nat)
    (ih : ∀ (s : SpeedyStepper) (w : World),
      s.targetPosition_InSteps = T → s.direction_Scaler = δ → s.startNewMove = false →
      δ * (T - s.currentPosition_InSteps) = (m : Int) →
      (∀ k, w.switch k = true) →
      (∀ k, w.clock (k + 1) = (w.clock k + 1) % ULONG_MOD) →
      ∃ N : Nat, ∀ fuel : Nat, N ≤ fuel →
        ∃ (s' : SpeedyStepper) (w' : World), homingLoop false fuel s w = some (s', w', false))
    (s : SpeedyStepper) (w : World)
    (hT : s.targetPosition_InSteps = T) (hdir : s.direction_Scaler = δ)
    (hstart : s.startNewMove = false)
    (hrem : δ * (T - s.currentPosition_InSteps) = ((m + 1 : Nat) : Int))
    (hsw : ∀ k, w.switch k = true)
    (hck : ∀ k, w.clock (k + 1) = (w.clock k + 1) % ULONG_MOD)
    (hdue : ¬ subULong (w.clock w.ticks) s.ramp_LastStepTime_InUS
      < toULong s.ramp_NextStepPeriod_InUS) :
    ∃ N : Nat, ∀ fuel : Nat, N ≤ fuel →
      ∃ (s' : SpeedyStepper) (w' : World), homingLoop false fuel s w = some (s', w', false) := by
  have hne : s.currentPosition_InSteps ≠ s.targetPosition_InSteps := by
    rw [hT]
    rcases hδ with h | h <;> subst h <;> omega
  have hpoll := pollOnce_later s w hne hstart
  have hp := processMovement_due s 0 (w.clock w.ticks) hne hstart hdue
  have harm := processMovement_armed s 0 (w.clock w.ticks) hne
  obtain ⟨m1, m2, -, m4, -, -, -⟩ := processMovement_summary s 0 (w.clock w.ticks)
  rw [if_pos hp, hdir] at m4
  by_cases hres : (processMovement s 0 (w.clock w.ticks)).result = true
  · exact homingLoop_returns_done false s w (by rw [hpoll]; exact hres)
  · have hres' : (processMovement s 0 (w.clock w.ticks)).result = false := by
      cases hv : (processMovement s 0 (w.clock w.ticks)).result
      · rfl
      · exact absurd hv hres
    have hdeb : debounce false { w with ticks := w.ticks + 1 }
        = (false, { w with ticks := w.ticks + 1, reads := w.reads + 1 }) :=
      debounce_other false { w with ticks := w.ticks + 1 }
        (by show w.switch w.reads ≠ false
            rw [hsw]
            exact Bool.noConfusion)
    refine homingLoop_returns_next false s w (by rw [hpoll]; exact hres')
      (by rw [hpoll, hdeb]) ?_
    rw [hpoll, hdeb]
    exact ih _ _ (m1.trans hT) (m2.trans hdir) harm
      (by rw [m4]; rcases hδ with h | h <;> subst h <;> push_cast at hrem ⊢ <;> omega)
      hsw hck

/-- The seek loop on a move in progress, with the switch reading `HIGH` at every read
and the clock advancing by one microsecond per reading: the loop returns without
the flag, given enough iterations. -/
theorem seekLoop_returns_armed (T δ : Int) (hδ : δ = 1 ∨ δ = -1) :
    ∀ (n : Nat) (s : SpeedyStepper) (w : World),
      s.targetPosition_InSteps = T → s.direction_Scaler = δ → s.startNewMove = false →
      δ * (T - s.currentPosition_InSteps) = (n : Int) →
      (∀ k, w.switch k = true) →
      (∀ k, w.clock (k + 1) = (w.clock k + 1) % ULONG_MOD) →
      ∃ N : Nat, ∀ fuel : Nat, N ≤ fuel →
        ∃ (s' : SpeedyStepper) (w' : World),
          homingLoop false fuel s w = some (s', w', false) := by
  intro n
  induction n with
  | zero =>
    intro s w hT hdir _ hrem _ _
    have hat : s.currentPosition_InSteps = s.targetPosition_InSteps := by
      rw [hT]
      rcases hδ with h | h <;> subst h <;> push_cast at hrem <;> omega
    refine homingLoop_returns_done false s w ?_
    unfold pollOnce
    rw [if_pos hat, processMovement_of_done s 0 0 hat]
  | succ m ih =>
    -- by induction on the time the step still has to wait
    have inner : ∀ (μ : Nat) (s : SpeedyStepper) (w : World),
        s.targetPosition_InSteps = T → s.direction_Scaler = δ → s.startNewMove = false →
        δ * (T - s.currentPosition_InSteps) = ((m + 1 : Nat) : Int) →
        (∀ k, w.switch k = true) →
        (∀ k, w.clock (k + 1) = (w.clock k + 1) % ULONG_MOD) →
        ULONG_MOD - 1 - subULong (w.clock w.ticks) s.ramp_LastStepTime_InUS ≤ μ →
        ∃ N : Nat, ∀ fuel : Nat, N ≤ fuel →
          ∃ (s' : SpeedyStepper) (w' : World),
            homingLoop false fuel s w = some (s', w', false) := by
      intro μ
      induction μ with
      | zero =>
        intro s w hT hdir hstart hrem hsw hck hμ
        refine seekLoop_due T δ hδ m ih s w hT hdir hstart hrem hsw hck ?_
        have h1 := toULong_lt s.ramp_NextStepPeriod_InUS
        have h2 := subULong_lt (w.clock w.ticks) s.ramp_LastStepTime_InUS
        omega
      | succ μ ihμ =>
        intro s w hT hdir hstart hrem hsw hck hμ
        by_cases hdue : subULong (w.clock w.ticks) s.ramp_LastStepTime_InUS
            < toULong s.ramp_NextStepPeriod_InUS
        · have hne : s.currentPosition_InSteps ≠ s.targetPosition_InSteps := by
            rw [hT]
            rcases hδ with h | h <;> subst h <;> omega
          have hpoll := pollOnce_later s w hne hstart
          rw [processMovement_early s 0 (w.clock w.ticks) hne hstart hdue] at hpoll
          have hdeb : debounce false { w with ticks := w.ticks + 1 }
              = (false, { w with ticks := w.ticks + 1, reads := w.reads + 1 }) :=
            debounce_other false { w with ticks := w.ticks + 1 }
              (by show w.switch w.reads ≠ false
                  rw [hsw]
                  exact Bool.noConfusion)
          refine homingLoop_returns_next false s w (by rw [hpoll]) (by rw [hpoll, hdeb]) ?_
          rw [hpoll, hdeb]
          refine ihμ s _ hT hdir hstart hrem hsw hck ?_
          show ULONG_MOD - 1 - subULong (w.clock (w.ticks + 1)) s.ramp_LastStepTime_InUS ≤ μ
          rw [hck, subULong_next]
          have h1 := toULong_lt s.ramp_NextStepPeriod_InUS
          have h3 : (subULong (w.clock w.ticks) s.ramp_LastStepTime_InUS + 1) % ULONG_MOD
              = subULong (w.clock w.ticks) s.ramp_LastStepTime_InUS + 1 :=
            Nat.mod_eq_of_lt (by omega)
          rw [h3]
          omega
        · exact seekLoop_due T δ hδ m ih s w hT hdir hstart hrem hsw hck hdue
    intro s w hT hdir hstart hrem hsw hck
    exact inner _ s w hT hdir hstart hrem hsw hck (le_refl _)

/-- The seek loop on any axis heading for its target, with the switch reading `HIGH` at
every read and the clock advancing by one microsecond per reading: the loop returns
without the flag, given enough iterations. -/
theorem seekLoop_returns (T δ : Int) (hδ : δ = 1 ∨ δ = -1) (s : SpeedyStepper) (w : World)
    (hT : s.targetPosition_InSteps = T) (hdir : s.direction_Scaler = δ)
    (hrem : 0 ≤ δ * (T - s.currentPosition_InSteps))
    (hsw : ∀ k, w.switch k = true)
    (hck : ∀ k, w.clock (k + 1) = (w.clock k + 1) % ULONG_MOD) :
    ∃ N : Nat, ∀ fuel : Nat, N ≤ fuel →
      ∃ (s' : SpeedyStepper) (w' : World), homingLoop false fuel s w = some (s', w', false) := by
  by_cases hstart : s.startNewMove = false
  · exact seekLoop_returns_armed T δ hδ (Int.toNat (δ * (T - s.currentPosition_InSteps))) s w
      hT hdir hstart (Int.toNat_of_nonneg hrem).symm hsw hck
  · have hstart' : s.startNewMove = true := by
      cases hv : s.startNewMove
      · exact absurd hv hstart
      · rfl
    by_cases hat : s.currentPosition_InSteps = s.targetPosition_InSteps
    · refine homingLoop_returns_done false s w ?_
      unfold pollOnce
      rw [if_pos hat, processMovement_of_done s 0 0 hat]
    · have hpoll := pollOnce_first s w hat hstart'
      have harm := processMovement_armed s (w.clock w.ticks) (w.clock (w.ticks + 1)) hat
      obtain ⟨m1, m2, -, m4, -, -, -⟩ :=
        processMovement_summary s (w.clock w.ticks) (w.clock (w.ticks + 1))
      rw [hdir] at m4
      by_cases hres : (processMovement s (w.clock w.ticks) (w.clock (w.ticks + 1))).result = true
      · exact homingLoop_returns_done false s w (by rw [hpoll]; exact hres)
      · have hres' : (processMovement s (w.clock w.ticks) (w.clock (w.ticks + 1))).result
            = false := by
          cases hv : (processMovement s (w.clock w.ticks) (w.clock (w.ticks + 1))).result
          · rfl
          · exact absurd hv hres
        have hdeb : debounce false { w with ticks := w.ticks + 1 + 1 }
            = (false, { w with ticks := w.ticks + 1 + 1, reads := w.reads + 1 }) :=
          debounce_other false { w with ticks := w.ticks + 1 + 1 }
            (by show w.switch w.reads ≠ false
                rw [hsw]
                exact Bool.noConfusion)
        refine homingLoop_returns_next false s w (by rw [hpoll]; exact hres')
          (by rw [hpoll, hdeb]) ?_
        rw [hpoll, hdeb]
        have hrem' : 0 ≤ δ * (T - (processMovement s (w.clock w.ticks)
            (w.clock (w.ticks + 1))).stepper.currentPosition_InSteps) := by
          rw [m4]
          rw [hT] at hat
          split_ifs
          · rcases hδ with h | h <;> subst h <;> omega
          · exact hrem
        exact seekLoop_returns_armed T δ hδ _ _ _ (m1.trans hT) (m2.trans hdir) harm
          (Int.toNat_of_nonneg hrem').symm hsw hck

/-- With the switch reading `HIGH` at every read and the clock advancing by one
microsecond per reading, `moveToHomeInSteps` returns `false`, given enough loop
iterations. -/
theorem homing_switch_never_active_returns (sqrtf : ℚ → ℚ) (s : SpeedyStepper) (w : World)
    (dir : Int) (speed : ℚ) (maxDist : Int)
    (hsw : ∀ n : Nat, w.switch n = true)
    (hck : ∀ k : Nat, w.clock (k + 1) = (w.clock k + 1) % ULONG_MOD) :
    ∃ N : Nat, ∀ fuel : Nat, N ≤ fuel →
      ∃ (s' : SpeedyStepper) (w' : World),
        moveToHomeInSteps sqrtf fuel s w dir speed maxDist = some (s', w', false) := by
  obtain ⟨f1, f2, f3, -⟩ := setupRelativeMoveInSteps_fields sqrtf
    (setSpeedInStepsPerSecond s speed) (maxDist * dir)
  have hplan : seekPlan sqrtf s dir speed maxDist
      = setupRelativeMoveInSteps sqrtf (setSpeedInStepsPerSecond s speed) (maxDist * dir) := rfl
  have hpos : (setSpeedInStepsPerSecond s speed).currentPosition_InSteps
      = s.currentPosition_InSteps := rfl
  rw [← hplan] at f1 f2 f3
  rw [hpos] at f1 f2
  have hδ : (if maxDist * dir < 0 then (-1 : Int) else 1) = 1
      ∨ (if maxDist * dir < 0 then (-1 : Int) else 1) = -1 := by
    split_ifs
    · exact Or.inr rfl
    · exact Or.inl rfl
  obtain ⟨N, hN⟩ := seekLoop_returns (s.currentPosition_InSteps + maxDist * dir)
    (if maxDist * dir < 0 then -1 else 1) hδ (seekPlan sqrtf s dir speed maxDist)
    (digitalRead (digitalRead w).2).2 f1 f3
    (by rw [f2]
        split_ifs with h
        · linarith
        · have : 0 ≤ maxDist * dir := not_lt.mp h
          linarith)
    hsw hck
  refine ⟨N, fun fuel hf => ?_⟩
  obtain ⟨s', w', hl⟩ := hN fuel hf
  refine ⟨s', w', ?_⟩
  unfold moveToHomeInSteps
  rw [if_pos (show (digitalRead (digitalRead w).2).1 = true from hsw _), hl]
  rfl

/-- C13 (amended): if the switch reads inactive (`HIGH`) on every read, every call of
`moveToHomeInSteps` that returns has polled the seek move to its end: it returns
`false` and the position on return is `p + maxDistance * direction`, the target of
the seek move (the axis has moved, the position is not set back).  The call does
return, given enough loop iterations, when the clock advances by one microsecond per
reading. -/
theorem homing_fails_at_seek_target (sqrtf : ℚ → ℚ) (s : SpeedyStepper)
    (w : World) (dir : Int) (speed : ℚ) (maxDist : Int)
    (hsw : ∀ n : Nat, w.switch n = true) :
    (∀ (fuel : Nat) (s' : SpeedyStepper) (w' : World) (b : Bool),
      moveToHomeInSteps sqrtf fuel s w dir speed maxDist = some (s', w', b) →
      b = false ∧ s'.currentPosition_InSteps = s.currentPosition_InSteps + maxDist * dir) ∧
    ((∀ k : Nat, w.clock (k + 1) = (w.clock k + 1) % ULONG_MOD) →
      ∃ N : Nat, ∀ fuel : Nat, N ≤ fuel →
        ∃ (s' : SpeedyStepper) (w' : World),
          moveToHomeInSteps sqrtf fuel s w dir speed maxDist = some (s', w', false) ∧
          s'.currentPosition_InSteps = s.currentPosition_InSteps + maxDist * dir) := by
  refine ⟨fun fuel s' w' b h =>
    homing_switch_never_active sqrtf fuel s w dir speed maxDist s' w' b hsw h, fun hck => ?_⟩
  obtain ⟨N, hN⟩ := homing_switch_never_active_returns sqrtf s w dir speed maxDist hsw hck
  refine ⟨N, fun fuel hf => ?_⟩
  obtain ⟨s', w', h⟩ := hN fuel hf
  exact ⟨s', w', h,
    (homing_switch_never_active sqrtf fuel s w dir speed maxDist s' w' false hsw h).2⟩

/-- Witness for C13 (amended): the constructed axis at position 0, homing in direction 1
over at most 100 steps at speed 80, the switch inactive at every read and the clock
advancing by one microsecond per reading. -/
theorem homing_fails_at_seek_target_witness :
    (∀ n : Nat, tickingNeverActive.switch n = true) ∧
    (∀ k : Nat, tickingNeverActive.clock (k + 1)
      = (tickingNeverActive.clock k + 1) % ULONG_MOD) ∧
    ∃ N : Nat, ∀ fuel : Nat, N ≤ fuel →
      ∃ (s' : SpeedyStepper) (w' : World),
        moveToHomeInSteps sqrtMicro fuel constructed tickingNeverActive 1 80 100
          = some (s', w', false) ∧
        s'.currentPosition_InSteps = constructed.currentPosition_InSteps + 100 * 1 := by
  have hck : ∀ k : Nat, tickingNeverActive.clock (k + 1)
      = (tickingNeverActive.clock k + 1) % ULONG_MOD := by
    intro k
    show (k + 1) % ULONG_MOD = (k % ULONG_MOD + 1) % ULONG_MOD
    unfold ULONG_MOD
    omega
  exact ⟨fun _ => rfl, hck,
    (homing_fails_at_seek_target sqrtMicro constructed tickingNeverActive 1 80 100
      (fun _ => rfl)).2 hck⟩

end SpeedyStepper
